import Mathlib

/-!
Verification development for `backend/clickhouse/query.go`.

Shallow embedding of the metric bucketing, decoding and filter matching code
of the ClickHouse query layer.

Conventions of the embedding:

* Go `float64` values are modelled by exact rationals `ℚ`.
* Go `int` / `int64` / `uint64` values are modelled by `Int` / `Nat`; the
  conversions between them are the explicit wrap-around functions below.
* A Go pointer that may be `nil` is an `Option`.
* A run-time panic is the value `none` of the outer `Option` of a result.
-/

set_option linter.unusedVariables false

namespace Clickhouse

/-! ## Machine integers -/

/-- Go conversion `uint64(i)` of an `int`. -/
def toUint64 (i : Int) : Nat := (i % 2 ^ 64).toNat

/-- Go conversion `int(u)` of a `uint64`. -/
def toInt (u : Nat) : Int :=
  if u % 2 ^ 64 < 2 ^ 63 then ((u % 2 ^ 64 : Nat) : Int) else ((u % 2 ^ 64 : Nat) : Int) - 2 ^ 64

/-- Wrap-around of an integer into the `int64` range. -/
def wrapInt64 (x : Int) : Int := (x + 2 ^ 63) % 2 ^ 64 - 2 ^ 63

/-! ## Constants and request / result types -/

/-- The constant `MaxBuckets` (line 37). -/
def MaxBuckets : Int := 240

/-- The GraphQL enum `MetricAggregator` is a Go string type. -/
abbrev MetricAggregator := String

/-- The value of `modelInputs.MetricBucketByNone.String()`. -/
def MetricBucketByNone : String := "None"

/-- The value of `modelInputs.MetricBucketByTimestamp.String()`. -/
def MetricBucketByTimestamp : String := "Timestamp"

/-- One aggregator expression of a request (`modelInputs.MetricExpressionInput`). -/
structure MetricExpressionInput where
  Aggregator : MetricAggregator
  Column : String
  deriving DecidableEq, Repr

/-- One emitted bucket (`modelInputs.MetricBucket`). -/
structure MetricBucket where
  BucketID : Nat
  BucketMin : Option ℚ
  BucketMax : Option ℚ
  BucketValue : Option ℚ
  Group : List String
  MetricType : MetricAggregator
  Column : String
  MetricValue : Option ℚ
  deriving DecidableEq

/-- The result of a metrics read (`modelInputs.MetricsBuckets`). -/
structure MetricsBuckets where
  Buckets : List MetricBucket
  BucketCount : Nat
  SampleFactor : ℚ
  deriving DecidableEq

/-! ## The decode loop of `ReadMetrics` (lines 1968-2060) -/

/-- The values that one successful `rows.Scan(scanResults...)` stores in the
scan destinations `groupKey`, `sampleFactor`, `min`, `max`, `metricResults`
and `groupByColResults`. -/
structure ScanRow where
  groupKey : Nat
  sampleFactor : ℚ
  min : ℚ
  max : ℚ
  metricResults : List (Option ℚ)
  groupByColResults : List String
  deriving DecidableEq

/-- The variables that live across iterations of the `rows.Next()` loop. -/
structure ScanState where
  Buckets : List MetricBucket
  lastBucketId : Int
  hasRows : Bool
  sampleFactor : ℚ
  min : ℚ
  max : ℚ
  groupByColResults : List String
  deriving DecidableEq

/-- The integers `lo, lo+1, ..., hi-1` visited by `for i := lo; i < hi; i++`. -/
def intRange (lo hi : Int) : List Int :=
  (List.range (hi - lo).toNat).map (fun (k : Nat) => lo + (k : Int))

/-- The buckets appended by one pass of the inner `for _, e := range
input.Expressions` of an interpolation loop, at loop index `i`. -/
def interpolated (bucketCount : Int) (exprs : List MetricExpressionInput)
    (min max : ℚ) (group : List String) (i : Int) : List MetricBucket :=
  exprs.map fun e =>
    { BucketID := toUint64 i
      BucketMin := some ((i : ℚ) * (max - min) / (bucketCount : ℚ) + min)
      BucketMax := some (((i + 1 : Int) : ℚ) * (max - min) / (bucketCount : ℚ) + min)
      BucketValue := none
      Group := group
      MetricType := e.Aggregator
      Column := e.Column
      MetricValue := none }

/-- The buckets appended for a scanned row that passed the bucket-id check
(lines 2020-2031).  `bucketId + 1` cannot wrap there, since
`bucketId < uint64(BucketCount)`. -/
def rowBuckets (bucketCount : Int) (exprs : List MetricExpressionInput)
    (r : ScanRow) : List MetricBucket :=
  exprs.enum.map fun p =>
    { BucketID := r.groupKey
      BucketMin := some ((r.groupKey : ℚ) * (r.max - r.min) / (bucketCount : ℚ) + r.min)
      BucketMax := some (((r.groupKey + 1 : Nat) : ℚ) * (r.max - r.min) / (bucketCount : ℚ) + r.min)
      BucketValue := none
      Group := r.groupByColResults
      MetricType := p.2.Aggregator
      Column := p.2.Column
      MetricValue := r.metricResults.getD p.1 none }

/-- One iteration of the `for rows.Next()` loop (lines 1994-2034) on a row
whose `Scan` succeeded. -/
def scanStep (bucketCount : Int) (exprs : List MetricExpressionInput)
    (st : ScanState) (r : ScanRow) : ScanState :=
  let st1 : ScanState :=
    { st with
      hasRows := true
      sampleFactor := r.sampleFactor
      min := r.min
      max := r.max
      groupByColResults := r.groupByColResults }
  if toUint64 bucketCount ≤ r.groupKey then st1
  else
    { st1 with
      Buckets := st1.Buckets
        ++ (intRange (st.lastBucketId + 1) (toInt r.groupKey)).flatMap
            (interpolated bucketCount exprs r.min r.max r.groupByColResults)
        ++ rowBuckets bucketCount exprs r
      lastBucketId := toInt r.groupKey }

/-- The loop variables before the first iteration (lines 1968-1993);
`groupBy` is `len(input.GroupBy)`. -/
def scanInit (groupBy : Nat) : ScanState :=
  { Buckets := []
    lastBucketId := -1
    hasRows := false
    sampleFactor := 0
    min := 0
    max := 0
    groupByColResults := List.replicate groupBy "" }

/-- The whole `for rows.Next()` loop over the rows of a result. -/
def scanLoop (bucketCount : Int) (exprs : List MetricExpressionInput)
    (groupBy : Nat) (rows : List ScanRow) : ScanState :=
  rows.foldl (scanStep bucketCount exprs) (scanInit groupBy)

/-- Lines 2036-2058: the zero-row fallback of the bounds, the trailing
interpolation and the result fields.  `startUnix` and `endUnix` are
`input.Params.DateRange.StartDate.Unix()` and `...EndDate.Unix()`. -/
def finishBuckets (bucketCount : Int) (exprs : List MetricExpressionInput)
    (bucketBy : String) (startUnix endUnix : Int) (st : ScanState) : MetricsBuckets :=
  let fallback : Bool := bucketBy == MetricBucketByTimestamp && !st.hasRows
  let min : ℚ := if fallback then (startUnix : ℚ) else st.min
  let max : ℚ := if fallback then (endUnix : ℚ) else st.max
  { Buckets := st.Buckets
      ++ (intRange (st.lastBucketId + 1) bucketCount).flatMap
          (interpolated bucketCount exprs min max st.groupByColResults)
    SampleFactor := st.sampleFactor
    BucketCount := toUint64 bucketCount }

/-- The decode part of `ReadMetrics` (lines 1968-2060) on the rows of a
successful query. -/
def decodeRows (bucketCount : Int) (exprs : List MetricExpressionInput)
    (bucketBy : String) (groupBy : Nat) (startUnix endUnix : Int)
    (rows : List ScanRow) : MetricsBuckets :=
  finishBuckets bucketCount exprs bucketBy startUnix endUnix
    (scanLoop bucketCount exprs groupBy rows)

/-- The expected image of the emitted buckets for the loop indices
`lo .. hi-1`: one entry per index and expression, in order. -/
def blocks {β : Type} (f : Int → MetricExpressionInput → β)
    (exprs : List MetricExpressionInput) (lo hi : Int) : List β :=
  (intRange lo hi).flatMap (fun i => exprs.map (f i))

/-- The lower bound of bucket `i` when `[mn, mx)` is cut into `n` equal parts,
as the decode loop computes it: `float64(i)*(max-min)/float64(n) + min`. -/
def bucketBound (mn mx : ℚ) (n i : Int) : ℚ := (i : ℚ) * (mx - mn) / (n : ℚ) + mn

/-- The per-group contiguity property: for each group tuple occurring in the
rows and each expression, the emitted buckets of that group and expression
have exactly the ids `0 .. n-1`. -/
def perGroupContiguous (n : Int) (exprs : List MetricExpressionInput)
    (rows : List ScanRow) (out : List MetricBucket) : Prop :=
  ∀ g ∈ rows.map (fun r => r.groupByColResults), ∀ x ∈ exprs,
    ((out.filter (fun b =>
        decide (b.Group = g ∧ b.MetricType = x.Aggregator ∧ b.Column = x.Column))).map
      (fun b => b.BucketID)) = List.range n.toNat

/-- Rows ordered by bucket id and then by group values. -/
def orderedByBucketThenGroup (rows : List ScanRow) : Prop :=
  rows.Pairwise (fun a b => a.groupKey < b.groupKey ∨
    (a.groupKey = b.groupKey ∧ a.groupByColResults ≤ b.groupByColResults))

/-- A `Count` expression. -/
def countExpr : MetricExpressionInput := { Aggregator := "Count", Column := "" }

/-- Two rows of a grouped result: bucket 0 of group `a`, bucket 1 of group `b`. -/
def twoGroupRows : List ScanRow :=
  [ { groupKey := 0, sampleFactor := 1, min := 0, max := 100,
      metricResults := [some 3], groupByColResults := ["a"] },
    { groupKey := 1, sampleFactor := 1, min := 0, max := 100,
      metricResults := [some 4], groupByColResults := ["b"] } ]

/-- Rows of an ungrouped result with a gap at bucket 1 and a stale bucket 7. -/
def gapRows : List ScanRow :=
  [ { groupKey := 0, sampleFactor := 1, min := 10, max := 40,
      metricResults := [some 3], groupByColResults := [] },
    { groupKey := 2, sampleFactor := 1, min := 10, max := 40,
      metricResults := [some 4], groupByColResults := [] },
    { groupKey := 7, sampleFactor := 1, min := 10, max := 40,
      metricResults := [some 9], groupByColResults := [] } ]

/-- Rows out of order, with a stale bucket id 9. -/
def unorderedRows : List ScanRow :=
  [ { groupKey := 2, sampleFactor := 1, min := 0, max := 30,
      metricResults := [some 1], groupByColResults := [] },
    { groupKey := 9, sampleFactor := 1, min := 0, max := 30,
      metricResults := [some 5], groupByColResults := [] },
    { groupKey := 0, sampleFactor := 1, min := 0, max := 30,
      metricResults := [some 2], groupByColResults := [] } ]

/-! ## Time (`time.Time`, `time.Duration`) -/

/-- A `time.Time`, as the number of nanoseconds since the Unix epoch. -/
structure Time where
  unixNano : Int
  deriving DecidableEq, Repr

/-- The constant `time.Second`, in nanoseconds. -/
def Second : Int := 1000000000

/-- The largest `time.Duration` (`1<<63 - 1` nanoseconds). -/
def maxDuration : Int := 2 ^ 63 - 1

/-- The smallest `time.Duration` (`-1 << 63` nanoseconds). -/
def minDuration : Int := -(2 ^ 63)

/-- Model of `t.Unix()`: whole seconds since the epoch, rounded down. -/
def Time.Unix (t : Time) : Int := t.unixNano / Second

/-- Model of `t.Sub(u)`: the duration `t - u` in nanoseconds, saturated to the range of
a `time.Duration`. -/
def Time.Sub (t u : Time) : Int := max minDuration (min maxDuration (t.unixNano - u.unixNano))

/-- Model of `t.Add(d)` for a duration `d` in nanoseconds. -/
def Time.Add (t : Time) (d : Int) : Time := { unixNano := t.unixNano + d }

/-- Rounding of `n / d` to the nearest integer, ties to the even one (the
rounding of float64 arithmetic). -/
def divRoundHalfEven (n d : Nat) : Nat :=
  let q := n / d
  let r := n % d
  if 2 * r < d then q
  else if d < 2 * r then q + 1
  else if q % 2 = 0 then q else q + 1

/-- The number of low bits that a natural number of more than 53 bits loses in
a float64: the least `k` with `x < 2^(53+k)`, searched from `k` upwards in at
most `fuel` steps. -/
def droppedBits : Nat → Nat → Nat → Nat
  | 0, k, _ => k
  | fuel + 1, k, x => if x < 2 ^ (53 + k) then k else droppedBits fuel (k + 1) x

/-- The float64 nearest to the natural number `x` (53 significant bits, ties to
even), as a natural number; exact for `x < 2^253`, far above the values that
the nanoseconds of an `int64` duration reach. -/
def roundFloat64 (x : Nat) : Nat :=
  if x < 2 ^ 53 then x
  else divRoundHalfEven x (2 ^ droppedBits 200 1 x) * 2 ^ droppedBits 200 1 x

/-- The binary exponent `j` for which `a * 2^j / 10^9` has 53 significant bits,
searched from `j` upwards in at most `fuel` steps. -/
def quotientShift : Nat → Nat → Nat → Nat
  | 0, j, _ => j
  | fuel + 1, j, a => if 2 ^ 52 * 10 ^ 9 ≤ a * 2 ^ j then j else quotientShift fuel (j + 1) a

/-- The float64 quotient `float64(nsec) / 1e9` for `nsec < 10^9`, in units of
`2^-82`. -/
def float64Fraction (nsec : Nat) : Nat :=
  if nsec = 0 then 0
  else
    let j := quotientShift 29 53 nsec
    divRoundHalfEven (nsec * 2 ^ j) (10 ^ 9) * 2 ^ (82 - j)

/-- Model of `int64(d.Seconds())` for a duration of `n ≥ 0` nanoseconds:
`Seconds()` is `float64(sec) + float64(nsec)/1e9` with `sec = d / Second` and
`nsec = d % Second`, every float64 operation rounding to nearest, ties to even;
the sum is computed in units of `2^-82` and truncated to whole seconds. -/
def float64Seconds (n : Nat) : Nat :=
  roundFloat64 (roundFloat64 (n / 10 ^ 9) * 2 ^ 82 + float64Fraction (roundFloat64 (n % 10 ^ 9)))
    / 2 ^ 82

/-- Model of `int64(d.Seconds())` for a duration of `d` nanoseconds: the float64
seconds of the duration, truncated toward zero; the float64 operations are
symmetric in the sign. -/
def durationSeconds (d : Int) : Int :=
  if d < 0 then -((float64Seconds (-d).toNat : Nat) : Int)
  else ((float64Seconds d.toNat : Nat) : Int)

/-! ## Table configuration, request and query builder -/

/-- The fields of `model.TableConfig` that the code reads.  `attributesColumn key`
stands for `model.GetAttributesColumn(config.AttributesColumns, key)`, whose
source is outside this file. -/
structure TableConfig where
  TableName : String
  KeysToColumns : List (String × String)
  attributesColumn : String → String
  AttributesTable : String
  BodyColumn : String
  MetricColumn : Option String
  DefaultFilter : String
  SelectColumns : List String := []

/-- Model of `SampleableTableConfig` (lines 45-49). -/
structure SampleableTableConfig where
  tableConfig : TableConfig
  samplingTableConfig : TableConfig
  sampleSizeRows : Nat

/-- Model of `modelInputs.DateRangeRequiredInput`. -/
structure DateRangeRequiredInput where
  StartDate : Time
  EndDate : Time
  deriving DecidableEq, Repr

/-- The enum `modelInputs.SortDirection`, a Go string type: `unset` is its zero
value, the empty string. -/
inductive SortDirection where
  | unset
  | Asc
  | Desc
  deriving DecidableEq, Repr

/-- The sort of a request (`modelInputs.SortInput`). -/
structure SortInput where
  Column : String
  Direction : SortDirection
  deriving DecidableEq, Repr

/-- The fields of `modelInputs.QueryInput` that the code reads; `DateRange` and
`Sort` (here `sortInput`) are pointers. -/
structure QueryInput where
  DateRange : Option DateRangeRequiredInput
  Query : String
  sortInput : Option SortInput := none

/-- Model of `SavedMetricState`: the metric id and the block numbers per partition
(partition name, last block number). -/
structure SavedMetricState where
  MetricId : String
  BlockNumberInfo : List (String × Nat)

/-- Model of `ReadMetricsInput` (lines 51-67). -/
structure ReadMetricsInput where
  SampleableConfig : SampleableTableConfig
  ProjectIDs : List Int
  Sql : Option String
  Params : QueryInput
  GroupBy : List String
  BucketCount : Option Int
  BucketWindow : Option Int
  BucketBy : String
  Limit : Option Int
  LimitAggregator : Option MetricAggregator
  LimitColumn : Option String
  SavedMetricState : Option SavedMetricState
  NoBucketMax : Bool
  Expressions : List MetricExpressionInput

/-- The part of a `sqlbuilder.SelectBuilder` that the bucketing code touches:
the arguments registered so far. -/
structure SelectBuilder where
  args : List String
  deriving DecidableEq, Repr

/-- Model of `sb.Var(value)`: registers the argument and returns its placeholder. -/
def SelectBuilder.Var (sb : SelectBuilder) (value : String) : String × SelectBuilder :=
  ("$" ++ toString sb.args.length, { args := sb.args ++ [value] })

/-- Model of `sb.As(name, alias)`. -/
def SelectBuilder.As (name aliasName : String) : String := name ++ " AS " ++ aliasName

/-- Model of `strings.ToLower` on ASCII text. -/
def toLower (s : String) : String := String.mk (s.data.map Char.toLower)

/-- The alias constants of lines 40-42. -/
def bucketIndexAlias : String := "__highlight_bucket_index"

/-- The constant `minAlias`. -/
def minAlias : String := "__highlight_min"

/-- The constant `maxAlias`. -/
def maxAlias : String := "__highlight_max"

/-- Model of `getAttributeFilterCol` (lines 1357-1374). -/
def getAttributeFilterCol (fromSb : SelectBuilder) (sampleableConfig : SampleableTableConfig)
    (valueUnescaped op : String) : String × SelectBuilder :=
  let attributesColumn := sampleableConfig.tableConfig.attributesColumn valueUnescaped
  let (value, sb) := fromSb.Var valueUnescaped
  if sampleableConfig.tableConfig.AttributesTable != "" then
    let transform := if op != "" then op ++ "(v)" else "v"
    ("(arrayMap((k, v) -> " ++ transform ++ ", arrayFilter((k, v) -> k = " ++ value ++ ", "
      ++ attributesColumn ++ ")))[1]", sb)
  else
    let column := attributesColumn ++ "[" ++ value ++ "]"
    (if op != "" then op ++ "(" ++ column ++ ")" else column, sb)

/-! ## `getBucketing` (lines 1667-1725) -/

/-- Model of `BucketingInfo` (lines 1667-1671). -/
structure BucketingInfo where
  NewSelectItems : List String
  NewAttributeFields : List String
  BucketCount : Int
  deriving DecidableEq, Repr

/-- What a call of `getBucketing` leaves behind: the returned `BucketingInfo`,
the date range behind the pointer `input.Params.DateRange` (whose `StartDate`
the call may overwrite) and the builder with the arguments it registered. -/
structure Bucketing where
  info : BucketingInfo
  DateRange : DateRangeRequiredInput
  fromSb : SelectBuilder
  deriving DecidableEq, Repr

/-- Lines 1674-1693 of `getBucketing`: the bucket count and the date range it
leaves behind; `none` is the integer division by zero of line 1688. -/
def bucketCountOf (input : ReadMetricsInput) (dr : DateRangeRequiredInput) :
    Option (Int × DateRangeRequiredInput) :=
  match input.BucketWindow with
  | none =>
    let n0 : Int :=
      if input.BucketBy == MetricBucketByNone then 1
      else match input.BucketCount with
        | some c => c
        | none => 48
    let n1 : Int := if n0 > MaxBuckets && !input.NoBucketMax then MaxBuckets else n0
    let n2 : Int := if n1 < 1 then 1 else n1
    some (n2, dr)
  | some w =>
    if w = 0 then none
    else
      let n0 : Int := Int.tdiv (durationSeconds (dr.EndDate.Sub dr.StartDate)) w
      if n0 > MaxBuckets && !input.NoBucketMax then
        some (MaxBuckets,
          { dr with
            StartDate := dr.EndDate.Add
              (wrapInt64 (wrapInt64 (-1 * wrapInt64 (MaxBuckets * w)) * Second)) })
      else some (n0, dr)

/-- Model of `getBucketing` (lines 1673-1725); `none` is a run-time panic (a nil date
range or the division by a zero window). -/
def getBucketing (config : TableConfig) (input : ReadMetricsInput) (fromSb : SelectBuilder) :
    Option Bucketing :=
  match input.Params.DateRange with
  | none => none
  | some dr0 =>
    match bucketCountOf input dr0 with
    | none => none
    | some (nBuckets, dr) =>
      let startTimestamp := dr.StartDate.Unix
      let endTimestamp := dr.EndDate.Unix
      let byField : Bool :=
        input.BucketBy != MetricBucketByNone && input.BucketBy != MetricBucketByTimestamp
      let fieldExpr : String × List String × SelectBuilder :=
        if byField then
          match config.KeysToColumns.lookup (toLower input.BucketBy) with
          | some col => ("toFloat64(" ++ col ++ ")", [], fromSb)
          | none =>
            let r := getAttributeFilterCol fromSb input.SampleableConfig input.BucketBy
              "toFloat64OrNull"
            (r.1, [input.BucketBy], r.2)
        else ("toFloat64(Timestamp)", [], fromSb)
      let bucketExpr := fieldExpr.1
      let static : Bool :=
        input.BucketBy == MetricBucketByTimestamp || input.BucketBy == MetricBucketByNone
      let minExpr :=
        if static then toString startTimestamp ++ ".0" else "MIN(" ++ bucketExpr ++ ") OVER ()"
      let maxExpr :=
        if static then toString endTimestamp ++ ".0" else "MAX(" ++ bucketExpr ++ ") OVER ()"
      let bucketIdxExpr := "toUInt64(intDiv((" ++ bucketExpr ++ " - " ++ minExpr ++ ") * "
        ++ toString nBuckets ++ ", (" ++ maxExpr ++ " - " ++ minExpr ++ ")))"
      some
        { info :=
            { NewSelectItems :=
                [SelectBuilder.As bucketIdxExpr bucketIndexAlias,
                 SelectBuilder.As minExpr minAlias, SelectBuilder.As maxExpr maxAlias]
              NewAttributeFields := fieldExpr.2.1
              BucketCount := nBuckets }
          DateRange := dr
          fromSb := fieldExpr.2.2 }

/-! ## `ReadMetrics` (lines 1727-2061) -/

/-- What a Go function with result `(value, error)` does: it returns a value
and a nil error, returns an error, or panics. -/
inductive Result (α : Type) where
  | ok (value : α)
  | error (msg : String)
  | panic

/-- The collaborators of `ReadMetrics` that are outside this file, as
functions of the request: the clock, the sampling estimate (rows per table), the
raw-SQL path, the builder left by `makeSelectBuilder` and `applyBlockFilter`,
the history insert (its error, if any) and the store query (its rows, or the
error of `Query` or of a `Scan`).  The SQL text that `ReadMetrics` assembles is
not carried; the store is asked by request. -/
structure Env where
  now : Time
  getSamplingStats : List String → List Int → DateRangeRequiredInput →
    Except String (String → Nat)
  readMetricsSql : ReadMetricsInput → TableConfig → Result (Option MetricsBuckets)
  fromSb : ReadMetricsInput → TableConfig → SelectBuilder
  saveMetricHistory : ReadMetricsInput → Bucketing → Option String
  query : ReadMetricsInput → TableConfig → Bucketing → Except String (List ScanRow)
  formatFloat : ℚ → String

/-- The value of `modelInputs.MetricAggregatorCountDistinctKey`. -/
def MetricAggregatorCountDistinctKey : MetricAggregator := "CountDistinctKey"

/-- Lines 1735-1751: whether the sampling table is used and the sample ratio,
or the error of `getSamplingStats`.  The ratio is non-zero exactly when line
1749 assigns it. -/
def samplingChoice (env : Env) (input : ReadMetricsInput) (dr : DateRangeRequiredInput) :
    Except String (Bool × ℚ) :=
  if input.SampleableConfig.sampleSizeRows != 0 then
    let originalTable := input.SampleableConfig.tableConfig.TableName
    let samplingTable := input.SampleableConfig.samplingTableConfig.TableName
    match env.getSamplingStats [originalTable, samplingTable] input.ProjectIDs dr with
    | .error err => .error err
    | .ok samplingStats =>
      if samplingStats originalTable > input.SampleableConfig.sampleSizeRows then
        .ok (true, (input.SampleableConfig.sampleSizeRows : ℚ) / (samplingStats samplingTable : ℚ))
      else .ok (false, 0)
  else .ok (false, 0)

/-- Model of `ReadMetrics` (lines 1727-2061).  `makeSelectBuilder` is called without a
cursor (`Pagination{CountOnly: true}`), so it returns no error. -/
def ReadMetrics (env : Env) (input0 : ReadMetricsInput) : Result (Option MetricsBuckets) :=
  let dr0 : DateRangeRequiredInput :=
    match input0.Params.DateRange with
    | some d => d
    | none => { StartDate := env.now.Add (-(3600 * Second * 24 * 30)), EndDate := env.now }
  let input : ReadMetricsInput :=
    { input0 with Params := { input0.Params with DateRange := some dr0 } }
  match samplingChoice env input dr0 with
  | .error err => .error err
  | .ok (useSampling, sampleRatio) =>
    if input.Expressions.length == 0 then .error "no expressions provided"
    else
      let config0 : TableConfig :=
        if useSampling then
          { input.SampleableConfig.samplingTableConfig with
            TableName := input.SampleableConfig.samplingTableConfig.TableName ++ " SAMPLE "
              ++ env.formatFloat sampleRatio }
        else input.SampleableConfig.tableConfig
      let config : TableConfig :=
        if input.Expressions.any (fun x => x.Aggregator == MetricAggregatorCountDistinctKey) then
          { config0 with DefaultFilter := "" }
        else config0
      match input.Sql with
      | some _ => env.readMetricsSql input config
      | none =>
        match getBucketing config input (env.fromSb input config) with
        | none => .panic
        | some bucketing =>
          match input.SavedMetricState with
          | some _ =>
            match env.saveMetricHistory input bucketing with
            | some err => .error err
            | none => .ok none
          | none =>
            match env.query input config bucketing with
            | .error err => .error err
            | .ok rows =>
              .ok (some (decodeRows bucketing.info.BucketCount input.Expressions input.BucketBy
                input.GroupBy.length bucketing.DateRange.StartDate.Unix
                bucketing.DateRange.EndDate.Unix rows))

/-- An example table configuration. -/
def exampleConfig : TableConfig :=
  { TableName := "logs"
    KeysToColumns := [("timestamp", "Timestamp"), ("level", "SeverityText")]
    attributesColumn := fun _ => "LogAttributes"
    AttributesTable := ""
    BodyColumn := "Body"
    MetricColumn := none
    DefaultFilter := "" }

/-- An example request: timestamp bucketing with a window of `w` seconds over
the 1800-second range `[0 s, 1800 s]`, one `Count` expression. -/
def windowInput (w : Int) : ReadMetricsInput :=
  { SampleableConfig :=
      { tableConfig := exampleConfig, samplingTableConfig := exampleConfig, sampleSizeRows := 0 }
    ProjectIDs := [1]
    Sql := none
    Params :=
      { DateRange := some { StartDate := { unixNano := 0 }, EndDate := { unixNano := 1800000000000 } }
        Query := "" }
    GroupBy := []
    BucketCount := none
    BucketWindow := some w
    BucketBy := MetricBucketByTimestamp
    Limit := none
    LimitAggregator := none
    LimitColumn := none
    SavedMetricState := none
    NoBucketMax := false
    Expressions := [countExpr] }

/-- The request of `windowInput` over the range `[0, 16777455.999999999 s]`. -/
def edgeInput (w : Int) : ReadMetricsInput :=
  { windowInput w with
    Params :=
      { DateRange := some { StartDate := { unixNano := 0 },
                            EndDate := { unixNano := 16777455999999999 } }
        Query := "" } }

/-- An example environment whose store returns no rows. -/
def exampleEnv : Env :=
  { now := { unixNano := 0 }
    getSamplingStats := fun _ _ _ => .ok (fun _ => 0)
    readMetricsSql := fun _ _ => .ok (some { Buckets := [], BucketCount := 0, SampleFactor := 0 })
    fromSb := fun _ _ => { args := [] }
    saveMetricHistory := fun _ _ => none
    query := fun _ _ _ => .ok []
    formatFloat := fun _ => "" }

/-! ## Regular expressions (`regexp`)

The matcher code is parametric in the regular-expression engine: an engine
maps a pattern to `none` (the pattern does not compile) or to its
`MatchString` predicate.  `goRegexp` below is the engine of Go's `regexp`
package on the pattern fragment made of literal characters, `.`, escaped
punctuation and the postfix operators `*`, `+`, `?`; a pattern outside the
fragment is reported as not compiling. -/

/-- A regular-expression engine: `compile pattern` is `none` on a compile
error and otherwise the predicate `MatchString`. -/
abbrev RegexpEngine := String → Option (String → Bool)

/-- Regular expressions over characters. -/
inductive Regex where
  | nothing
  | eps
  | chr (c : Char)
  | dot
  | top
  | seq (r s : Regex)
  | alt (r s : Regex)
  | star (r : Regex)
  deriving DecidableEq, Repr

/-- Whether the expression matches the empty string. -/
def Regex.nullable : Regex → Bool
  | .nothing => false
  | .eps => true
  | .chr _ => false
  | .dot => false
  | .top => false
  | .seq r s => r.nullable && s.nullable
  | .alt r s => r.nullable || s.nullable
  | .star _ => true

/-- The derivative of the expression by one character.  `dot` is Go's `.`
(any character but a newline), `top` any character. -/
def Regex.deriv (c : Char) : Regex → Regex
  | .nothing => .nothing
  | .eps => .nothing
  | .chr d => if c = d then .eps else .nothing
  | .dot => if c = '\n' then .nothing else .eps
  | .top => .eps
  | .seq r s =>
    if r.nullable then .alt (.seq (r.deriv c) s) (s.deriv c) else .seq (r.deriv c) s
  | .alt r s => .alt (r.deriv c) (s.deriv c)
  | .star r => .seq (r.deriv c) (.star r)

/-- Whether the expression matches the whole text. -/
def Regex.matchesAll (r : Regex) : List Char → Bool
  | [] => r.nullable
  | c :: cs => (r.deriv c).matchesAll cs

/-- Model of `MatchString`: whether the expression matches some substring of the text. -/
def Regex.matchString (r : Regex) (s : String) : Bool :=
  (Regex.seq (.star .top) (.seq r (.star .top))).matchesAll s.data

/-- The tokens of the pattern fragment. -/
inductive PatternToken where
  | lit (c : Char)
  | anyChar
  | rep (c : Char)
  deriving DecidableEq, Repr

/-- The characters that `regexp.QuoteMeta` escapes. -/
def isRegexMeta (c : Char) : Bool := "\\.+*?()|[]\x7b\x7d^$".data.contains c

/-- ASCII punctuation, the characters that a backslash may escape. -/
def isAsciiPunct (c : Char) : Bool :=
  (33 ≤ c.val && c.val ≤ 47) || (58 ≤ c.val && c.val ≤ 64) || (91 ≤ c.val && c.val ≤ 96)
    || (123 ≤ c.val && c.val ≤ 126)

/-- The tokens of a pattern; `escaped` tells that the previous character was
a backslash.  `none`: the pattern is outside the fragment (or ends in a
backslash). -/
def patternTokens : Bool → List Char → Option (List PatternToken)
  | true, [] => none
  | false, [] => some []
  | true, c :: cs =>
    if isAsciiPunct c then (patternTokens false cs).map (fun ts => PatternToken.lit c :: ts)
    else none
  | false, c :: cs =>
    if c = '\\' then patternTokens true cs
    else if c = '.' then (patternTokens false cs).map (fun ts => PatternToken.anyChar :: ts)
    else if c = '*' || c = '+' || c = '?' then
      (patternTokens false cs).map (fun ts => PatternToken.rep c :: ts)
    else if isRegexMeta c then none
    else (patternTokens false cs).map (fun ts => PatternToken.lit c :: ts)

/-- The expression of a token list: `prev` is the atom read last that may
still take a postfix operator.  A postfix operator without an atom before it
("missing argument to repetition operator") or right after another one does
not compile. -/
def buildRegex : Option Regex → List PatternToken → Option Regex
  | none, [] => some .eps
  | some a, [] => some a
  | none, .lit c :: ts => buildRegex (some (.chr c)) ts
  | none, .anyChar :: ts => buildRegex (some .dot) ts
  | none, .rep _ :: _ => none
  | some a, .lit c :: ts => (buildRegex (some (.chr c)) ts).map (fun r => Regex.seq a r)
  | some a, .anyChar :: ts => (buildRegex (some .dot) ts).map (fun r => Regex.seq a r)
  | some a, .rep c :: ts =>
    let repeated : Regex :=
      if c = '*' then .star a else if c = '+' then .seq a (.star a) else .alt .eps a
    (buildRegex none ts).map (fun r => Regex.seq repeated r)

/-- Model of `regexp.Compile` on the pattern fragment. -/
def compilePattern (pattern : String) : Option Regex :=
  (patternTokens false pattern.data).bind (buildRegex none)

/-- The engine of Go's `regexp` package on the pattern fragment. -/
def goRegexp : RegexpEngine :=
  fun pattern => (compilePattern pattern).map (fun r => r.matchString)

/-- Model of `regexp.QuoteMeta`. -/
def quoteMeta (s : String) : String :=
  String.mk (s.data.flatMap (fun c => if isRegexMeta c then ['\\', c] else [c]))

/-- Model of `strings.ReplaceAll(s, "%", ".*")`. -/
def replacePercent (s : String) : String :=
  String.mk (s.data.flatMap (fun c => if c = '%' then ['.', '*'] else [c]))

/-- Model of `strings.Replace(s, "-", "", 1)`: the first `-` removed. -/
def removeFirstDash (s : String) : String := String.mk (s.data.erase '-')

/-! ## Rows seen through reflection (`reflect.Value`) -/

/-- A `reflect.Value`: the zero value, a string, a bool, a pointer (nil or its
pointee), a struct with its fields, a map with string keys, a slice, or a value
of another kind.  `typ` is the name `v.Type().String()` prints. -/
inductive Value where
  | invalid
  | string (s : String)
  | bool (typ : String) (b : Bool)
  | pointer (typ : String) (elem : Option Value)
  | struct (typ : String) (fields : List (String × Value))
  | map (typ : String) (entries : List (String × Value))
  | slice (typ : String) (elems : List Value)
  | other (typ : String)

/-- Model of `v.IsValid()`. -/
def Value.IsValid : Value → Bool
  | .invalid => false
  | _ => true

/-- The method `v.String()`: the string itself for a string, `<T Value>` otherwise. -/
def Value.Str : Value → String
  | .invalid => "<invalid Value>"
  | .string s => s
  | .bool typ _ => "<" ++ typ ++ " Value>"
  | .pointer typ _ => "<" ++ typ ++ " Value>"
  | .struct typ _ => "<" ++ typ ++ " Value>"
  | .map typ _ => "<" ++ typ ++ " Value>"
  | .slice typ _ => "<" ++ typ ++ " Value>"
  | .other typ => "<" ++ typ ++ " Value>"

/-- The entry of a key in an association list of values, the zero value when
there is none. -/
def lookupValue (name : String) : List (String × Value) → Value
  | [] => .invalid
  | (k, v) :: rest => if k = name then v else lookupValue name rest

/-- Model of `v.FieldByName(name)`: the field, the zero value when the struct has no
such field; `none` is the panic on a value that is not a struct. -/
def Value.FieldByName (v : Value) (name : String) : Option Value :=
  match v with
  | .struct _ fields => some (lookupValue name fields)
  | _ => none

/-- Model of `v.Elem()` of a pointer: the pointee, the zero value for nil; `none` is
the panic on a value that is no pointer. -/
def Value.Elem : Value → Option Value
  | .pointer _ (some v) => some v
  | .pointer _ none => some .invalid
  | _ => none

/-- Model of `repr` (lines 2134-2143). -/
def repr : Value → String
  | .pointer _ (some v) => repr v
  | .pointer _ none => "<invalid Value>"
  | .bool _ b => if b then "true" else "false"
  | v => v.Str

/-- Model of `strings.Split(s, sep)` for a one-character separator, on characters. -/
def splitChars (sep : Char) : List Char → List (List Char)
  | [] => [[]]
  | c :: cs =>
    if c = sep then [] :: splitChars sep cs
    else
      match splitChars sep cs with
      | [] => [[c]]
      | p :: ps => (c :: p) :: ps

/-- Model of `strings.Split(s, ".")`. -/
def splitDots (s : String) : List String := (splitChars '.' s.data).map String.mk

/-- Model of `strings.SplitN(s, "_", 2)`: the text before and after the first `_`, or
the text alone. -/
def splitN2 (s : String) : List String :=
  match s.data.span (fun c => c != '_') with
  | (a, []) => [String.mk a]
  | (a, _ :: b) => [String.mk a, String.mk b]

/-- The loop of `getChildValue` (lines 1105-1113) over the parts of the key:
`none` is a panic, `some none` the early `return "", false`. -/
def childValueLoop : Value → List String → Option (Option Value)
  | value, [] => some (some value)
  | value, part :: parts =>
    if !value.IsValid then some none
    else
      match value.FieldByName part with
      | none => none
      | some field =>
        match field with
        | .pointer _ (some v) => childValueLoop v parts
        | .pointer _ none => childValueLoop .invalid parts
        | _ => childValueLoop field parts

/-- Model of `getChildValue` (lines 1104-1118): `none` is a panic, `some none` the
result `("", false)`, `some (some s)` the result `(s, true)`. -/
def getChildValue (value : Value) (key : String) : Option (Option String) :=
  match childValueLoop value (splitDots key) with
  | none => none
  | some none => some none
  | some (some v) => if v.IsValid then some (some (repr v)) else some none

/-! ## Filters (`listener.FilterOperation`) and `matchFilter` (lines 1120-1225) -/

/-- The operators of `listener.Operator` that the code names, and the others. -/
inductive Operator where
  | And
  | Or
  | Not
  | RegExp
  | NotEqual
  | other (name : String)
  deriving DecidableEq, Repr

/-- Model of `listener.FilterOperation`: key, column override, operator, comparison
values and child filters. -/
inductive FilterOperation where
  | mk (Key : String) (Column : String) (Operator : Operator) (Values : List String)
      (Filters : List FilterOperation)

/-- The field `Key`. -/
def FilterOperation.Key : FilterOperation → String
  | .mk k _ _ _ _ => k

/-- The field `Column`. -/
def FilterOperation.Column : FilterOperation → String
  | .mk _ c _ _ _ => c

/-- The field `Operator`. -/
def FilterOperation.Operator : FilterOperation → Operator
  | .mk _ _ o _ _ => o

/-- The field `Values`. -/
def FilterOperation.Values : FilterOperation → List String
  | .mk _ _ _ v _ => v

/-- The field `Filters`. -/
def FilterOperation.Filters : FilterOperation → List FilterOperation
  | .mk _ _ _ _ f => f

/-- The class `\w` of Go regular expressions. -/
def isWordChar (c : Char) : Bool := c.isAlphanum || c = '_'

/-- The match of `toString\((\w+)\)` at the start of the text: its group 1. -/
def keyWrapperAt (s : List Char) : Option (List Char) :=
  match "toString(".data.isPrefixOf s with
  | false => none
  | true =>
    match (s.drop 9).span isWordChar with
    | ([], _) => none
    | (w, ')' :: _) => some w
    | _ => none

/-- Model of `keyWrapper.FindStringSubmatch(key)`: group 1 of the leftmost match. -/
def keyWrapperFind : List Char → Option (List Char)
  | [] => none
  | c :: cs =>
    match keyWrapperAt (c :: cs) with
    | some w => some w
    | none => keyWrapperFind cs

/-- The tokens of a body: the non-empty fields of
`nonAlphaNumericChars.Split(body, -1)`, the pattern being `[^\w:*]`. -/
def bodyTerms (body : String) : List String :=
  ((body.data.splitOnP (fun c => !(isWordChar c || c = ':' || c = '*'))).filter
    (fun field => field != [])).map String.mk

/-- The loop of lines 1143-1167 over the values of a body filter: the result
`(matches, err)` of `matchFilter`. -/
def bodyValuesLoop (re : RegexpEngine) (op : Operator) (body : String)
    (rowBodyTerms : List String) : List String → Bool × Option String
  | [] => (true, none)
  | bf :: rest =>
    if op = Operator.RegExp then
      match re bf with
      | some pat =>
        if !pat body then (false, none) else bodyValuesLoop re op body rowBodyTerms rest
      | none => bodyValuesLoop re op body rowBodyTerms rest
    else if bf.data.contains '%' then
      match re (replacePercent (quoteMeta bf)) with
      | none => (false, some "error parsing regexp")
      | some pat =>
        if !pat body then (false, none) else bodyValuesLoop re op body rowBodyTerms rest
    else if !rowBodyTerms.contains bf then (false, none)
    else bodyValuesLoop re op body rowBodyTerms rest

/-- The loop of lines 1201-1223 over the values of a filter on another field. -/
def valuesLoop (re : RegexpEngine) (op : Operator) (rowValue : String) :
    List String → Bool
  | [] => true
  | v :: rest =>
    if op = Operator.RegExp then
      match re v with
      | some pat => if !pat rowValue then false else valuesLoop re op rowValue rest
      | none => valuesLoop re op rowValue rest
    else if v.data.contains '%' then
      match re (replacePercent v) with
      | some pat => if !pat rowValue then false else valuesLoop re op rowValue rest
      | none => false
    else if op = Operator.NotEqual then
      if rowValue = removeFirstDash v then false else valuesLoop re op rowValue rest
    else if v != rowValue then false
    else valuesLoop re op rowValue rest

/-- The loop of lines 1189-1196 over an attribute slice; `fieldParts` is
`strings.SplitN(key, "_", 2)`.  `none` is a panic (an element that is no
pointer to a struct, or the index `fieldParts[1]` out of range), `some none`
no entry found. -/
def sliceLoop (fieldParts : List String) : List Value → Option (Option String)
  | [] => some none
  | item :: rest =>
    match item.Elem with
    | none => none
    | some elem =>
      match elem.FieldByName "Type", elem.FieldByName "Name", elem.FieldByName "Value" with
      | some fieldType, some name, some value =>
        if fieldType.Str = fieldParts.headD "" then
          match fieldParts.get? 1 with
          | none => none
          | some part =>
            if name.Str = part then some (some (repr value)) else sliceLoop fieldParts rest
        else sliceLoop fieldParts rest
      | _, _, _ => none

/-- Lines 1171-1200: the row value a key resolves to.  `none` is a panic,
`some none` the `invalid filter` error, `some (some s)` the row value. -/
def resolveRowValue (v : Value) (config : TableConfig) (key : String) :
    Option (Option String) :=
  match config.KeysToColumns.lookup key with
  | some chKey =>
    match getChildValue v chKey with
    | none => none
    | some (some val) => some (some val)
    | some none => (v.FieldByName chKey).map (fun field => some (repr field))
  | none =>
    match v.FieldByName key with
    | none => none
    | some field =>
      if field.IsValid then some (some (repr field))
      else
        match getChildValue v key with
        | none => none
        | some (some val) => some (some val)
        | some none =>
          let col := config.attributesColumn ""
          if col != "" then
            match v.FieldByName col with
            | none => none
            | some (.map _ entries) => some (some (repr (lookupValue key entries)))
            | some (.slice _ elems) =>
              (sliceLoop (splitN2 key) elems).map (fun found => some (found.getD ""))
            | some _ => some (some "")
          else some none

/-- Lines 1127-1131: the filter key, with a `toString(...)` wrapper stripped. -/
def filterKey (filter : FilterOperation) : String :=
  match keyWrapperFind filter.Key.data with
  | some w => String.mk w
  | none => filter.Key

/-- Line 1132: whether the filter is a filter on the body column. -/
def isBodyFilter (config : TableConfig) (filter : FilterOperation) : Bool :=
  config.BodyColumn != "" && filter.Column == "" && filterKey filter == config.BodyColumn

/-- Model of `matchFilter` (lines 1126-1225) on the row `*row` seen through reflection:
`none` is a panic, `some (isMatch, err)` the returned pair `(matches, err)`. -/
def matchFilter (re : RegexpEngine) (row : Value) (config : TableConfig)
    (filter : FilterOperation) : Option (Bool × Option String) :=
  if isBodyFilter config filter then
    match row.FieldByName config.BodyColumn with
    | none => none
    | some field =>
      let body := field.Str
      some (bodyValuesLoop re filter.Operator body (bodyTerms body) filter.Values)
  else
    match resolveRowValue row config (filterKey filter) with
    | none => none
    | some none => some (true, some ("invalid filter " ++ filterKey filter))
    | some (some rowValue) => some (valuesLoop re filter.Operator rowValue filter.Values, none)

/-! ## `matchesQuery` (lines 1227-1267) -/

mutual
/-- One pass of the loop body of `matchesQuery` for the filter `filter` under
the operator context `op`: `none` is a panic, `some none` falls through to the
next filter of the list, `some (some b)` is `return b`. -/
def matchesStep (re : RegexpEngine) (row : Value) (config : TableConfig) :
    FilterOperation → Operator → Option (Option Bool)
  | .mk key column o values children, op =>
    match o with
    | .And =>
      match andChildren re row config children with
      | none => none
      | some true => some none
      | some false => some (some false)
    | .Or =>
      match orChildren re row config children with
      | none => none
      | some true => some none
      | some false => some (some false)
    | .Not =>
      match children with
      | [] => none
      | child :: _ =>
        match matchesStep re row config child .Not with
        | none => none
        | some none => some (some false)
        | some (some b) => some (some (!b))
    | _ =>
      match matchFilter re row config (.mk key column o values children) with
      | none => none
      | some (_, some _) =>
        if op = .Or then some (some false) else some (some true)
      | some (isMatch, none) => if !isMatch then some (some false) else some none
/-- The loop of lines 1232-1236 over the children of an AND filter: whether
every `matchesQuery(row, config, Filters{childFilter}, OperatorAnd)` is true
(`none` is a panic).  The call on the one-element list is one pass of the loop
body followed by `return true`. -/
def andChildren (re : RegexpEngine) (row : Value) (config : TableConfig) :
    List FilterOperation → Option Bool
  | [] => some true
  | child :: rest =>
    match matchesStep re row config child .And with
    | none => none
    | some (some false) => some false
    | some (some true) => andChildren re row config rest
    | some none => andChildren re row config rest
/-- The loop of lines 1239-1244 over the children of an OR filter: whether
some `matchesQuery(row, config, Filters{childFilter}, OperatorOr)` is true. -/
def orChildren (re : RegexpEngine) (row : Value) (config : TableConfig) :
    List FilterOperation → Option Bool
  | [] => some false
  | child :: rest =>
    match matchesStep re row config child .Or with
    | none => none
    | some (some false) => orChildren re row config rest
    | some (some true) => some true
    | some none => some true
end

/-- Model of `matchesQuery` (lines 1227-1267): `none` is a panic. -/
def matchesQuery (re : RegexpEngine) (row : Value) (config : TableConfig) :
    List FilterOperation → Operator → Option Bool
  | [], _ => some true
  | filter :: rest, op =>
    match matchesStep re row config filter op with
    | none => none
    | some (some b) => some b
    | some none => matchesQuery re row config rest op

/-- The filter node `AND[f1, f2]`. -/
def andOf (f1 f2 : FilterOperation) : FilterOperation := .mk "" "" .And [] [f1, f2]

/-- The filter node `NOT[f]`. -/
def notOf (f : FilterOperation) : FilterOperation := .mk "" "" .Not [] [f]

/-- A leaf filter with the operator `=`. -/
def equalsFilter (key : String) (values : List String) : FilterOperation :=
  .mk key "" (.other "=") values []

/-- An example row with the severity `severity`; it has no attributes column. -/
def severityRow (severity : String) : Value :=
  .struct "LogRow" [("Body", .string "request failed"), ("SeverityText", .string severity)]

/-- The example configuration without an attributes column. -/
def plainConfig : TableConfig := { exampleConfig with attributesColumn := fun _ => "" }

/-! ## Tokens of a body, as maximal runs -/

/-- The characters of `[A-Za-z0-9_:*]`, those that the pattern `[^\w:*]` of
`nonAlphaNumericChars` does not match. -/
def isTokenChar (c : Char) : Bool := isWordChar c || c = ':' || c = '*'

/-- A non-empty maximal run of token characters of `body`: `t` is not empty,
consists of token characters, occurs in `body`, and is neither preceded nor
followed there by a token character. -/
def IsMaximalRun (body t : List Char) : Prop :=
  t ≠ [] ∧ (∀ c ∈ t, isTokenChar c = true) ∧
    ∃ pre post, body = pre ++ t ++ post
      ∧ (∀ c, pre.getLast? = some c → isTokenChar c = false)
      ∧ (∀ c, post.head? = some c → isTokenChar c = false)

/-- A leaf filter with the operator not-equal. -/
def notEqualFilter (key : String) (values : List String) : FilterOperation :=
  .mk key "" .NotEqual values []

/-- An example row with the body `body`. -/
def bodyRow (body : String) : Value :=
  .struct "LogRow" [("Body", .string body), ("SeverityText", .string "info")]

/-! ## Pagination and `makeSelectBuilder` (lines 564-659) -/

/-- The fields of `Pagination` that the code reads; the cursors and the limit
are pointers. -/
structure Pagination where
  After : Option String := none
  Before : Option String := none
  At : Option String := none
  Direction : SortDirection := .unset
  CountOnly : Bool := false
  Limit : Option Int := none
  deriving DecidableEq, Repr

/-- An argument bound to a placeholder of a built statement. -/
inductive SqlArg where
  | int (n : Int)
  | ints (ns : List Int)
  | time (t : Time)
  | text (s : String)
  deriving DecidableEq, Repr

/-- The comparison of `sb.Equal`, `sb.GreaterEqualThan`, `sb.LessEqualThan`,
`sb.GreaterThan` and `sb.LessThan`. -/
inductive CmpOp where
  | eq
  | ge
  | le
  | gt
  | lt
  deriving DecidableEq, Repr

/-- A WHERE expression of a builder: a comparison of a field with a bound
argument, `sb.In`, `sb.Or` of two expressions, or a predicate that the search
query parser added (its SQL text). -/
inductive Cond where
  | cmp (op : CmpOp) (field : String) (value : SqlArg)
  | isIn (field : String) (values : List Int)
  | or (a b : Cond)
  | search (sql : String)
  deriving DecidableEq, Repr

/-- The arguments an expression registers, as text, in the order of its
`Var` calls. -/
def Cond.argTexts : Cond → List String
  | .cmp _ _ (.int n) => [toString n]
  | .cmp _ _ (.ints ns) => [toString ns]
  | .cmp _ _ (.time t) => [toString t.unixNano]
  | .cmp _ _ (.text s) => [s]
  | .isIn _ values => [toString values]
  | .or a b => a.argTexts ++ b.argTexts
  | .search _ => []

/-- The built SELECT statement of a `sqlbuilder.SelectBuilder`. -/
structure QueryBuilder where
  selectCols : List String
  table : String
  distinct : Bool
  whereExprs : List Cond
  orderBy : List String
  limit : Option Int
  args : SelectBuilder
  deriving DecidableEq, Repr

/-- A stored row as the pagination predicates see it. -/
structure PageRow where
  ProjectId : Int
  Timestamp : Time
  UUID : String
  deriving DecidableEq, Repr

/-- A comparison on integers. -/
def CmpOp.onInt (op : CmpOp) (a b : Int) : Bool :=
  match op with
  | .eq => decide (a = b)
  | .ge => decide (b ≤ a)
  | .le => decide (a ≤ b)
  | .gt => decide (b < a)
  | .lt => decide (a < b)

/-- A comparison on strings, in lexicographic order. -/
def CmpOp.onString (op : CmpOp) (a b : String) : Bool :=
  match op with
  | .eq => decide (a = b)
  | .ge => decide (¬ a < b)
  | .le => decide (¬ b < a)
  | .gt => decide (b < a)
  | .lt => decide (a < b)

/-- Whether a row satisfies a WHERE expression; `search` decides the
predicates of the search query parser. -/
def Cond.eval (search : String → PageRow → Bool) (row : PageRow) : Cond → Bool
  | .cmp op field (.int n) => field = "ProjectId" && op.onInt row.ProjectId n
  | .cmp op field (.time t) => field = "Timestamp" && op.onInt row.Timestamp.unixNano t.unixNano
  | .cmp op field (.text s) => field = "UUID" && op.onString row.UUID s
  | .cmp _ _ (.ints _) => false
  | .isIn field values => field = "ProjectId" && values.contains row.ProjectId
  | .or a b => a.eval search row || b.eval search row
  | .search sql => search sql row

/-- The collaborators of the query builder that are outside this file:
`decodeCursor` (a cursor string to its timestamp and row id, or an error) and
`parser.AssignSearchFilters` (the WHERE expressions it adds for a search query
and the filter tree it returns). -/
structure PageEnv where
  decodeCursor : String → Except String (Time × String)
  assignSearchFilters : String → TableConfig → List Cond × List FilterOperation

/-- Model of `getSortOrders` (lines 2145-2176): the forward ordering, the
backward ordering and the builder after the `Var` call. -/
def getSortOrders (sb : SelectBuilder) (paginationDirection : SortDirection)
    (config : TableConfig) (params : QueryInput) : String × String × SelectBuilder :=
  let sortColumn : String :=
    match params.sortInput with
    | some requested => requested.Column
    | none => "timestamp"
  let sortDirection : SortDirection :=
    match params.sortInput with
    | some requested => requested.Direction
    | none => .Desc
  let resolved : String × SelectBuilder :=
    match config.KeysToColumns.lookup sortColumn with
    | some col => (col, sb)
    | none =>
      let placeholder := sb.Var sortColumn
      (config.attributesColumn sortColumn ++ "[" ++ placeholder.1 ++ "]", placeholder.2)
  let ascending : Bool := paginationDirection == .Asc || sortDirection == .Asc
  let forwardDirection := if ascending then "ASC" else "DESC"
  let backwardDirection := if ascending then "DESC" else "ASC"
  (resolved.1 ++ " " ++ forwardDirection ++ ", UUID " ++ forwardDirection,
   resolved.1 ++ " " ++ backwardDirection ++ ", UUID " ++ backwardDirection,
   resolved.2)

/-- The test `cursor != nil && len(*cursor) > 1` of lines 584, 612 and 619: the
cursor when it passes. -/
def usableCursor (cursor : Option String) : Option String :=
  match cursor with
  | some s => if s.utf8ByteSize > 1 then some s else none
  | none => none

/-- The WHERE expressions of `Timestamp >= T AND Timestamp <= end AND
(Timestamp > T OR UUID > U)` (lines 592-599 and 636-643). -/
def ascendingWindow (timestamp : Time) (uuid : String) (dr : DateRangeRequiredInput) :
    List Cond :=
  [ .cmp .ge "Timestamp" (.time timestamp),
    .cmp .le "Timestamp" (.time dr.EndDate),
    .or (.cmp .gt "Timestamp" (.time timestamp)) (.cmp .gt "UUID" (.text uuid)) ]

/-- The WHERE expressions of `Timestamp <= T AND Timestamp >= start AND
(Timestamp < T OR UUID < U)` (lines 601-608 and 627-634). -/
def descendingWindow (timestamp : Time) (uuid : String) (dr : DateRangeRequiredInput) :
    List Cond :=
  [ .cmp .le "Timestamp" (.time timestamp),
    .cmp .ge "Timestamp" (.time dr.StartDate),
    .or (.cmp .lt "Timestamp" (.time timestamp)) (.cmp .lt "UUID" (.text uuid)) ]

/-- Lines 584-654 of `makeSelectBuilder`: the WHERE expressions and the ORDER
BY columns that the cursor (or its absence) adds.  An error is that of
`decodeCursor`; a panic is the dereference of a nil date range. -/
def cursorWindow (env : PageEnv) (params : QueryInput) (pagination : Pagination)
    (orderForward orderBackward : String) : Result (List Cond × List String) :=
  match usableCursor pagination.After with
  | some after =>
    match env.decodeCursor after with
    | .error err => .error err
    | .ok (timestamp, uuid) =>
      match params.DateRange with
      | none => .panic
      | some dr =>
        if pagination.Direction = .Asc then
          .ok (ascendingWindow timestamp uuid dr, [orderForward])
        else .ok (descendingWindow timestamp uuid dr, [orderForward])
  | none =>
    match usableCursor pagination.At with
    | some at_ =>
      match env.decodeCursor at_ with
      | .error err => .error err
      | .ok (timestamp, uuid) =>
        .ok ([.cmp .eq "Timestamp" (.time timestamp), .cmp .eq "UUID" (.text uuid)], [])
    | none =>
      match usableCursor pagination.Before with
      | some before =>
        match env.decodeCursor before with
        | .error err => .error err
        | .ok (timestamp, uuid) =>
          match params.DateRange with
          | none => .panic
          | some dr =>
            if pagination.Direction = .Asc then
              .ok (descendingWindow timestamp uuid dr, [orderBackward])
            else .ok (ascendingWindow timestamp uuid dr, [orderBackward])
      | none =>
        match params.DateRange with
        | none => .panic
        | some dr =>
          .ok ([.cmp .le "Timestamp" (.time dr.EndDate), .cmp .ge "Timestamp" (.time dr.StartDate)],
            if !pagination.CountOnly then [orderForward] else [])

/-- The project scope of lines 578-582. -/
def projectScope (projectIDs : List Int) : Cond :=
  match projectIDs with
  | [id] => .cmp .eq "ProjectId" (.int id)
  | _ => .isIn "ProjectId" projectIDs

/-- Model of `makeSelectBuilder` (lines 564-659): the builder and the filter
tree, an error, or a panic. -/
def makeSelectBuilder (env : PageEnv) (config : TableConfig) (selectCols : List String)
    (projectIDs : List Int) (params : QueryInput) (pagination : Pagination) :
    Result (QueryBuilder × List FilterOperation) :=
  let orders := getSortOrders { args := [] } pagination.Direction config params
  match cursorWindow env params pagination orders.1 orders.2.1 with
  | .error err => .error err
  | .panic => .panic
  | .ok (conds, orderBy) =>
    let found := env.assignSearchFilters params.Query config
    let whereExprs := projectScope projectIDs :: conds ++ found.1
    .ok ({ selectCols := selectCols
           table := config.TableName
           distinct := false
           whereExprs := whereExprs
           orderBy := orderBy
           limit := none
           args := { args := orders.2.2.args ++ whereExprs.flatMap Cond.argTexts } },
         found.2)

/-! ## `readObjects` (lines 69-189) -/

/-- Model of `useSamplingTable` (lines 2178-2181). -/
def useSamplingTable (params : QueryInput) : Bool :=
  match params.sortInput with
  | some requested => toLower requested.Column != "timestamp"
  | none => false

/-- The statement that `readObjects` sends to the store: the outer SELECT with
its `(Timestamp,UUID) IN (...)` sub-query, which is the UNION ALL of the listed
builders. -/
structure ObjectsQuery where
  selectCols : String
  table : String
  projectId : Int
  subQueries : List QueryBuilder
  orderBy : String
  limit : Option Int
  deriving DecidableEq, Repr

/-- Lines 70-156 of `readObjects`: the statement it builds.  `logsLimit` is the
constant `LogsLimit`, declared outside this file. -/
def readObjectsQuery (env : PageEnv) (logsLimit : Int) (config samplingConfig : TableConfig)
    (projectID : Int) (params : QueryInput) (pagination : Pagination) : Result ObjectsQuery :=
  let limit : Int :=
    match pagination.Limit with
    | some l => l
    | none => logsLimit
  let innerTableConfig := if useSamplingTable params then samplingConfig else config
  let orders := getSortOrders { args := [] } pagination.Direction config params
  let outerSelect := ", ".intercalate config.SelectColumns
  let innerSelect := ["Timestamp", "UUID"]
  match usableCursor pagination.At with
  | some _ =>
    match makeSelectBuilder env innerTableConfig innerSelect [projectID] params
        { Before := pagination.At } with
    | .error err => .error err
    | .panic => .panic
    | .ok (beforeSb, _) =>
      match makeSelectBuilder env innerTableConfig innerSelect [projectID] params
          { At := pagination.At } with
      | .error err => .error err
      | .panic => .panic
      | .ok (atSb, _) =>
        match makeSelectBuilder env innerTableConfig innerSelect [projectID] params
            { After := pagination.At } with
        | .error err => .error err
        | .panic => .panic
        | .ok (afterSb, _) =>
          .ok { selectCols := outerSelect
                table := config.TableName
                projectId := projectID
                subQueries :=
                  [ { beforeSb with distinct := true, limit := some (Int.tdiv limit 2 + 1) },
                    { atSb with distinct := true },
                    { afterSb with distinct := true, limit := some (Int.tdiv limit 2 + 1) } ]
                orderBy := orders.1
                limit := none }
  | none =>
    match makeSelectBuilder env innerTableConfig innerSelect [projectID] params pagination with
    | .error err => .error err
    | .panic => .panic
    | .ok (fromSb, _) =>
      .ok { selectCols := outerSelect
            table := config.TableName
            projectId := projectID
            subQueries := [ { fromSb with distinct := true, limit := some (limit + 1) } ]
            orderBy := orders.1
            limit := some (limit + 1) }

/-- An example cursor format, `<seconds>,<row id>` in plain text, standing for
the encoding of `decodeCursor`; anything else is rejected. -/
def exampleDecodeCursor (s : String) : Except String (Time × String) :=
  match s.data.span (fun c => c != ',') with
  | (digits, ',' :: uuid) =>
    if digits != [] && digits.all Char.isDigit then
      .ok ({ unixNano := (digits.foldl (fun n c => 10 * n + (c.toNat - 48)) 0 : Nat) * Second },
        String.mk uuid)
    else .error "cursor is invalid"
  | _ => .error "cursor is invalid"

/-- An example environment of the query builder, without search filters. -/
def examplePageEnv : PageEnv :=
  { decodeCursor := exampleDecodeCursor
    assignSearchFilters := fun _ _ => ([], []) }

/-- An example query input over the range `[0 s, 1800 s]`, with an optional
sort. -/
def exampleParams (sort : Option SortInput) : QueryInput :=
  { DateRange := some { StartDate := { unixNano := 0 }, EndDate := { unixNano := 1800000000000 } }
    Query := ""
    sortInput := sort }

/-- What a result holds when it is a value. -/
def Result.value? {α : Type} : Result α → Option α
  | .ok a => some a
  | _ => none

/-- Whether a result is an error. -/
def Result.isError {α : Type} : Result α → Bool
  | .error _ => true
  | _ => false

/-- The row `(t, u)` is strictly greater than the cursor `(T, U)` in
lexicographic order. -/
def cursorGreater (row : PageRow) (timestamp : Time) (uuid : String) : Prop :=
  timestamp.unixNano < row.Timestamp.unixNano ∨ (row.Timestamp = timestamp ∧ uuid < row.UUID)

/-- The row `(t, u)` is strictly less than the cursor `(T, U)` in lexicographic
order. -/
def cursorLess (row : PageRow) (timestamp : Time) (uuid : String) : Prop :=
  row.Timestamp.unixNano < timestamp.unixNano ∨ (row.Timestamp = timestamp ∧ row.UUID < uuid)

/-! ## SQL statements (`sqlparser`) and `transformSql` (lines 191-522)

The statement tree of the SQL parser, with the node kinds that `transformSql`
inspects and `other` for the rest.  `Accept` visits the children of a node
first and the node itself last.  A SELECT that the select visitor has processed
has all its nodes in `priorVisit`; since inner SELECTs are visited before the
SELECT that contains them, the passes below do not enter a nested SELECT. -/

/-- An identifier (`sqlparser.Ident`). -/
structure Ident where
  Name : String
  QuoteType : Nat
  deriving DecidableEq, Repr

/-- A node of a parsed statement (`sqlparser.Expr`).  `joinTableExpr` is a
`JoinTableExpr` with its `TableExpr` (`tableExpr` is `none` when `Table` is
nil); the `items` of a `functionExpr` are `Params.Items.Items`, `none` when
`Params.Items` is nil; a `paramExprList` holds the items of its
`ColumnExprList`. -/
inductive Expr where
  | ident (id : Ident)
  | numberLiteral (literal : String)
  | stringLiteral (literal : String)
  | binaryOperation (left : Expr) (operation : String) (right : Expr)
  | paramExprList (items : List Expr)
  | functionExpr (name : Option Ident) (items : Option (List Expr))
  | columnExpr (expr : Expr)
  | aliasExpr (expr : Expr) (aliasOf : Expr)
  | intervalExpr (expr : Expr) (unit : Option Ident)
  | selectItem (expr : Expr) (aliasOf : Option Ident)
  | tableIdentifier (database : Option Ident) (table : Ident)
  | joinTableExpr (tableExpr : Option Expr) (tableAlias : Option Expr)
  | joinExpr (sides : List Expr)
  | settingsClause (items : List Expr)
  | selectQuery (selectItems : List Expr) (fromExpr : Option Expr) (whereExpr : Option Expr)
      (rest : List Expr)
  | other (children : List Expr)
  deriving Repr

/-- The table `resourceTables` (lines 524-531). -/
def resourceTables : List String := ["sessions", "errors", "logs", "traces", "events", "metrics"]

mutual
/-- Whether a visitor that tests `p` on every node it visits finds one.  With
`enter = false` the nested SELECTs, whose nodes are in `priorVisit`, are
skipped. -/
def Expr.anyVisited (enter : Bool) (p : Expr → Bool) : Expr → Bool
  | .ident id => p (.ident id)
  | .numberLiteral literal => p (.numberLiteral literal)
  | .stringLiteral literal => p (.stringLiteral literal)
  | .binaryOperation left operation right =>
    left.anyVisited enter p || right.anyVisited enter p
      || p (.binaryOperation left operation right)
  | .paramExprList items => Expr.anyVisitedList enter p items || p (.paramExprList items)
  | .functionExpr name none => p (.functionExpr name none)
  | .functionExpr name (some items) =>
    Expr.anyVisitedList enter p items || p (.functionExpr name (some items))
  | .columnExpr expr => expr.anyVisited enter p || p (.columnExpr expr)
  | .aliasExpr expr aliasOf =>
    expr.anyVisited enter p || aliasOf.anyVisited enter p || p (.aliasExpr expr aliasOf)
  | .intervalExpr expr unit => expr.anyVisited enter p || p (.intervalExpr expr unit)
  | .selectItem expr aliasOf => expr.anyVisited enter p || p (.selectItem expr aliasOf)
  | .tableIdentifier database table => p (.tableIdentifier database table)
  | .joinTableExpr none none => p (.joinTableExpr none none)
  | .joinTableExpr (some t) none => t.anyVisited enter p || p (.joinTableExpr (some t) none)
  | .joinTableExpr none (some a) => a.anyVisited enter p || p (.joinTableExpr none (some a))
  | .joinTableExpr (some t) (some a) =>
    t.anyVisited enter p || a.anyVisited enter p || p (.joinTableExpr (some t) (some a))
  | .joinExpr sides => Expr.anyVisitedList enter p sides || p (.joinExpr sides)
  | .settingsClause items => Expr.anyVisitedList enter p items || p (.settingsClause items)
  | .selectQuery selectItems none none rest =>
    enter && (Expr.anyVisitedList enter p selectItems || Expr.anyVisitedList enter p rest
      || p (.selectQuery selectItems none none rest))
  | .selectQuery selectItems (some f) none rest =>
    enter && (Expr.anyVisitedList enter p selectItems || f.anyVisited enter p
      || Expr.anyVisitedList enter p rest || p (.selectQuery selectItems (some f) none rest))
  | .selectQuery selectItems none (some w) rest =>
    enter && (Expr.anyVisitedList enter p selectItems || w.anyVisited enter p
      || Expr.anyVisitedList enter p rest || p (.selectQuery selectItems none (some w) rest))
  | .selectQuery selectItems (some f) (some w) rest =>
    enter && (Expr.anyVisitedList enter p selectItems || f.anyVisited enter p
      || w.anyVisited enter p || Expr.anyVisitedList enter p rest
      || p (.selectQuery selectItems (some f) (some w) rest))
  | .other children => Expr.anyVisitedList enter p children || p (.other children)
/-- The visit of a list of nodes. -/
def Expr.anyVisitedList (enter : Bool) (p : Expr → Bool) : List Expr → Bool
  | [] => false
  | e :: es => e.anyVisited enter p || Expr.anyVisitedList enter p es
end

/-- The test of the settings visitor (lines 211-217). -/
def isSettingsClause : Expr → Bool
  | .settingsClause _ => true
  | _ => false

/-- The test of the resource table check (lines 240-245). -/
def isResourceTableIdentifier : Expr → Bool
  | .tableIdentifier _ table => resourceTables.contains table.Name
  | _ => false

/-- Whether an optional identifier has the name. -/
def identNamed (name : String) : Option Ident → Bool
  | some id => id.Name = name
  | none => false

/-- The test of the timestamp visitor (lines 383-388) on a node and on the
identifiers that hang on it. -/
def isTimestampIdent : Expr → Bool
  | .ident id => id.Name = "Timestamp"
  | .functionExpr name _ => identNamed "Timestamp" name
  | .intervalExpr _ unit => identNamed "Timestamp" unit
  | .selectItem _ aliasOf => identNamed "Timestamp" aliasOf
  | .tableIdentifier database table => identNamed "Timestamp" database || table.Name = "Timestamp"
  | _ => false

mutual
/-- The alias names that the ignore visitor collects (lines 269-293): the
alias of every select item and the text of the alias of every alias
expression; `render` is the method `String()` of a node. -/
def Expr.aliasNames (render : Expr → String) : Expr → List String
  | .binaryOperation left _ right => left.aliasNames render ++ right.aliasNames render
  | .paramExprList items => Expr.aliasNamesList render items
  | .functionExpr _ items => Expr.aliasNamesItems render items
  | .columnExpr expr => expr.aliasNames render
  | .aliasExpr expr aliasOf =>
    expr.aliasNames render ++ aliasOf.aliasNames render ++ [render aliasOf]
  | .intervalExpr expr _ => expr.aliasNames render
  | .selectItem expr (some aliasOf) => expr.aliasNames render ++ [aliasOf.Name]
  | .selectItem expr none => expr.aliasNames render
  | .joinTableExpr tableExpr tableAlias =>
    Expr.aliasNamesOpt render tableExpr ++ Expr.aliasNamesOpt render tableAlias
  | .joinExpr sides => Expr.aliasNamesList render sides
  | .settingsClause items => Expr.aliasNamesList render items
  | .other children => Expr.aliasNamesList render children
  | .selectQuery _ _ _ _ => []
  | .ident _ => []
  | .numberLiteral _ => []
  | .stringLiteral _ => []
  | .tableIdentifier _ _ => []
/-- The alias names of a list of nodes. -/
def Expr.aliasNamesList (render : Expr → String) : List Expr → List String
  | [] => []
  | e :: es => e.aliasNames render ++ Expr.aliasNamesList render es
/-- The alias names of an optional node. -/
def Expr.aliasNamesOpt (render : Expr → String) : Option Expr → List String
  | none => []
  | some e => e.aliasNames render
/-- The alias names of the items of a function. -/
def Expr.aliasNamesItems (render : Expr → String) : Option (List Expr) → List String
  | none => []
  | some items => Expr.aliasNamesList render items
end

/-- Whether the column replacement leaves the identifier alone because of its
name (line 303): `*` or the name of an alias. -/
def keepsName (aliases : List String) (id : Ident) : Bool :=
  id.Name = "*" || aliases.contains id.Name

/-- The replacement of one identifier (lines 303-312): the known column, or
the attribute lookup `attributesColumn['name']`. -/
def replaceIdent (config : TableConfig) (aliases : List String) (id : Ident) : Ident :=
  if keepsName aliases id then id
  else
    match config.KeysToColumns.lookup id.Name with
    | some col => { id with Name := col }
    | none =>
      { Name := config.attributesColumn id.Name ++ "['" ++ id.Name ++ "']", QuoteType := 0 }

/-- The attribute field that the replacement of one identifier records (line
309). -/
def unknownField (config : TableConfig) (aliases : List String) (id : Ident) : List String :=
  if keepsName aliases id then []
  else
    match config.KeysToColumns.lookup id.Name with
    | some _ => []
    | none => [id.Name]

mutual
/-- The column replacement visitor (lines 296-315) on the nodes outside nested
SELECTs.  The identifiers in the ignore list are left alone: the alias of a
select item, the name of a function, the alias of an alias expression, the
table of a table identifier and the unit of an interval. -/
def Expr.replaceColumns (config : TableConfig) (aliases : List String) : Expr → Expr
  | .ident id => .ident (replaceIdent config aliases id)
  | .numberLiteral literal => .numberLiteral literal
  | .stringLiteral literal => .stringLiteral literal
  | .binaryOperation left operation right =>
    .binaryOperation (left.replaceColumns config aliases) operation
      (right.replaceColumns config aliases)
  | .paramExprList items => .paramExprList (Expr.replaceColumnsList config aliases items)
  | .functionExpr name items =>
    .functionExpr name (Expr.replaceColumnsItems config aliases items)
  | .columnExpr expr => .columnExpr (expr.replaceColumns config aliases)
  | .aliasExpr expr (.ident aliasOf) =>
    .aliasExpr (expr.replaceColumns config aliases) (.ident aliasOf)
  | .aliasExpr expr aliasOf =>
    .aliasExpr (expr.replaceColumns config aliases) (aliasOf.replaceColumns config aliases)
  | .intervalExpr expr unit => .intervalExpr (expr.replaceColumns config aliases) unit
  | .selectItem expr aliasOf => .selectItem (expr.replaceColumns config aliases) aliasOf
  | .tableIdentifier database table =>
    .tableIdentifier (database.map (replaceIdent config aliases)) table
  | .joinTableExpr tableExpr tableAlias =>
    .joinTableExpr (Expr.replaceColumnsOpt config aliases tableExpr)
      (Expr.replaceColumnsOpt config aliases tableAlias)
  | .joinExpr sides => .joinExpr (Expr.replaceColumnsList config aliases sides)
  | .settingsClause items => .settingsClause (Expr.replaceColumnsList config aliases items)
  | .selectQuery selectItems fromExpr whereExpr rest =>
    .selectQuery selectItems fromExpr whereExpr rest
  | .other children => .other (Expr.replaceColumnsList config aliases children)
/-- The column replacement on a list of nodes. -/
def Expr.replaceColumnsList (config : TableConfig) (aliases : List String) :
    List Expr → List Expr
  | [] => []
  | e :: es => e.replaceColumns config aliases :: Expr.replaceColumnsList config aliases es
/-- The column replacement on an optional node. -/
def Expr.replaceColumnsOpt (config : TableConfig) (aliases : List String) :
    Option Expr → Option Expr
  | none => none
  | some e => some (e.replaceColumns config aliases)
/-- The column replacement on the items of a function. -/
def Expr.replaceColumnsItems (config : TableConfig) (aliases : List String) :
    Option (List Expr) → Option (List Expr)
  | none => none
  | some items => some (Expr.replaceColumnsList config aliases items)
end

mutual
/-- The attribute fields that the column replacement visitor records (line
309), in the order of the visit. -/
def Expr.unknownFields (config : TableConfig) (aliases : List String) : Expr → List String
  | .ident id => unknownField config aliases id
  | .numberLiteral _ => []
  | .stringLiteral _ => []
  | .binaryOperation left _ right =>
    left.unknownFields config aliases ++ right.unknownFields config aliases
  | .paramExprList items => Expr.unknownFieldsList config aliases items
  | .functionExpr _ items => Expr.unknownFieldsItems config aliases items
  | .columnExpr expr => expr.unknownFields config aliases
  | .aliasExpr expr (.ident _) => expr.unknownFields config aliases
  | .aliasExpr expr aliasOf =>
    expr.unknownFields config aliases ++ aliasOf.unknownFields config aliases
  | .intervalExpr expr _ => expr.unknownFields config aliases
  | .selectItem expr _ => expr.unknownFields config aliases
  | .tableIdentifier (some database) _ => unknownField config aliases database
  | .tableIdentifier none _ => []
  | .joinTableExpr tableExpr tableAlias =>
    Expr.unknownFieldsOpt config aliases tableExpr ++ Expr.unknownFieldsOpt config aliases tableAlias
  | .joinExpr sides => Expr.unknownFieldsList config aliases sides
  | .settingsClause items => Expr.unknownFieldsList config aliases items
  | .selectQuery _ _ _ _ => []
  | .other children => Expr.unknownFieldsList config aliases children
/-- The attribute fields of a list of nodes. -/
def Expr.unknownFieldsList (config : TableConfig) (aliases : List String) :
    List Expr → List String
  | [] => []
  | e :: es => e.unknownFields config aliases ++ Expr.unknownFieldsList config aliases es
/-- The attribute fields of an optional node. -/
def Expr.unknownFieldsOpt (config : TableConfig) (aliases : List String) :
    Option Expr → List String
  | none => []
  | some e => e.unknownFields config aliases
/-- The attribute fields of the items of a function. -/
def Expr.unknownFieldsItems (config : TableConfig) (aliases : List String) :
    Option (List Expr) → List String
  | none => []
  | some items => Expr.unknownFieldsList config aliases items
end

/-- Model of `strings.Contains(s, sub)`. -/
def containsText (s sub : String) : Bool :=
  s.data.tails.any (fun t => sub.data.isPrefixOf t)

/-- The rewrite of one function node by the function replacement visitor
(lines 323-360), its items already visited. -/
def rewriteFunction (config : TableConfig) (name : Option Ident) (items : Option (List Expr)) :
    Except String Expr :=
  match name with
  | none => .ok (.functionExpr none items)
  | some id =>
    if id.Name = "$time_interval" then
      match items with
      | none => .error "$time_interval called with empty argument list"
      | some [.columnExpr (.stringLiteral literal)] =>
        .ok (.functionExpr (some { id with Name := "toStartOfInterval" })
          (some [ .columnExpr (.ident { Name := "Timestamp", QuoteType := 0 }),
                  .intervalExpr (.stringLiteral literal) (some { Name := "", QuoteType := 0 }) ]))
      | some [_] => .error "Expecting $time_interval argument to be a string literal."
      | some args =>
        .error ("Expecting 1 argument for $time_interval, found " ++ toString args.length)
    else
      let isSample := containsText (toLower config.TableName) "sample"
      let funcLower := toLower id.Name
      if isSample && (containsText funcLower "sum" || containsText funcLower "count") then
        .ok (.functionExpr (some { id with Name := "any(_sample_factor) * " ++ id.Name }) items)
      else .ok (.functionExpr (some id) items)

mutual
/-- The function replacement visitor (lines 317-363) on the nodes outside
nested SELECTs, or its error. -/
def Expr.replaceFunctions (config : TableConfig) : Expr → Except String Expr
  | .ident id => .ok (.ident id)
  | .numberLiteral literal => .ok (.numberLiteral literal)
  | .stringLiteral literal => .ok (.stringLiteral literal)
  | .binaryOperation left operation right =>
    match left.replaceFunctions config with
    | .error err => .error err
    | .ok l =>
      match right.replaceFunctions config with
      | .error err => .error err
      | .ok r => .ok (.binaryOperation l operation r)
  | .paramExprList items =>
    match Expr.replaceFunctionsList config items with
    | .error err => .error err
    | .ok l => .ok (.paramExprList l)
  | .functionExpr name none => rewriteFunction config name none
  | .functionExpr name (some items) =>
    match Expr.replaceFunctionsList config items with
    | .error err => .error err
    | .ok l => rewriteFunction config name (some l)
  | .columnExpr expr =>
    match expr.replaceFunctions config with
    | .error err => .error err
    | .ok e => .ok (.columnExpr e)
  | .aliasExpr expr aliasOf =>
    match expr.replaceFunctions config with
    | .error err => .error err
    | .ok e =>
      match aliasOf.replaceFunctions config with
      | .error err => .error err
      | .ok a => .ok (.aliasExpr e a)
  | .intervalExpr expr unit =>
    match expr.replaceFunctions config with
    | .error err => .error err
    | .ok e => .ok (.intervalExpr e unit)
  | .selectItem expr aliasOf =>
    match expr.replaceFunctions config with
    | .error err => .error err
    | .ok e => .ok (.selectItem e aliasOf)
  | .tableIdentifier database table => .ok (.tableIdentifier database table)
  | .joinTableExpr tableExpr tableAlias =>
    match Expr.replaceFunctionsOpt config tableExpr with
    | .error err => .error err
    | .ok t =>
      match Expr.replaceFunctionsOpt config tableAlias with
      | .error err => .error err
      | .ok a => .ok (.joinTableExpr t a)
  | .joinExpr sides =>
    match Expr.replaceFunctionsList config sides with
    | .error err => .error err
    | .ok l => .ok (.joinExpr l)
  | .settingsClause items =>
    match Expr.replaceFunctionsList config items with
    | .error err => .error err
    | .ok l => .ok (.settingsClause l)
  | .selectQuery selectItems fromExpr whereExpr rest =>
    .ok (.selectQuery selectItems fromExpr whereExpr rest)
  | .other children =>
    match Expr.replaceFunctionsList config children with
    | .error err => .error err
    | .ok l => .ok (.other l)
/-- The function replacement on a list of nodes. -/
def Expr.replaceFunctionsList (config : TableConfig) : List Expr → Except String (List Expr)
  | [] => .ok []
  | e :: es =>
    match e.replaceFunctions config with
    | .error err => .error err
    | .ok e' =>
      match Expr.replaceFunctionsList config es with
      | .error err => .error err
      | .ok es' => .ok (e' :: es')
/-- The function replacement on an optional node. -/
def Expr.replaceFunctionsOpt (config : TableConfig) : Option Expr → Except String (Option Expr)
  | none => .ok none
  | some e =>
    match e.replaceFunctions config with
    | .error err => .error err
    | .ok e' => .ok (some e')
end

mutual
/-- The table replacement visitor (lines 365-375) on the nodes outside nested
SELECTs: every table identifier gets the configured table name. -/
def Expr.replaceTables (tableName : String) : Expr → Expr
  | .ident id => .ident id
  | .numberLiteral literal => .numberLiteral literal
  | .stringLiteral literal => .stringLiteral literal
  | .binaryOperation left operation right =>
    .binaryOperation (left.replaceTables tableName) operation (right.replaceTables tableName)
  | .paramExprList items => .paramExprList (Expr.replaceTablesList tableName items)
  | .functionExpr name items => .functionExpr name (Expr.replaceTablesItems tableName items)
  | .columnExpr expr => .columnExpr (expr.replaceTables tableName)
  | .aliasExpr expr aliasOf =>
    .aliasExpr (expr.replaceTables tableName) (aliasOf.replaceTables tableName)
  | .intervalExpr expr unit => .intervalExpr (expr.replaceTables tableName) unit
  | .selectItem expr aliasOf => .selectItem (expr.replaceTables tableName) aliasOf
  | .tableIdentifier database table => .tableIdentifier database { table with Name := tableName }
  | .joinTableExpr tableExpr tableAlias =>
    .joinTableExpr (Expr.replaceTablesOpt tableName tableExpr)
      (Expr.replaceTablesOpt tableName tableAlias)
  | .joinExpr sides => .joinExpr (Expr.replaceTablesList tableName sides)
  | .settingsClause items => .settingsClause (Expr.replaceTablesList tableName items)
  | .selectQuery selectItems fromExpr whereExpr rest =>
    .selectQuery selectItems fromExpr whereExpr rest
  | .other children => .other (Expr.replaceTablesList tableName children)
/-- The table replacement on a list of nodes. -/
def Expr.replaceTablesList (tableName : String) : List Expr → List Expr
  | [] => []
  | e :: es => e.replaceTables tableName :: Expr.replaceTablesList tableName es
/-- The table replacement on an optional node. -/
def Expr.replaceTablesOpt (tableName : String) : Option Expr → Option Expr
  | none => none
  | some e => some (e.replaceTables tableName)
/-- The table replacement on the items of a function. -/
def Expr.replaceTablesItems (tableName : String) : Option (List Expr) → Option (List Expr)
  | none => none
  | some items => some (Expr.replaceTablesList tableName items)
end

/-- The clauses of a `sqlparser.SelectQuery`: the select items, the expression
of the FROM clause, the expression of the WHERE clause, and the other clauses. -/
structure SelectParts where
  selectItems : List Expr
  fromExpr : Option Expr
  whereExpr : Option Expr
  rest : List Expr

/-- The SELECT node of the clauses. -/
def SelectParts.toExpr (q : SelectParts) : Expr :=
  .selectQuery q.selectItems q.fromExpr q.whereExpr q.rest

/-- A scanned column value of a raw-SQL result row, as reflection sees it: a
pointer (nil or its pointee), a `time.Time`, another struct, a string, a bool, a
float, a signed or unsigned integer, or a value of another kind. -/
inductive SqlValue where
  | pointer (elem : Option SqlValue)
  | time (t : Time)
  | struct
  | string (s : String)
  | bool (b : Bool)
  | float (x : ℚ)
  | int (n : Int)
  | uint (n : Nat)
  | other

/-- The result of a raw-SQL query: the column names and, for every row, the
scan destinations after `rows.Scan`, one per column. -/
structure SqlRows where
  columns : List String
  rows : List (List SqlValue)

/-- The collaborators of the raw-SQL path that are outside this file: the SQL
parser and printer, `addAttributesParser`, the read-only store (the rows of a
statement under the project id setting, or the error of `Query` or of a
`Scan`), and the float and time conversions of the standard library. -/
structure SqlEnv where
  parse : String → Except String (List Expr)
  render : Expr → String
  addAttributesParser : TableConfig → List String → Int → QueryInput → SelectParts → SelectParts
  query : String → String → Except String SqlRows
  parseFloat : String → Option ℚ
  formatFloat : ℚ → String
  formatTime : Time → String

/-- Lines 231-263: whether the FROM target of a SELECT is a resource table, or
the error of the join check or of an unexpected FROM expression. -/
def fromResourceTable (fromExpr : Option Expr) : Except String Bool :=
  match fromExpr with
  | none => .ok false
  | some (.joinExpr sides) =>
    if (Expr.joinExpr sides).anyVisited false isResourceTableIdentifier then
      .error "Resource tables cannot be used in JOIN expression"
    else .ok false
  | some (.joinTableExpr (some (.tableIdentifier _ table)) _) =>
    .ok (resourceTables.contains table.Name)
  | some (.joinTableExpr (some _) _) => .ok false
  | some _ => .error "Expected FROM expression to be JoinTableExpr"

/-- The comparison `Timestamp <op> toDateTime(<seconds>)` of lines 435-470. -/
def timestampBound (operation : String) (seconds : Int) : Expr :=
  .binaryOperation (.ident { Name := "Timestamp", QuoteType := 0 }) operation
    (.functionExpr (some { Name := "toDateTime", QuoteType := 0 })
      (some [.numberLiteral (toString seconds)]))

/-- The expression `timestampCheck` of lines 434-472. -/
def timestampCheck (dr : DateRangeRequiredInput) : Expr :=
  .binaryOperation (timestampBound ">=" dr.StartDate.Unix) "AND"
    (timestampBound "<=" dr.EndDate.Unix)

/-- Lines 398-506: the rewrite of a SELECT on a resource table, its nested
SELECTs already visited. -/
def rewriteResourceSelect (env : SqlEnv) (config : TableConfig) (input : ReadMetricsInput)
    (q : SelectParts) : Result SelectParts :=
  let aliases := Expr.aliasNamesList env.render q.selectItems
    ++ Expr.aliasNamesOpt env.render q.fromExpr ++ Expr.aliasNamesOpt env.render q.whereExpr
    ++ Expr.aliasNamesList env.render q.rest
  let fields := Expr.unknownFieldsList config aliases q.selectItems
    ++ Expr.unknownFieldsOpt config aliases q.fromExpr
    ++ Expr.unknownFieldsOpt config aliases q.whereExpr
    ++ Expr.unknownFieldsList config aliases q.rest
  let q1 : SelectParts :=
    { selectItems := Expr.replaceColumnsList config aliases q.selectItems
      fromExpr := Expr.replaceColumnsOpt config aliases q.fromExpr
      whereExpr := Expr.replaceColumnsOpt config aliases q.whereExpr
      rest := Expr.replaceColumnsList config aliases q.rest }
  match Expr.replaceFunctionsList config q1.selectItems with
  | .error err => .error err
  | .ok items2 =>
    match Expr.replaceFunctionsOpt config q1.fromExpr with
    | .error err => .error err
    | .ok from2 =>
      match Expr.replaceFunctionsOpt config q1.whereExpr with
      | .error err => .error err
      | .ok where2 =>
        match Expr.replaceFunctionsList config q1.rest with
        | .error err => .error err
        | .ok rest2 =>
          let q3 : SelectParts :=
            { selectItems := Expr.replaceTablesList config.TableName items2
              fromExpr := Expr.replaceTablesOpt config.TableName from2
              whereExpr := Expr.replaceTablesOpt config.TableName where2
              rest := Expr.replaceTablesList config.TableName rest2 }
          if input.ProjectIDs.length != 1 then
            .error ("SQL queries must use 1 project id, " ++ toString input.ProjectIDs.length
              ++ " found")
          else
            let projectId := input.ProjectIDs.headD 0
            let projectIdCol :=
              if config.TableName = "sessions" || config.TableName = "errors" then "ProjectID"
              else "ProjectId"
            let scope : Expr :=
              .binaryOperation (.ident { Name := projectIdCol, QuoteType := 0 }) "="
                (.numberLiteral (toString projectId))
            let q4 := env.addAttributesParser config fields projectId input.Params q3
            match input.Params.DateRange with
            | none => .panic
            | some dr =>
              match q4.whereExpr with
              | none =>
                .ok { q4 with
                      whereExpr := some (.binaryOperation scope "AND" (timestampCheck dr)) }
              | some copiedClause =>
                let hasTimestamp := copiedClause.anyVisited false isTimestampIdent
                let scopedWhere : Expr :=
                  if !hasTimestamp then .binaryOperation scope "AND" (timestampCheck dr)
                  else scope
                .ok { q4 with
                      whereExpr :=
                        some (.binaryOperation (.paramExprList [copiedClause]) "AND" scopedWhere) }

/-- The visit of one SELECT by the select visitor (lines 225-513), its nested
SELECTs already visited. -/
def visitSelect (env : SqlEnv) (config : TableConfig) (input : ReadMetricsInput)
    (q : SelectParts) : Result SelectParts :=
  match fromResourceTable q.fromExpr with
  | .error err => .error err
  | .ok false => .ok q
  | .ok true => rewriteResourceSelect env config input q

mutual
/-- The traversal `expr.Accept(&selectVisitor)` of line 515: every SELECT of
the statement is visited, inner ones first. -/
def Expr.visitSelects (env : SqlEnv) (config : TableConfig) (input : ReadMetricsInput) :
    Expr → Result Expr
  | .ident id => .ok (.ident id)
  | .numberLiteral literal => .ok (.numberLiteral literal)
  | .stringLiteral literal => .ok (.stringLiteral literal)
  | .binaryOperation left operation right =>
    match left.visitSelects env config input with
    | .error err => .error err
    | .panic => .panic
    | .ok l =>
      match right.visitSelects env config input with
      | .error err => .error err
      | .panic => .panic
      | .ok r => .ok (.binaryOperation l operation r)
  | .paramExprList items =>
    match Expr.visitSelectsList env config input items with
    | .error err => .error err
    | .panic => .panic
    | .ok l => .ok (.paramExprList l)
  | .functionExpr name none => .ok (.functionExpr name none)
  | .functionExpr name (some items) =>
    match Expr.visitSelectsList env config input items with
    | .error err => .error err
    | .panic => .panic
    | .ok l => .ok (.functionExpr name (some l))
  | .columnExpr expr =>
    match expr.visitSelects env config input with
    | .error err => .error err
    | .panic => .panic
    | .ok e => .ok (.columnExpr e)
  | .aliasExpr expr aliasOf =>
    match expr.visitSelects env config input with
    | .error err => .error err
    | .panic => .panic
    | .ok e =>
      match aliasOf.visitSelects env config input with
      | .error err => .error err
      | .panic => .panic
      | .ok a => .ok (.aliasExpr e a)
  | .intervalExpr expr unit =>
    match expr.visitSelects env config input with
    | .error err => .error err
    | .panic => .panic
    | .ok e => .ok (.intervalExpr e unit)
  | .selectItem expr aliasOf =>
    match expr.visitSelects env config input with
    | .error err => .error err
    | .panic => .panic
    | .ok e => .ok (.selectItem e aliasOf)
  | .tableIdentifier database table => .ok (.tableIdentifier database table)
  | .joinTableExpr tableExpr tableAlias =>
    match Expr.visitSelectsOpt env config input tableExpr with
    | .error err => .error err
    | .panic => .panic
    | .ok t =>
      match Expr.visitSelectsOpt env config input tableAlias with
      | .error err => .error err
      | .panic => .panic
      | .ok a => .ok (.joinTableExpr t a)
  | .joinExpr sides =>
    match Expr.visitSelectsList env config input sides with
    | .error err => .error err
    | .panic => .panic
    | .ok l => .ok (.joinExpr l)
  | .settingsClause items =>
    match Expr.visitSelectsList env config input items with
    | .error err => .error err
    | .panic => .panic
    | .ok l => .ok (.settingsClause l)
  | .selectQuery selectItems fromExpr whereExpr rest =>
    match Expr.visitSelectsList env config input selectItems with
    | .error err => .error err
    | .panic => .panic
    | .ok items =>
      match Expr.visitSelectsOpt env config input fromExpr with
      | .error err => .error err
      | .panic => .panic
      | .ok f =>
        match Expr.visitSelectsOpt env config input whereExpr with
        | .error err => .error err
        | .panic => .panic
        | .ok w =>
          match Expr.visitSelectsList env config input rest with
          | .error err => .error err
          | .panic => .panic
          | .ok r =>
            match visitSelect env config input
                { selectItems := items, fromExpr := f, whereExpr := w, rest := r } with
            | .error err => .error err
            | .panic => .panic
            | .ok q => .ok q.toExpr
  | .other children =>
    match Expr.visitSelectsList env config input children with
    | .error err => .error err
    | .panic => .panic
    | .ok l => .ok (.other l)
/-- The traversal of a list of nodes. -/
def Expr.visitSelectsList (env : SqlEnv) (config : TableConfig) (input : ReadMetricsInput) :
    List Expr → Result (List Expr)
  | [] => .ok []
  | e :: es =>
    match e.visitSelects env config input with
    | .error err => .error err
    | .panic => .panic
    | .ok e' =>
      match Expr.visitSelectsList env config input es with
      | .error err => .error err
      | .panic => .panic
      | .ok es' => .ok (e' :: es')
/-- The traversal of an optional node. -/
def Expr.visitSelectsOpt (env : SqlEnv) (config : TableConfig) (input : ReadMetricsInput) :
    Option Expr → Result (Option Expr)
  | none => .ok none
  | some e =>
    match e.visitSelects env config input with
    | .error err => .error err
    | .panic => .panic
    | .ok e' => .ok (some e')
end

/-- Model of `transformSql` (lines 191-522): the rewritten SQL text, an error,
or a panic (the dereference of a nil date range). -/
def transformSql (env : SqlEnv) (config : TableConfig) (input : ReadMetricsInput) :
    Result String :=
  match input.Sql with
  | none => .error "Sql input cannot be nil"
  | some sql =>
    match env.parse sql with
    | .error err => .error err
    | .ok statements =>
      match statements with
      | [expr] =>
        if expr.anyVisited true isSettingsClause then
          .error "SQL statement cannot include a settings clause."
        else
          match expr.visitSelects env config input with
          | .error err => .error err
          | .panic => .panic
          | .ok rewritten => .ok (env.render rewritten)
      | _ => .error ("Expected 1 SQL statement, found " ++ toString statements.length)

/-! ## `readMetricsSql` (lines 1527-1665) -/

/-- The constant `projectIdSetting` (line 43). -/
def projectIdSetting : String := "SQL_highlight_project_id"

/-- The constant `groupSuffix` (line 1527). -/
def groupSuffix : String := "_group"

/-- The constant `seriesSuffix` (line 1528). -/
def seriesSuffix : String := "_series"

/-- Model of `strings.HasSuffix`. -/
def hasSuffix (s suffix : String) : Bool := suffix.data.isSuffixOf s.data

/-- Model of `strings.TrimSuffix`. -/
def trimSuffix (s suffix : String) : String :=
  if hasSuffix s suffix then String.mk (s.data.take (s.data.length - suffix.data.length)) else s

/-- The loop of line 1586: nested non-nil pointers are unwrapped. -/
def SqlValue.unwrap : SqlValue → SqlValue
  | .pointer (some v) => v.unwrap
  | v => v

/-- The assignment `results[idx] = value` on the map `results`, kept as a list
ordered by index. -/
def setResult (idx : Nat) (value : Option ℚ) : List (Nat × Option ℚ) → List (Nat × Option ℚ)
  | [] => [(idx, value)]
  | (k, v) :: rest =>
    if idx < k then (idx, value) :: (k, v) :: rest
    else if idx = k then (k, value) :: rest
    else (k, v) :: setResult idx value rest

/-- The variables of the loop over the columns of one row (lines 1579-1648):
the map `results`, which lives across rows, and `bucketId`, `bucketValue`
and `groups`. -/
structure SqlScan where
  results : List (Nat × Option ℚ)
  bucketId : Nat
  bucketValue : Option ℚ
  groups : List String

/-- One pass of the loop over the columns of a row (lines 1582-1648), for the
column `columnName` at index `idx` holding `r`. -/
def scanColumn (env : SqlEnv) (st : SqlScan) (idx : Nat) (columnName : String) (r : SqlValue) :
    SqlScan :=
  let isSeries := hasSuffix columnName seriesSuffix
  let isGroup := hasSuffix columnName groupSuffix
  match r.unwrap with
  | .time t =>
    if isSeries then { st with results := setResult idx (some (t.Unix : ℚ)) st.results }
    else if isGroup then { st with groups := st.groups ++ [env.formatTime t] }
    else { st with bucketId := toUint64 t.Unix, bucketValue := some (t.Unix : ℚ) }
  | .struct => st
  | .string s =>
    if isSeries then
      match env.parseFloat s with
      | some value => { st with results := setResult idx (some value) st.results }
      | none => st
    else { st with groups := st.groups ++ [s] }
  | .bool b =>
    if isSeries then
      { st with results := setResult idx (some (if b then 1 else 0)) st.results }
    else { st with groups := st.groups ++ [if b then "true" else "false"] }
  | .float x =>
    if isGroup then { st with groups := st.groups ++ [env.formatFloat x] }
    else { st with results := setResult idx (some x) st.results }
  | .int n =>
    if isGroup then { st with groups := st.groups ++ [toString n] }
    else { st with results := setResult idx (some (n : ℚ)) st.results }
  | .uint n =>
    if isGroup then { st with groups := st.groups ++ [toString n] }
    else { st with results := setResult idx (some (n : ℚ)) st.results }
  | .pointer _ => { st with results := setResult idx none st.results }
  | .other => st

/-- The loop over the columns of a row, from the column index `idx` on. -/
def scanColumns (env : SqlEnv) (columns : List String) :
    SqlScan → Nat → List SqlValue → SqlScan
  | st, _, [] => st
  | st, idx, r :: rest =>
    scanColumns env columns (scanColumn env st idx (columns.getD idx "") r) (idx + 1) rest

/-- The buckets appended for one row (lines 1650-1661).  The Go loop ranges
over the map `results` in an unspecified order; here by increasing index. -/
def sqlRowBuckets (columns : List String) (st : SqlScan) : List MetricBucket :=
  st.results.map fun entry =>
    { BucketID := st.bucketId
      BucketMin := none
      BucketMax := none
      BucketValue := st.bucketValue
      Group := st.groups
      MetricType := trimSuffix (trimSuffix (columns.getD entry.1 "") seriesSuffix) groupSuffix
      Column := ""
      MetricValue := entry.2 }

/-- The loop over the rows of a raw-SQL result (lines 1573-1662): the buckets
it appends, `results` being the map left by the rows before. -/
def decodeSqlRows (env : SqlEnv) (columns : List String) :
    List (Nat × Option ℚ) → List (List SqlValue) → List MetricBucket
  | _, [] => []
  | results, row :: rows =>
    let st := scanColumns env columns
      { results := results, bucketId := 0, bucketValue := none, groups := [] } 0 row
    sqlRowBuckets columns st ++ decodeSqlRows env columns st.results rows

/-- Model of `readMetricsSql` (lines 1530-1665): the buckets, an error, or a
panic (`input.ProjectIDs[0]` on an empty list, or a panic of `transformSql`). -/
def readMetricsSql (env : SqlEnv) (input : ReadMetricsInput) (config : TableConfig) :
    Result (Option MetricsBuckets) :=
  match transformSql env config input with
  | .error err => .error err
  | .panic => .panic
  | .ok sql =>
    if containsText sql projectIdSetting then
      .error "User cannot modify project id setting in query"
    else
      match input.ProjectIDs with
      | [] => .panic
      | projectId :: _ =>
        match env.query sql (toString projectId) with
        | .error err => .error err
        | .ok result =>
          .ok (some { Buckets := decodeSqlRows env result.columns [] result.rows
                      BucketCount := 0
                      SampleFactor := 0 })

/-- The FROM expression of a statement that reads the table `name`. -/
def fromTable (name : String) : Expr :=
  .joinTableExpr (some (.tableIdentifier none { Name := name, QuoteType := 0 })) none

/-- The statement `SELECT count(*) FROM <table>`. -/
def countFrom (table : String) : Expr :=
  .selectQuery
    [.selectItem (.functionExpr (some { Name := "count", QuoteType := 0 })
      (some [.columnExpr (.ident { Name := "*", QuoteType := 0 })])) none]
    (some (fromTable table)) none []

/-- The statement `SELECT count(*) FROM <left> JOIN <right>`. -/
def countFromJoin (left right : String) : Expr :=
  .selectQuery
    [.selectItem (.functionExpr (some { Name := "count", QuoteType := 0 })
      (some [.columnExpr (.ident { Name := "*", QuoteType := 0 })])) none]
    (some (.joinExpr [fromTable left, fromTable right])) none []

/-- The statement `SELECT 1`, which reads no table. -/
def selectOne : Expr :=
  .selectQuery [.selectItem (.numberLiteral "1") none] none none []

/-- An example environment of the raw-SQL path: the parser knows four
statements by their text, the printer returns a fixed text, and the store
returns no rows. -/
def exampleSqlEnv : SqlEnv :=
  { parse := fun sql =>
      if sql = "SELECT count(*) FROM logs" then .ok [countFrom "logs"]
      else if sql = "SELECT count(*) FROM custom" then .ok [countFrom "custom"]
      else if sql = "SELECT count(*) FROM custom JOIN logs" then
        .ok [countFromJoin "custom" "logs"]
      else if sql = "SELECT 1" then .ok [selectOne]
      else .error "syntax error"
    render := fun _ => "SELECT ..."
    addAttributesParser := fun _ _ _ _ q => q
    query := fun _ _ => .ok { columns := [], rows := [] }
    parseFloat := fun _ => none
    formatFloat := fun _ => ""
    formatTime := fun _ => "" }

/-- An example raw-SQL request with the project ids `ids`. -/
def sqlInput (sql : String) (ids : List Int) : ReadMetricsInput :=
  { windowInput 60 with Sql := some sql, ProjectIDs := ids, BucketWindow := none }

/-- The visit of an optional node by a visitor that tests `p`. -/
def Expr.anyVisitedOpt (enter : Bool) (p : Expr → Bool) : Option Expr → Bool
  | none => false
  | some e => e.anyVisited enter p

/-- A side of a JOIN that is a table identifier naming a resource table. -/
def isResourceSide : Expr → Bool
  | .joinTableExpr (some (.tableIdentifier _ table)) _ => resourceTables.contains table.Name
  | .tableIdentifier _ table => resourceTables.contains table.Name
  | _ => false

/-- Lines 398-409 and 432: the clauses of a SELECT on a resource table after
the column, function and table passes and after `addAttributesParser` for the
project id, or the error of the function pass. -/
def rewrittenParts (env : SqlEnv) (config : TableConfig) (input : ReadMetricsInput)
    (projectId : Int) (q : SelectParts) : Except String SelectParts :=
  let aliases := Expr.aliasNamesList env.render q.selectItems
    ++ Expr.aliasNamesOpt env.render q.fromExpr ++ Expr.aliasNamesOpt env.render q.whereExpr
    ++ Expr.aliasNamesList env.render q.rest
  let fields := Expr.unknownFieldsList config aliases q.selectItems
    ++ Expr.unknownFieldsOpt config aliases q.fromExpr
    ++ Expr.unknownFieldsOpt config aliases q.whereExpr
    ++ Expr.unknownFieldsList config aliases q.rest
  match Expr.replaceFunctionsList config (Expr.replaceColumnsList config aliases q.selectItems) with
  | .error err => .error err
  | .ok items2 =>
    match Expr.replaceFunctionsOpt config (Expr.replaceColumnsOpt config aliases q.fromExpr) with
    | .error err => .error err
    | .ok from2 =>
      match Expr.replaceFunctionsOpt config (Expr.replaceColumnsOpt config aliases q.whereExpr) with
      | .error err => .error err
      | .ok where2 =>
        match Expr.replaceFunctionsList config (Expr.replaceColumnsList config aliases q.rest) with
        | .error err => .error err
        | .ok rest2 =>
          .ok (env.addAttributesParser config fields projectId input.Params
            { selectItems := Expr.replaceTablesList config.TableName items2
              fromExpr := Expr.replaceTablesOpt config.TableName from2
              whereExpr := Expr.replaceTablesOpt config.TableName where2
              rest := Expr.replaceTablesList config.TableName rest2 })

/-- The project scope `C = p` of lines 417-430: `C` is `ProjectID` for the
tables `sessions` and `errors` and `ProjectId` otherwise. -/
def projectScopeExpr (config : TableConfig) (projectId : Int) : Expr :=
  .binaryOperation
    (.ident { Name := if config.TableName = "sessions" || config.TableName = "errors"
                      then "ProjectID" else "ProjectId",
              QuoteType := 0 })
    "=" (.numberLiteral (toString projectId))

/-- The expression `Timestamp >= toDateTime(t0) AND Timestamp <= toDateTime(t1)`,
written out node by node. -/
def timeRangeExpr (t0 t1 : Int) : Expr :=
  .binaryOperation
    (.binaryOperation (.ident { Name := "Timestamp", QuoteType := 0 }) ">="
      (.functionExpr (some { Name := "toDateTime", QuoteType := 0 })
        (some [.numberLiteral (toString t0)])))
    "AND"
    (.binaryOperation (.ident { Name := "Timestamp", QuoteType := 0 }) "<="
      (.functionExpr (some { Name := "toDateTime", QuoteType := 0 })
        (some [.numberLiteral (toString t1)])))

/-- The statement `SELECT count(*) FROM <table> WHERE <condition>`. -/
def countWhere (table : String) (condition : Expr) : Expr :=
  .selectQuery
    [.selectItem (.functionExpr (some { Name := "count", QuoteType := 0 })
      (some [.columnExpr (.ident { Name := "*", QuoteType := 0 })])) none]
    (some (fromTable table)) (some condition) []

/-- The comparison `<column> = '<literal>'`. -/
def columnEquals (column literal : String) : Expr :=
  .binaryOperation (.ident { Name := column, QuoteType := 0 }) "=" (.stringLiteral literal)

/-- An environment whose parser knows three statements on `logs`: without a
WHERE, with a WHERE on the column `SeverityText` and with a WHERE on the key
`timestamp`. -/
def whereSqlEnv : SqlEnv :=
  { exampleSqlEnv with
    parse := fun sql =>
      if sql = "SELECT count(*) FROM logs" then .ok [countFrom "logs"]
      else if sql = "SELECT count(*) FROM logs WHERE SeverityText = 'error'" then
        .ok [countWhere "logs" (columnEquals "SeverityText" "error")]
      else if sql = "SELECT count(*) FROM logs WHERE timestamp = 'x'" then
        .ok [countWhere "logs" (columnEquals "timestamp" "x")]
      else .error "syntax error" }

/-- A scan destination that holds the value `v`: the pointer that
`reflect.New` made for the column (line 1567). -/
def scanned (v : SqlValue) : SqlValue := .pointer (some v)

/-- An environment of the raw-SQL path whose float parser reads the text `2`
and rejects every other text, and whose store returns the two rows `"2"` and
`"abc"` of the single column `v_series`. -/
def seriesSqlEnv : SqlEnv :=
  { exampleSqlEnv with
    parseFloat := fun s => if s = "2" then some 2 else none
    query := fun _ _ =>
      .ok { columns := ["v_series"]
            rows := [[scanned (.string "2")], [scanned (.string "abc")]] } }

/-- What a bucket of the raw-SQL path shows of a row: the group tuple, the
metric name and the metric value. -/
def MetricBucket.shown (b : MetricBucket) : List String × String × Option ℚ :=
  (b.Group, b.MetricType, b.MetricValue)

/-! ## The metric input expressions of `ReadMetrics` (lines 1819-1847) -/

/-- The value of `modelInputs.MetricAggregatorCount`. -/
def MetricAggregatorCount : MetricAggregator := "Count"

/-- The value of `modelInputs.MetricAggregatorCountDistinct`. -/
def MetricAggregatorCountDistinct : MetricAggregator := "CountDistinct"

/-- What one pass of the loop over `input.Expressions` leaves behind: the
metric input expression, the attribute fields it appended and the builder with
the arguments it registered. -/
structure MetricInput where
  metricExpr : String
  attributeFields : List String
  sb : SelectBuilder
  deriving DecidableEq, Repr

/-- One pass of the loop of lines 1819-1847 up to the select column, for the
expression `e`.  `traceKeyAttribute` stands for `highlight.TraceKeyAttribute`,
whose source is outside this file. -/
def metricInput (fromSb : SelectBuilder) (input : ReadMetricsInput) (config : TableConfig)
    (traceKeyAttribute : String) (e : MetricExpressionInput) : MetricInput :=
  let known := (config.KeysToColumns.lookup (toLower e.Column)).getD ""
  let resolved : String × SelectBuilder × List String :=
    if known = "" then
      let c := getAttributeFilterCol fromSb input.SampleableConfig e.Column ""
      (c.1, c.2, [e.Column])
    else (known, fromSb, [])
  let col := resolved.1
  let cast : String :=
    if e.Aggregator != MetricAggregatorCountDistinct
        && e.Aggregator != MetricAggregatorCountDistinctKey then
      match config.KeysToColumns.lookup (toLower e.Column) with
      | some reservedCol => "toFloat64(" ++ reservedCol ++ ")"
      | none =>
        match input.SampleableConfig.tableConfig.MetricColumn with
        | some metricColumn => metricColumn
        | none => "toFloat64OrNull(" ++ col ++ ")"
    else col
  let keyed : String × SelectBuilder × List String :=
    if e.Aggregator = MetricAggregatorCountDistinctKey then
      let c := getAttributeFilterCol resolved.2.1 input.SampleableConfig traceKeyAttribute ""
      (c.1, c.2, resolved.2.2 ++ [traceKeyAttribute])
    else (cast, resolved.2.1, resolved.2.2)
  { metricExpr := if e.Aggregator = MetricAggregatorCount || e.Column = "" then "1.0"
                  else keyed.1
    attributeFields := keyed.2.2
    sb := keyed.2.1 }

/-- The select column of line 1846 for the expression `e` at index `idx`. -/
def metricInputColumn (fromSb : SelectBuilder) (input : ReadMetricsInput) (config : TableConfig)
    (traceKeyAttribute : String) (idx : Nat) (e : MetricExpressionInput) : String :=
  SelectBuilder.As (metricInput fromSb input config traceKeyAttribute e).metricExpr
    ("metric_input" ++ toString idx)

/-- The attribute lookup of `key` on the builder `sb`, without an operator. -/
def attributeLookup (sb : SelectBuilder) (input : ReadMetricsInput) (key : String) : String :=
  (getAttributeFilterCol sb input.SampleableConfig key "").1

/-- Exactly one of three propositions holds. -/
def ExactlyOne (a b c : Prop) : Prop :=
  (a ∨ b ∨ c) ∧ ¬ (a ∧ b) ∧ ¬ (a ∧ c) ∧ ¬ (b ∧ c)

/-- Whether a row satisfies every WHERE expression of a list. -/
def holdsAll (search : String → PageRow → Bool) (row : PageRow) (conds : List Cond) : Prop :=
  ∀ c ∈ conds, c.eval search row = true

/-- An example row whose attributes column `Fields` is a slice with the one
entry of type `session`, name `x` and value `1`. -/
def fieldsRow : Value :=
  .struct "SessionRow"
    [("Fields", .slice "[]*Field"
      [.pointer "*Field" (some (.struct "Field"
        [("Type", .string "session"), ("Name", .string "x"), ("Value", .string "1")]))])]

/-- A configuration without known keys whose attributes column is `Fields`. -/
def fieldsConfig : TableConfig :=
  { exampleConfig with KeysToColumns := [], attributesColumn := fun _ => "Fields" }

/-! ## `saveMetricHistory` (lines 1406-1468) -/

/-- Lines 1411-1414: the bucket count that `saveMetricHistory` uses. -/
def historyBucketCount (input : ReadMetricsInput) : Int :=
  match input.BucketCount with
  | some bucketCount => bucketCount
  | none => 1

/-- Line 1418: the select column of the `Timestamp` of a history row. -/
def historyTimestampColumn (input : ReadMetricsInput) : String :=
  "fromUnixTimestamp(toInt64(" ++ bucketIndexAlias ++ "*(" ++ maxAlias ++ "-" ++ minAlias
    ++ ")/" ++ toString (historyBucketCount input) ++ " + " ++ minAlias ++ "))"

/-- An example request with a saved metric state over the range `[0 s, 1800 s]`,
bucketed by timestamp. -/
def savedInput (bucketCount bucketWindow : Option Int) : ReadMetricsInput :=
  { windowInput 60 with
    BucketCount := bucketCount
    BucketWindow := bucketWindow
    SavedMetricState := some { MetricId := "m1", BlockNumberInfo := [] } }

/-! # Theorems -/

/-! ## Facts about the integer conversions and loop ranges -/

theorem toUint64_eq (i : Int) (h0 : 0 ≤ i) (h1 : i < 2 ^ 64) :
    ((toUint64 i : Nat) : Int) = i := by
  unfold toUint64
  rw [Int.emod_eq_of_lt h0 h1, Int.toNat_of_nonneg h0]

theorem toInt_eq (u : Nat) (h : (u : Int) < 2 ^ 63) : toInt u = (u : Int) := by
  unfold toInt
  have h1 : u < 2 ^ 63 := by exact_mod_cast h
  have h2 : u % 2 ^ 64 = u := Nat.mod_eq_of_lt (by norm_num at h1 ⊢; omega)
  rw [h2, if_pos h1]

theorem mem_intRange {lo hi i : Int} : i ∈ intRange lo hi ↔ lo ≤ i ∧ i < hi := by
  unfold intRange
  simp only [List.mem_map, List.mem_range]
  constructor
  · rintro ⟨k, hk, rfl⟩
    omega
  · rintro ⟨h1, h2⟩
    exact ⟨(i - lo).toNat, by omega, by omega⟩

theorem intRange_append {lo mid hi : Int} (h1 : lo ≤ mid) (h2 : mid ≤ hi) :
    intRange lo mid ++ intRange mid hi = intRange lo hi := by
  unfold intRange
  have e : (hi - lo).toNat = (mid - lo).toNat + (hi - mid).toNat := by omega
  rw [e, List.range_add, List.map_append, List.map_map]
  congr 1
  apply List.map_congr_left
  intro k _
  simp only [Function.comp_apply]
  push_cast
  omega

theorem intRange_empty {lo hi : Int} (h : hi ≤ lo) : intRange lo hi = [] := by
  unfold intRange
  have e : (hi - lo).toNat = 0 := by omega
  rw [e]
  rfl

/-- A row that is not skipped has a bucket id below the bucket count. -/
theorem groupKey_lt_of_not_skipped (n : Int) (hn0 : 0 ≤ n) (hn : n < 2 ^ 63)
    (k : Nat) (h : ¬ toUint64 n ≤ k) : (k : Int) < n := by
  have h1 := toUint64_eq n hn0 (by omega)
  have h2 : k < toUint64 n := Nat.lt_of_not_le h
  omega

theorem mem_interpolated {n : Int} {exprs : List MetricExpressionInput} {mn mx : ℚ}
    {g : List String} {i : Int} {b : MetricBucket}
    (h : b ∈ interpolated n exprs mn mx g i) : b.BucketID = toUint64 i := by
  unfold interpolated at h
  rw [List.mem_map] at h
  obtain ⟨e, _, rfl⟩ := h
  rfl

theorem mem_rowBuckets {n : Int} {exprs : List MetricExpressionInput} {r : ScanRow}
    {b : MetricBucket} (h : b ∈ rowBuckets n exprs r) : b.BucketID = r.groupKey := by
  unfold rowBuckets at h
  rw [List.mem_map] at h
  obtain ⟨e, _, rfl⟩ := h
  rfl

/-- Invariant of the scan loop: the last bucket id is at least `-1` and every
bucket emitted so far has an id below the bucket count. -/
theorem scanStep_inv (n : Int) (hn0 : 0 ≤ n) (hn : n < 2 ^ 63)
    (exprs : List MetricExpressionInput) (st : ScanState) (r : ScanRow)
    (h1 : -1 ≤ st.lastBucketId) (h2 : ∀ b ∈ st.Buckets, (b.BucketID : Int) < n) :
    -1 ≤ (scanStep n exprs st r).lastBucketId ∧
      ∀ b ∈ (scanStep n exprs st r).Buckets, (b.BucketID : Int) < n := by
  unfold scanStep
  by_cases hs : toUint64 n ≤ r.groupKey
  · simp only [hs, if_true]
    exact ⟨h1, h2⟩
  · simp only [hs, if_false]
    have hk := groupKey_lt_of_not_skipped n hn0 hn r.groupKey hs
    have hi : toInt r.groupKey = (r.groupKey : Int) := toInt_eq _ (by omega)
    refine ⟨by rw [hi]; omega, ?_⟩
    intro b hb
    rw [List.mem_append, List.mem_append] at hb
    rcases hb with (hb | hb) | hb
    · exact h2 b hb
    · rw [List.mem_flatMap] at hb
      obtain ⟨i, hi1, hi2⟩ := hb
      rw [mem_intRange, hi] at hi1
      rw [mem_interpolated hi2, toUint64_eq i (by omega) (by omega)]
      omega
    · rw [mem_rowBuckets hb]
      exact hk

theorem scanLoop_inv (n : Int) (hn0 : 0 ≤ n) (hn : n < 2 ^ 63)
    (exprs : List MetricExpressionInput) (rows : List ScanRow) (st : ScanState)
    (h1 : -1 ≤ st.lastBucketId) (h2 : ∀ b ∈ st.Buckets, (b.BucketID : Int) < n) :
    -1 ≤ (rows.foldl (scanStep n exprs) st).lastBucketId ∧
      ∀ b ∈ (rows.foldl (scanStep n exprs) st).Buckets, (b.BucketID : Int) < n := by
  induction rows generalizing st with
  | nil => exact ⟨h1, h2⟩
  | cons r rs ih =>
    obtain ⟨a, b⟩ := scanStep_inv n hn0 hn exprs st r h1 h2
    exact ih _ a b

/-! ## The shape of the emitted bucket list -/

theorem blocks_append {β : Type} (f : Int → MetricExpressionInput → β)
    (exprs : List MetricExpressionInput) {lo mid hi : Int} (h1 : lo ≤ mid) (h2 : mid ≤ hi) :
    blocks f exprs lo mid ++ blocks f exprs mid hi = blocks f exprs lo hi := by
  unfold blocks
  rw [← intRange_append h1 h2, List.flatMap_append]

theorem blocks_single {β : Type} (f : Int → MetricExpressionInput → β)
    (exprs : List MetricExpressionInput) (k : Int) :
    blocks f exprs k (k + 1) = exprs.map (f k) := by
  unfold blocks intRange
  have e : (k + 1 - k).toNat = 1 := by omega
  rw [e]
  simp [List.range_succ, List.flatMap]

theorem map_flatMap_interpolated {β : Type} (P : MetricBucket → β)
    (f : Int → MetricExpressionInput → β) (n : Int) (exprs : List MetricExpressionInput)
    (mn mx : ℚ) (g : List String) (lo hi : Int)
    (hI : ∀ i, lo ≤ i → i < hi → (interpolated n exprs mn mx g i).map P = exprs.map (f i)) :
    ((intRange lo hi).flatMap (interpolated n exprs mn mx g)).map P = blocks f exprs lo hi := by
  unfold blocks
  rw [List.map_flatMap]
  apply List.flatMap_congr
  intro i hi'
  rw [mem_intRange] at hi'
  exact hI i hi'.1 hi'.2

/-- One loop iteration keeps the emitted list equal to the blocks
`0 .. lastBucketId`, provided the row's bucket id is above the last one. -/
theorem scanStep_blocks {β : Type} (P : MetricBucket → β)
    (f : Int → MetricExpressionInput → β) (n : Int) (hn0 : 0 ≤ n) (hn : n < 2 ^ 63)
    (exprs : List MetricExpressionInput) (st : ScanState) (r : ScanRow)
    (hI : ∀ i, 0 ≤ i → i < n →
      (interpolated n exprs r.min r.max r.groupByColResults i).map P = exprs.map (f i))
    (hR : (r.groupKey : Int) < n → (rowBuckets n exprs r).map P = exprs.map (f r.groupKey))
    (h1 : -1 ≤ st.lastBucketId) (h2 : st.lastBucketId < n)
    (hlt : st.lastBucketId < (r.groupKey : Int))
    (hB : st.Buckets.map P = blocks f exprs 0 (st.lastBucketId + 1)) :
    -1 ≤ (scanStep n exprs st r).lastBucketId ∧
    (scanStep n exprs st r).lastBucketId < n ∧
    ((scanStep n exprs st r).lastBucketId = st.lastBucketId ∨
      (scanStep n exprs st r).lastBucketId = (r.groupKey : Int)) ∧
    (scanStep n exprs st r).Buckets.map P
      = blocks f exprs 0 ((scanStep n exprs st r).lastBucketId + 1) := by
  unfold scanStep
  by_cases hs : toUint64 n ≤ r.groupKey
  · simp only [hs, if_true]
    exact ⟨h1, h2, Or.inl trivial, hB⟩
  · simp only [hs, if_false]
    have hk := groupKey_lt_of_not_skipped n hn0 hn r.groupKey hs
    have hi : toInt r.groupKey = (r.groupKey : Int) := toInt_eq _ (by omega)
    rw [hi]
    refine ⟨by omega, hk, Or.inr rfl, ?_⟩
    rw [List.map_append, List.map_append, hB, hR hk,
      map_flatMap_interpolated P f n exprs r.min r.max r.groupByColResults _ _
        (fun i a b => hI i (by omega) (by omega)),
      blocks_append f exprs (by omega) (by omega), ← blocks_single,
      blocks_append f exprs (by omega) (by omega)]

theorem scanLoop_blocks {β : Type} (P : MetricBucket → β)
    (f : Int → MetricExpressionInput → β) (n : Int) (hn0 : 0 ≤ n) (hn : n < 2 ^ 63)
    (exprs : List MetricExpressionInput) (rows : List ScanRow) (st : ScanState)
    (hI : ∀ r ∈ rows, ∀ i, 0 ≤ i → i < n →
      (interpolated n exprs r.min r.max r.groupByColResults i).map P = exprs.map (f i))
    (hR : ∀ r ∈ rows, (r.groupKey : Int) < n →
      (rowBuckets n exprs r).map P = exprs.map (f r.groupKey))
    (hsorted : rows.Pairwise (fun a b => a.groupKey < b.groupKey))
    (h1 : -1 ≤ st.lastBucketId) (h2 : st.lastBucketId < n)
    (hlt : ∀ r ∈ rows, st.lastBucketId < (r.groupKey : Int))
    (hB : st.Buckets.map P = blocks f exprs 0 (st.lastBucketId + 1)) :
    -1 ≤ (rows.foldl (scanStep n exprs) st).lastBucketId ∧
    (rows.foldl (scanStep n exprs) st).lastBucketId < n ∧
    (rows.foldl (scanStep n exprs) st).Buckets.map P
      = blocks f exprs 0 ((rows.foldl (scanStep n exprs) st).lastBucketId + 1) := by
  induction rows generalizing st with
  | nil => exact ⟨h1, h2, hB⟩
  | cons r rs ih =>
    obtain ⟨a, b, c, d⟩ := scanStep_blocks P f n hn0 hn exprs st r
      (hI r (List.mem_cons_self _ _)) (hR r (List.mem_cons_self _ _)) h1 h2
      (hlt r (List.mem_cons_self _ _)) hB
    rw [List.pairwise_cons] at hsorted
    refine ih (scanStep n exprs st r)
      (fun x hx => hI x (List.mem_cons_of_mem _ hx))
      (fun x hx => hR x (List.mem_cons_of_mem _ hx)) hsorted.2 a b ?_ d
    intro x hx
    have hx1 := hlt x (List.mem_cons_of_mem _ hx)
    have hx2 := hsorted.1 x hx
    rcases c with c | c <;> rw [c] <;> omega

/-- The scan context after a non-empty loop is that of one of the rows, and
`hasRows` is set. -/
theorem scanLoop_context (n : Int) (exprs : List MetricExpressionInput)
    (rows : List ScanRow) (st : ScanState)
    (C : Bool → ℚ → ℚ → List String → Prop)
    (h0 : C st.hasRows st.min st.max st.groupByColResults)
    (hC : ∀ r ∈ rows, C true r.min r.max r.groupByColResults) :
    C (rows.foldl (scanStep n exprs) st).hasRows (rows.foldl (scanStep n exprs) st).min
      (rows.foldl (scanStep n exprs) st).max
      (rows.foldl (scanStep n exprs) st).groupByColResults := by
  induction rows generalizing st with
  | nil => exact h0
  | cons r rs ih =>
    apply ih
    · have := hC r (List.mem_cons_self _ _)
      unfold scanStep
      by_cases hs : toUint64 n ≤ r.groupKey <;> simp only [hs, if_true, if_false] <;> exact this
    · exact fun x hx => hC x (List.mem_cons_of_mem _ hx)

theorem rowBuckets_map {β : Type} (n : Int) (exprs : List MetricExpressionInput) (r : ScanRow)
    (P : MetricBucket → β) (h : MetricExpressionInput → β)
    (hP : ∀ p : Nat × MetricExpressionInput,
      P { BucketID := r.groupKey
          BucketMin := some ((r.groupKey : ℚ) * (r.max - r.min) / (n : ℚ) + r.min)
          BucketMax := some (((r.groupKey + 1 : Nat) : ℚ) * (r.max - r.min) / (n : ℚ) + r.min)
          BucketValue := none
          Group := r.groupByColResults
          MetricType := p.2.Aggregator
          Column := p.2.Column
          MetricValue := r.metricResults.getD p.1 none } = h p.2) :
    (rowBuckets n exprs r).map P = exprs.map h := by
  unfold rowBuckets
  rw [List.map_map]
  have : (P ∘ fun p : Nat × MetricExpressionInput =>
      ({ BucketID := r.groupKey
         BucketMin := some ((r.groupKey : ℚ) * (r.max - r.min) / (n : ℚ) + r.min)
         BucketMax := some (((r.groupKey + 1 : Nat) : ℚ) * (r.max - r.min) / (n : ℚ) + r.min)
         BucketValue := none
         Group := r.groupByColResults
         MetricType := p.2.Aggregator
         Column := p.2.Column
         MetricValue := r.metricResults.getD p.1 none } : MetricBucket)) = h ∘ Prod.snd := by
    funext p
    exact hP p
  rw [this, ← List.map_map, List.enum_map_snd]

/-- The emitted ids and expressions of a result whose rows have strictly
increasing bucket ids. -/
theorem decodeRows_ids (n : Int) (hn0 : 0 ≤ n) (hn : n < 2 ^ 63)
    (exprs : List MetricExpressionInput) (bucketBy : String) (groupBy : Nat)
    (s e : Int) (rows : List ScanRow)
    (hsorted : rows.Pairwise (fun a b => a.groupKey < b.groupKey)) :
    (decodeRows n exprs bucketBy groupBy s e rows).Buckets.map
        (fun b => ((b.BucketID : Int), b.MetricType, b.Column))
      = (intRange 0 n).flatMap (fun i => exprs.map fun x => (i, x.Aggregator, x.Column)) := by
  have hI : ∀ (mn mx : ℚ) (g : List String) (i : Int), 0 ≤ i → i < n →
      (interpolated n exprs mn mx g i).map
        (fun b => ((b.BucketID : Int), b.MetricType, b.Column))
        = exprs.map (fun x => (i, x.Aggregator, x.Column)) := by
    intro mn mx g i h0 h1
    unfold interpolated
    rw [List.map_map]
    apply List.map_congr_left
    intro x _
    simp only [Function.comp_apply]
    rw [toUint64_eq i h0 (by omega)]
  obtain ⟨a, b, c⟩ := scanLoop_blocks
    (fun b => ((b.BucketID : Int), b.MetricType, b.Column))
    (fun i x => (i, x.Aggregator, x.Column)) n hn0 hn exprs rows (scanInit groupBy)
    (fun r _ i h0 h1 => hI _ _ _ i h0 h1)
    (fun r _ _ => rowBuckets_map n exprs r _ _ (fun p => rfl))
    hsorted (by simp [scanInit]) (by simp [scanInit]; omega)
    (fun r _ => by simp [scanInit]; omega)
    (by simp [scanInit, blocks, intRange])
  unfold decodeRows finishBuckets scanLoop
  simp only
  rw [List.map_append, c, map_flatMap_interpolated _ _ n exprs _ _ _ _ _
    (fun i h0 h1 => hI _ _ _ i (by omega) h1), blocks_append _ _ (by omega) (by omega)]
  rfl

theorem scanLoop_group (n : Int) (exprs : List MetricExpressionInput) (g : List String)
    (rows : List ScanRow) (st : ScanState)
    (h0 : ∀ b ∈ st.Buckets, b.Group = g)
    (hg : ∀ r ∈ rows, r.groupByColResults = g) :
    ∀ b ∈ (rows.foldl (scanStep n exprs) st).Buckets, b.Group = g := by
  induction rows generalizing st with
  | nil => exact h0
  | cons r rs ih =>
    apply ih _ _ (fun x hx => hg x (List.mem_cons_of_mem _ hx))
    have hr := hg r (List.mem_cons_self _ _)
    unfold scanStep
    by_cases hs : toUint64 n ≤ r.groupKey
    · simp only [hs, if_true]
      exact h0
    · simp only [hs, if_false]
      intro b hb
      rw [List.mem_append, List.mem_append] at hb
      rcases hb with (hb | hb) | hb
      · exact h0 b hb
      · rw [List.mem_flatMap] at hb
        obtain ⟨i, _, hi2⟩ := hb
        unfold interpolated at hi2
        rw [List.mem_map] at hi2
        obtain ⟨x, _, rfl⟩ := hi2
        exact hr
      · unfold rowBuckets at hb
        rw [List.mem_map] at hb
        obtain ⟨x, _, rfl⟩ := hb
        exact hr

/-- C1 (amended): for every bucket count `n ≥ 1` and every sequence of result
rows with strictly increasing bucket ids (a result without group-by, or whose
rows all belong to one group tuple), the decode loop of `ReadMetrics` emits, for
each `i` in `0 .. n-1` in increasing order, exactly one bucket per aggregator
expression with `BucketID = i`, hence `n` buckets per expression; and when all
rows carry the group tuple `g`, every emitted bucket carries `g`. -/
theorem decodeRows_contiguous (n : Int) (hn1 : 1 ≤ n) (hn : n < 2 ^ 63)
    (exprs : List MetricExpressionInput) (bucketBy : String) (groupBy : Nat)
    (s e : Int) (rows : List ScanRow)
    (hsorted : rows.Pairwise (fun a b => a.groupKey < b.groupKey)) :
    (decodeRows n exprs bucketBy groupBy s e rows).Buckets.map
        (fun b => ((b.BucketID : Int), b.MetricType, b.Column))
      = (intRange 0 n).flatMap (fun i => exprs.map fun x => (i, x.Aggregator, x.Column))
    ∧ (decodeRows n exprs bucketBy groupBy s e rows).Buckets.length
      = n.toNat * exprs.length
    ∧ ∀ g, rows ≠ [] → (∀ r ∈ rows, r.groupByColResults = g) →
        ∀ b ∈ (decodeRows n exprs bucketBy groupBy s e rows).Buckets, b.Group = g := by
  have hids := decodeRows_ids n (by omega) hn exprs bucketBy groupBy s e rows hsorted
  refine ⟨hids, ?_, ?_⟩
  · have hl := congrArg List.length hids
    rw [List.length_map] at hl
    rw [hl, List.length_flatMap]
    simp only [List.length_map, intRange, List.map_map, List.map_const', List.length_range,
      Function.comp_def, List.sum_replicate, smul_eq_mul, sub_zero]
  · intro g hne hg b hb
    unfold decodeRows finishBuckets at hb
    simp only [List.mem_append] at hb
    rcases hb with hb | hb
    · exact scanLoop_group n exprs g rows (scanInit groupBy) (by simp [scanInit]) hg b hb
    · rw [List.mem_flatMap] at hb
      obtain ⟨i, _, hi2⟩ := hb
      unfold interpolated at hi2
      rw [List.mem_map] at hi2
      obtain ⟨x, _, rfl⟩ := hi2
      simp only
      cases rows with
      | nil => exact absurd rfl hne
      | cons r rs =>
        unfold scanLoop
        rw [List.foldl_cons]
        apply scanLoop_context n exprs rs (scanStep n exprs (scanInit groupBy) r)
          (fun _ _ _ grp => grp = g)
        · have hr := hg r (List.mem_cons_self _ _)
          unfold scanStep
          by_cases hs : toUint64 n ≤ r.groupKey <;> simp only [hs, if_true, if_false] <;>
            exact hr
        · exact fun x hx => hg x (List.mem_cons_of_mem _ hx)

theorem decodeRows_contiguous_witness :
    (decodeRows 3 [countExpr] MetricBucketByTimestamp 0 0 30 gapRows).Buckets.map
        (fun b => ((b.BucketID : Int), b.MetricType, b.Column))
      = (intRange 0 3).flatMap (fun i => [countExpr].map fun x => (i, x.Aggregator, x.Column))
    ∧ (decodeRows 3 [countExpr] MetricBucketByTimestamp 0 0 30 gapRows).Buckets.length
      = (3 : Int).toNat * [countExpr].length :=
  ⟨(decodeRows_contiguous 3 (by decide) (by decide) [countExpr] MetricBucketByTimestamp 0 0 30
      gapRows (by simp [gapRows])).1,
   (decodeRows_contiguous 3 (by decide) (by decide) [countExpr] MetricBucketByTimestamp 0 0 30
      gapRows (by simp [gapRows])).2.1⟩

/-- C1 (as stated) fails: with bucket count 2, one expression and the ordered
rows (bucket 0, group a), (bucket 1, group b), group `a` gets the single bucket
0, not the buckets 0 and 1. -/
theorem decodeRows_group_gap :
    orderedByBucketThenGroup twoGroupRows ∧
    ¬ perGroupContiguous 2 [countExpr] twoGroupRows
        (decodeRows 2 [countExpr] MetricBucketByTimestamp 1 0 100 twoGroupRows).Buckets := by
  constructor
  · simp [orderedByBucketThenGroup, twoGroupRows]
  · intro h
    have h1 := h ["a"] (by simp [twoGroupRows]) countExpr (by simp)
    revert h1
    decide

/-- C2: for every bucket count `n ≥ 1`, every list of expressions and every
date range `[s, e]` (Unix seconds), when `BucketBy` is timestamp and the query
returns zero rows, the decode part of `ReadMetrics` emits, for each `i` in
`0 .. n-1` in increasing order, one bucket per expression with `BucketID = i`,
`MetricValue = nil`, `BucketMin = s + i*(e-s)/n` and
`BucketMax = s + (i+1)*(e-s)/n`: `n * k` buckets for `k` expressions. -/
theorem decodeRows_no_rows (n : Int) (hn1 : 1 ≤ n) (hn : n < 2 ^ 63)
    (exprs : List MetricExpressionInput) (groupBy : Nat) (s e : Int) :
    decodeRows n exprs MetricBucketByTimestamp groupBy s e [] =
      { Buckets := (intRange 0 n).flatMap fun i => exprs.map fun x =>
          { BucketID := i.toNat
            BucketMin := some ((s : ℚ) + (i : ℚ) * ((e : ℚ) - (s : ℚ)) / (n : ℚ))
            BucketMax := some ((s : ℚ) + ((i : ℚ) + 1) * ((e : ℚ) - (s : ℚ)) / (n : ℚ))
            BucketValue := none
            Group := List.replicate groupBy ""
            MetricType := x.Aggregator
            Column := x.Column
            MetricValue := none }
        BucketCount := n.toNat
        SampleFactor := 0 }
    ∧ (decodeRows n exprs MetricBucketByTimestamp groupBy s e []).Buckets.length
        = n.toNat * exprs.length := by
  have hn' : toUint64 n = n.toNat := by
    have := toUint64_eq n (by omega) (by omega)
    omega
  have key : decodeRows n exprs MetricBucketByTimestamp groupBy s e [] =
      { Buckets := (intRange 0 n).flatMap fun i => exprs.map fun x =>
          { BucketID := i.toNat
            BucketMin := some ((s : ℚ) + (i : ℚ) * ((e : ℚ) - (s : ℚ)) / (n : ℚ))
            BucketMax := some ((s : ℚ) + ((i : ℚ) + 1) * ((e : ℚ) - (s : ℚ)) / (n : ℚ))
            BucketValue := none
            Group := List.replicate groupBy ""
            MetricType := x.Aggregator
            Column := x.Column
            MetricValue := none }
        BucketCount := n.toNat
        SampleFactor := 0 } := by
    unfold decodeRows finishBuckets scanLoop
    simp only [List.foldl_nil, scanInit, beq_self_eq_true, Bool.not_false, Bool.and_self,
      if_true, List.nil_append, hn']
    congr 1
    apply List.flatMap_congr
    intro i hi
    rw [mem_intRange] at hi
    unfold interpolated
    apply List.map_congr_left
    intro x _
    have hi' : toUint64 i = i.toNat := by
      have := toUint64_eq i (by omega) (by omega)
      omega
    rw [hi']
    congr 2
    · ring
    · push_cast
      ring
  refine ⟨key, ?_⟩
  rw [key]
  simp only [List.length_flatMap, List.length_map, intRange, List.map_map, List.map_const',
    List.length_range, Function.comp_def, List.sum_replicate, smul_eq_mul, sub_zero]

/-- C2 at the scenario of the spec: bucket count 4 over the 4-hour range
`[0, 14400]` with one `Count` expression gives four 1-hour slices. -/
theorem decodeRows_no_rows_witness :
    (decodeRows 4 [countExpr] MetricBucketByTimestamp 0 0 14400 []).Buckets
      = [ { BucketID := 0, BucketMin := some 0, BucketMax := some 3600, BucketValue := none,
            Group := [], MetricType := "Count", Column := "", MetricValue := none },
          { BucketID := 1, BucketMin := some 3600, BucketMax := some 7200, BucketValue := none,
            Group := [], MetricType := "Count", Column := "", MetricValue := none },
          { BucketID := 2, BucketMin := some 7200, BucketMax := some 10800, BucketValue := none,
            Group := [], MetricType := "Count", Column := "", MetricValue := none },
          { BucketID := 3, BucketMin := some 10800, BucketMax := some 14400, BucketValue := none,
            Group := [], MetricType := "Count", Column := "", MetricValue := none } ] := by
  rw [(decodeRows_no_rows 4 (by decide) (by decide) [countExpr] 0 0 14400).1]
  have h4 : ((4 : Int) - 0).toNat = 4 := by decide
  simp only [intRange, countExpr, h4]
  norm_num [List.range_succ, List.flatMap]
  decide

/-- C3: for every bucket count `n ≥ 1` and every non-empty sequence of rows
that all carry the same bounds `mn ≤ mx` and have strictly increasing bucket
ids (one expression), the emitted buckets are, in order, the buckets with ids
`0 .. n-1`, bucket `i` having `BucketMin = bound i` and `BucketMax = bound (i+1)`
(so `BucketMax` of bucket `i` is `BucketMin` of bucket `i+1`), where
`bound 0 = mn`, `bound n = mx`, consecutive bounds are `(mx-mn)/n` apart and
`bound` is non-decreasing: the buckets partition `[mn, mx)` into `n` equal-width
intervals. -/
theorem decodeRows_partition (n : Int) (hn1 : 1 ≤ n) (hn : n < 2 ^ 63)
    (x : MetricExpressionInput) (bucketBy : String) (groupBy : Nat) (s e : Int)
    (mn mx : ℚ) (hmm : mn ≤ mx) (rows : List ScanRow) (hne : rows ≠ [])
    (hb : ∀ r ∈ rows, r.min = mn ∧ r.max = mx)
    (hsorted : rows.Pairwise (fun a b => a.groupKey < b.groupKey)) :
    (decodeRows n [x] bucketBy groupBy s e rows).Buckets.map
        (fun b => ((b.BucketID : Int), b.BucketMin, b.BucketMax))
      = (intRange 0 n).map
          (fun i => (i, some (bucketBound mn mx n i), some (bucketBound mn mx n (i + 1))))
    ∧ bucketBound mn mx n 0 = mn
    ∧ bucketBound mn mx n n = mx
    ∧ (∀ i : Int, bucketBound mn mx n (i + 1) - bucketBound mn mx n i = (mx - mn) / (n : ℚ))
    ∧ (∀ i j : Int, i ≤ j → bucketBound mn mx n i ≤ bucketBound mn mx n j) := by
  have hnq : (0 : ℚ) < (n : ℚ) := by exact_mod_cast (by omega : (0 : Int) < n)
  refine ⟨?_, ?_, ?_, ?_, ?_⟩
  · have hI : ∀ (g : List String) (i : Int), 0 ≤ i → i < n →
        (interpolated n [x] mn mx g i).map
          (fun b => ((b.BucketID : Int), b.BucketMin, b.BucketMax))
          = [x].map (fun _ => (i, some (bucketBound mn mx n i),
              some (bucketBound mn mx n (i + 1)))) := by
      intro g i h0 h1
      simp only [interpolated, List.map_cons, List.map_nil, bucketBound]
      rw [toUint64_eq i h0 (by omega)]
    obtain ⟨a, b, c⟩ := scanLoop_blocks
      (fun b => ((b.BucketID : Int), b.BucketMin, b.BucketMax))
      (fun i _ => (i, some (bucketBound mn mx n i), some (bucketBound mn mx n (i + 1))))
      n (by omega) hn [x] rows (scanInit groupBy)
      (fun r hr i h0 h1 => by rw [(hb r hr).1, (hb r hr).2]; exact hI _ i h0 h1)
      (fun r hr _ => rowBuckets_map n [x] r _ _ (fun p => by
        rw [(hb r hr).1, (hb r hr).2]
        simp only [bucketBound]
        push_cast
        rfl))
      hsorted (by simp [scanInit]) (by simp [scanInit]; omega)
      (fun r _ => by simp [scanInit]; omega)
      (by simp [scanInit, blocks, intRange])
    have hctx : (scanLoop n [x] groupBy rows).hasRows = true ∧
        (scanLoop n [x] groupBy rows).min = mn ∧ (scanLoop n [x] groupBy rows).max = mx := by
      cases rows with
      | nil => exact absurd rfl hne
      | cons r rs =>
        unfold scanLoop
        rw [List.foldl_cons]
        apply scanLoop_context n [x] rs (scanStep n [x] (scanInit groupBy) r)
          (fun h a b _ => h = true ∧ a = mn ∧ b = mx)
        · have hr := hb r (List.mem_cons_self _ _)
          unfold scanStep
          by_cases hs : toUint64 n ≤ r.groupKey <;> simp only [hs, if_true, if_false] <;>
            exact ⟨trivial, hr.1, hr.2⟩
        · exact fun y hy => ⟨rfl, (hb y (List.mem_cons_of_mem _ hy)).1,
            (hb y (List.mem_cons_of_mem _ hy)).2⟩
    unfold decodeRows finishBuckets
    simp only [hctx.1, hctx.2.1, hctx.2.2, Bool.not_true, Bool.and_false, Bool.false_eq_true,
      if_false]
    unfold scanLoop
    rw [List.map_append, c, map_flatMap_interpolated _ _ n [x] _ _ _ _ _
      (fun i h0 h1 => hI _ i (by omega) h1), blocks_append _ _ (by omega) (by omega)]
    simp only [blocks, List.map_cons, List.map_nil, List.flatMap, List.map_map]
    induction (intRange 0 n) with
    | nil => rfl
    | cons a l ih => simp only [List.map_cons, List.flatten_cons, ih, Function.comp_apply,
        List.singleton_append]
  · simp [bucketBound]
  · simp only [bucketBound]
    field_simp
  · intro i
    simp only [bucketBound]
    push_cast
    ring
  · intro i j hij
    simp only [bucketBound]
    have hq : (i : ℚ) ≤ (j : ℚ) := by exact_mod_cast hij
    have hw : (0 : ℚ) ≤ mx - mn := by linarith
    have h1 : (i : ℚ) * (mx - mn) ≤ (j : ℚ) * (mx - mn) := mul_le_mul_of_nonneg_right hq hw
    have h2 : (i : ℚ) * (mx - mn) / (n : ℚ) ≤ (j : ℚ) * (mx - mn) / (n : ℚ) :=
      div_le_div_of_nonneg_right h1 (le_of_lt hnq)
    linarith

theorem decodeRows_partition_witness :
    (decodeRows 3 [countExpr] MetricBucketByTimestamp 0 0 30 gapRows).Buckets.map
        (fun b => ((b.BucketID : Int), b.BucketMin, b.BucketMax))
      = (intRange 0 3).map
          (fun i => (i, some (bucketBound 10 40 3 i), some (bucketBound 10 40 3 (i + 1))))
    ∧ bucketBound 10 40 3 0 = 10
    ∧ bucketBound 10 40 3 3 = 40 :=
  have h := decodeRows_partition 3 (by decide) (by decide) countExpr MetricBucketByTimestamp
    0 0 30 10 40 (by norm_num) gapRows (by simp [gapRows]) (by simp [gapRows])
    (by simp [gapRows])
  ⟨h.1, h.2.1, h.2.2.1⟩

/-- C4: for every sequence of result rows, in any order and with any bucket
ids, every bucket emitted by the decode loop of `ReadMetrics` has a `BucketID`
strictly below the bucket count `n` (a Go `int`, `0 ≤ n`), and a row whose
bucket id is at least `n` appends no bucket and leaves the last bucket id
unchanged. -/
theorem decodeRows_bucketID_lt (n : Int) (hn0 : 0 ≤ n) (hn : n < 2 ^ 63)
    (exprs : List MetricExpressionInput) (bucketBy : String) (groupBy : Nat)
    (s e : Int) (rows : List ScanRow) :
    (∀ b ∈ (decodeRows n exprs bucketBy groupBy s e rows).Buckets, (b.BucketID : Int) < n)
    ∧ ∀ (st : ScanState) (r : ScanRow), n ≤ (r.groupKey : Int) →
        (scanStep n exprs st r).Buckets = st.Buckets
        ∧ (scanStep n exprs st r).lastBucketId = st.lastBucketId := by
  constructor
  · obtain ⟨h1, h2⟩ := scanLoop_inv n hn0 hn exprs rows (scanInit groupBy)
      (by simp [scanInit]) (by simp [scanInit])
    intro b hb
    unfold decodeRows finishBuckets at hb
    simp only [List.mem_append] at hb
    rcases hb with hb | hb
    · exact h2 b hb
    · rw [List.mem_flatMap] at hb
      obtain ⟨i, hi1, hi2⟩ := hb
      rw [mem_intRange] at hi1
      unfold scanLoop at hi1
      rw [mem_interpolated hi2, toUint64_eq i (by omega) (by omega)]
      exact hi1.2
  · intro st r hr
    have hs : toUint64 n ≤ r.groupKey := by
      have := toUint64_eq n hn0 (by omega)
      omega
    unfold scanStep
    simp only [hs, if_true, and_self]

theorem decodeRows_bucketID_lt_witness :
    ((decodeRows 3 [countExpr] MetricBucketByTimestamp 0 0 30 unorderedRows).Buckets.all
        (fun b => decide ((b.BucketID : Int) < 3))) = true
    ∧ (decodeRows 3 [countExpr] MetricBucketByTimestamp 0 0 30 unorderedRows).Buckets.length
        = 6 := by
  constructor
  · rw [List.all_eq_true]
    intro b hb
    exact decide_eq_true
      ((decodeRows_bucketID_lt 3 (by decide) (by decide) [countExpr] MetricBucketByTimestamp
        0 0 30 unorderedRows).1 b hb)
  · decide

/-! ## `getBucketing` -/

theorem wrapInt64_eq (x : Int) (h1 : -(2 ^ 63) ≤ x) (h2 : x < 2 ^ 63) : wrapInt64 x = x := by
  unfold wrapInt64
  omega

theorem Second_pos : (0 : Int) < Second := by decide

/-- The cap test of line 1689 on the truncated quotient agrees with the test on
the floor of `duration / (window * 1s)`. -/
theorem tdiv_tdiv_gt_iff (d w k : Int) (hw : 0 < w) (hk : 0 ≤ k) :
    k < Int.tdiv (Int.tdiv d Second) w ↔ k < d / (w * Second) := by
  have hS := Second_pos
  by_cases hd : 0 ≤ d
  · rw [Int.tdiv_eq_ediv hd (le_of_lt hS),
      Int.tdiv_eq_ediv (Int.ediv_nonneg hd (le_of_lt hS)) (le_of_lt hw)]
    rw [Int.lt_iff_add_one_le, Int.lt_iff_add_one_le (b := d / (w * Second)),
      Int.le_ediv_iff_mul_le hw, Int.le_ediv_iff_mul_le hS,
      Int.le_ediv_iff_mul_le (Int.mul_pos hw hS), Int.mul_assoc]
  · have hd' : d < 0 := Int.not_le.mp hd
    have h1 : Int.tdiv d Second ≤ 0 := by
      have := Int.tdiv_nonneg (a := -d) (b := Second) (by omega) (by omega)
      rw [Int.neg_tdiv] at this
      omega
    have h2 : Int.tdiv (Int.tdiv d Second) w ≤ 0 := by
      have := Int.tdiv_nonneg (a := -(Int.tdiv d Second)) (b := w) (by omega) (by omega)
      rw [Int.neg_tdiv] at this
      omega
    have h3 : d / (w * Second) < 0 := Int.ediv_neg' hd' (Int.mul_pos hw hS)
    constructor <;> intro h <;> omega

theorem Time.Sub_le (t u : Time) : t.Sub u ≤ maxDuration := by
  unfold Time.Sub
  have : minDuration ≤ maxDuration := by decide
  omega

/-- What `getBucketing` returns once its bucket count is known. -/
theorem getBucketing_of_count (config : TableConfig) (input : ReadMetricsInput)
    (fromSb : SelectBuilder) (dr0 dr : DateRangeRequiredInput) (n : Int)
    (h0 : input.Params.DateRange = some dr0) (h : bucketCountOf input dr0 = some (n, dr)) :
    ∃ b, getBucketing config input fromSb = some b ∧ b.info.BucketCount = n ∧ b.DateRange = dr
      ∧ (input.BucketBy = MetricBucketByTimestamp →
          b.info.NewSelectItems.get? 1
            = some (SelectBuilder.As (toString dr.StartDate.Unix ++ ".0") minAlias)) := by
  unfold getBucketing
  rw [h0]
  simp only [h]
  refine ⟨_, rfl, rfl, rfl, ?_⟩
  intro hb
  simp [hb]

/-! ## The float64 seconds of a duration -/

theorem divRoundHalfEven_ge (n d : Nat) : n / d ≤ divRoundHalfEven n d := by
  unfold divRoundHalfEven
  simp only
  split_ifs <;> omega

theorem divRoundHalfEven_le (n d : Nat) : divRoundHalfEven n d ≤ n / d + 1 := by
  unfold divRoundHalfEven
  simp only
  split_ifs <;> omega

theorem divRoundHalfEven_of_dvd (n d : Nat) (hd : 0 < d) (h : n % d = 0) :
    divRoundHalfEven n d = n / d := by
  unfold divRoundHalfEven
  simp only [h]
  split_ifs <;> omega

theorem droppedBits_le (bound : Nat) (x : Nat) (hx : x < 2 ^ (53 + bound)) :
    ∀ fuel k, k ≤ bound → droppedBits fuel k x ≤ bound := by
  intro fuel
  induction fuel with
  | zero =>
    intro k hk
    simpa [droppedBits] using hk
  | succ fuel ih =>
    intro k hk
    unfold droppedBits
    split_ifs with h
    · exact hk
    · apply ih
      by_contra hlt
      have hkb : k = bound := by omega
      subst hkb
      exact h hx

/-- Rounding to a float64 does not cross a multiple of `2^82`, for values below
`2^135`. -/
theorem roundFloat64_between (x c : Nat) (hx : x < 2 ^ 135) :
    (c * 2 ^ 82 ≤ x → c * 2 ^ 82 ≤ roundFloat64 x)
      ∧ (x ≤ c * 2 ^ 82 → roundFloat64 x ≤ c * 2 ^ 82) := by
  unfold roundFloat64
  split_ifs with hsmall
  · exact ⟨fun h => h, fun h => h⟩
  · have hk : droppedBits 200 1 x ≤ 82 :=
      droppedBits_le 82 x (by simpa using hx) 200 1 (by omega)
    generalize droppedBits 200 1 x = k at hk
    have hsplit : (2 : Nat) ^ 82 = 2 ^ (82 - k) * 2 ^ k := by
      rw [← pow_add]
      congr 1
      omega
    have hD : 0 < 2 ^ k := Nat.pow_pos (by omega)
    rw [hsplit, ← Nat.mul_assoc]
    generalize c * 2 ^ (82 - k) = m
    generalize 2 ^ k = D at hD
    constructor
    · intro h
      have h1 : m ≤ x / D := (Nat.le_div_iff_mul_le hD).mpr h
      exact Nat.mul_le_mul_right D (le_trans h1 (divRoundHalfEven_ge x D))
    · intro h
      apply Nat.mul_le_mul_right D
      by_cases hr : x % D = 0
      · rw [divRoundHalfEven_of_dvd x D hD hr]
        exact Nat.div_le_of_le_mul (by rw [Nat.mul_comm]; exact h)
      · have hlt : x / D < m := by
          by_contra hge
          have hge' : m ≤ x / D := Nat.le_of_not_lt hge
          have h2 : m * D ≤ x := (Nat.le_div_iff_mul_le hD).mp hge'
          have h3 : x = m * D := le_antisymm h h2
          rw [h3, Nat.mul_mod_left] at hr
          exact hr rfl
        exact le_trans (divRoundHalfEven_le x D) hlt

theorem quotientShift_le (a : Nat) : ∀ fuel j, quotientShift fuel j a ≤ j + fuel := by
  intro fuel
  induction fuel with
  | zero =>
    intro j
    simp [quotientShift]
  | succ fuel ih =>
    intro j
    unfold quotientShift
    split_ifs
    · omega
    · have := ih (j + 1)
      omega

theorem float64Fraction_le (nsec : Nat) (h : nsec < 10 ^ 9) : float64Fraction nsec ≤ 2 ^ 82 := by
  unfold float64Fraction
  split_ifs with h0
  · exact Nat.zero_le _
  · simp only
    have hj : quotientShift 29 53 nsec ≤ 82 := quotientShift_le nsec 29 53
    generalize quotientShift 29 53 nsec = j at hj
    have hq : nsec * 2 ^ j / 10 ^ 9 < 2 ^ j := by
      apply (Nat.div_lt_iff_lt_mul (by norm_num)).mpr
      have hpos : 0 < 2 ^ j := Nat.pow_pos (by omega)
      calc nsec * 2 ^ j < 10 ^ 9 * 2 ^ j := Nat.mul_lt_mul_of_pos_right h hpos
        _ = 2 ^ j * 10 ^ 9 := Nat.mul_comm _ _
    have hm : divRoundHalfEven (nsec * 2 ^ j) (10 ^ 9) ≤ 2 ^ j :=
      le_trans (divRoundHalfEven_le _ _) hq
    calc divRoundHalfEven (nsec * 2 ^ j) (10 ^ 9) * 2 ^ (82 - j)
        ≤ 2 ^ j * 2 ^ (82 - j) := Nat.mul_le_mul_right _ hm
      _ = 2 ^ 82 := by
        rw [← pow_add]
        congr 1
        omega

/-- The float64 seconds of a duration, truncated, are its whole seconds or one
second more. -/
theorem float64Seconds_bounds (n : Nat) (hn : n < 2 ^ 63) :
    n / 10 ^ 9 ≤ float64Seconds n ∧ float64Seconds n ≤ n / 10 ^ 9 + 1 := by
  have hsec : n / 10 ^ 9 < 2 ^ 34 := by
    apply (Nat.div_lt_iff_lt_mul (by norm_num)).mpr
    calc n < 2 ^ 63 := hn
      _ ≤ 2 ^ 34 * 10 ^ 9 := by norm_num
  have hnsec : n % 10 ^ 9 < 10 ^ 9 := Nat.mod_lt _ (by norm_num)
  have e1 : roundFloat64 (n / 10 ^ 9) = n / 10 ^ 9 := by
    unfold roundFloat64
    rw [if_pos]
    calc n / 10 ^ 9 < 2 ^ 34 := hsec
      _ ≤ 2 ^ 53 := by norm_num
  have e2 : roundFloat64 (n % 10 ^ 9) = n % 10 ^ 9 := by
    unfold roundFloat64
    rw [if_pos]
    calc n % 10 ^ 9 < 10 ^ 9 := hnsec
      _ ≤ 2 ^ 53 := by norm_num
  have hF := float64Fraction_le (n % 10 ^ 9) hnsec
  unfold float64Seconds
  rw [e1, e2]
  generalize float64Fraction (n % 10 ^ 9) = F at hF
  generalize n / 10 ^ 9 = sec at hsec
  have hX : sec * 2 ^ 82 + F < 2 ^ 135 := by
    calc sec * 2 ^ 82 + F ≤ sec * 2 ^ 82 + 2 ^ 82 := Nat.add_le_add_left hF _
      _ = (sec + 1) * 2 ^ 82 := by ring
      _ ≤ 2 ^ 34 * 2 ^ 82 := Nat.mul_le_mul_right _ hsec
      _ < 2 ^ 135 := by norm_num
  have hlow := (roundFloat64_between (sec * 2 ^ 82 + F) sec hX).1 (Nat.le_add_right _ _)
  have hhigh := (roundFloat64_between (sec * 2 ^ 82 + F) (sec + 1) hX).2
    (by calc sec * 2 ^ 82 + F ≤ sec * 2 ^ 82 + 2 ^ 82 := Nat.add_le_add_left hF _
          _ = (sec + 1) * 2 ^ 82 := by ring)
  have hP : 0 < 2 ^ 82 := by norm_num
  constructor
  · exact (Nat.le_div_iff_mul_le hP).mpr hlow
  · exact Nat.div_le_of_le_mul (le_of_le_of_eq hhigh (Nat.mul_comm _ _))

theorem divRoundHalfEven_twice (n d : Nat) : 2 * (divRoundHalfEven n d * d) ≤ 2 * n + d := by
  have hdm := Nat.div_add_mod n d
  unfold divRoundHalfEven
  simp only
  generalize n / d = q at hdm ⊢
  generalize n % d = r at hdm ⊢
  have e1 : 2 * ((q + 1) * d) = 2 * (d * q) + 2 * d := by ring
  have e2 : 2 * (q * d) = 2 * (d * q) := by ring
  split_ifs <;> omega

theorem le_droppedBits (x : Nat) : ∀ fuel k, k ≤ droppedBits fuel k x := by
  intro fuel
  induction fuel with
  | zero =>
    intro k
    simp [droppedBits]
  | succ fuel ih =>
    intro k
    unfold droppedBits
    split_ifs
    · exact le_refl k
    · exact le_trans (Nat.le_succ k) (ih (k + 1))

/-- The rounding error of a float64 below `2^106` is at most `2^52`. -/
theorem roundFloat64_twice (x : Nat) (hx : x < 2 ^ 106) :
    2 * roundFloat64 x ≤ 2 * x + 2 ^ 53 := by
  unfold roundFloat64
  split_ifs with hsmall
  · omega
  · have hk : droppedBits 200 1 x ≤ 53 :=
      droppedBits_le 53 x (by simpa using hx) 200 1 (by omega)
    generalize droppedBits 200 1 x = k at hk
    have h1 := divRoundHalfEven_twice x (2 ^ k)
    have h2 : 2 ^ k ≤ 2 ^ 53 := Nat.pow_le_pow_right (by omega) hk
    omega

theorem le_quotientShift (a : Nat) : ∀ fuel j, j ≤ quotientShift fuel j a := by
  intro fuel
  induction fuel with
  | zero =>
    intro j
    simp [quotientShift]
  | succ fuel ih =>
    intro j
    unfold quotientShift
    split_ifs
    · exact le_refl j
    · exact le_trans (Nat.le_succ j) (ih (j + 1))

theorem float64Fraction_bound (nsec : Nat) :
    10 ^ 9 * float64Fraction nsec ≤ nsec * 2 ^ 82 + 10 ^ 9 * 2 ^ 29 := by
  unfold float64Fraction
  split_ifs with h0
  · omega
  · simp only
    have hj1 : quotientShift 29 53 nsec ≤ 82 := quotientShift_le nsec 29 53
    have hj2 : 53 ≤ quotientShift 29 53 nsec := le_quotientShift nsec 29 53
    generalize quotientShift 29 53 nsec = j at hj1 hj2
    have hm : 10 ^ 9 * divRoundHalfEven (nsec * 2 ^ j) (10 ^ 9) ≤ nsec * 2 ^ j + 10 ^ 9 := by
      have h1 := divRoundHalfEven_le (nsec * 2 ^ j) (10 ^ 9)
      have h2 : 10 ^ 9 * (nsec * 2 ^ j / 10 ^ 9) ≤ nsec * 2 ^ j := Nat.mul_div_le _ _
      calc 10 ^ 9 * divRoundHalfEven (nsec * 2 ^ j) (10 ^ 9)
          ≤ 10 ^ 9 * (nsec * 2 ^ j / 10 ^ 9 + 1) := Nat.mul_le_mul_left _ h1
        _ = 10 ^ 9 * (nsec * 2 ^ j / 10 ^ 9) + 10 ^ 9 := by ring
        _ ≤ nsec * 2 ^ j + 10 ^ 9 := Nat.add_le_add_right h2 _
    have hpow : (2 : Nat) ^ j * 2 ^ (82 - j) = 2 ^ 82 := by
      rw [← pow_add]
      congr 1
      omega
    have hsmall : (2 : Nat) ^ (82 - j) ≤ 2 ^ 29 := Nat.pow_le_pow_right (by omega) (by omega)
    calc 10 ^ 9 * (divRoundHalfEven (nsec * 2 ^ j) (10 ^ 9) * 2 ^ (82 - j))
        = (10 ^ 9 * divRoundHalfEven (nsec * 2 ^ j) (10 ^ 9)) * 2 ^ (82 - j) := by ring
      _ ≤ (nsec * 2 ^ j + 10 ^ 9) * 2 ^ (82 - j) := Nat.mul_le_mul_right _ hm
      _ = nsec * (2 ^ j * 2 ^ (82 - j)) + 10 ^ 9 * 2 ^ (82 - j) := by ring
      _ = nsec * 2 ^ 82 + 10 ^ 9 * 2 ^ (82 - j) := by rw [hpow]
      _ ≤ nsec * 2 ^ 82 + 10 ^ 9 * 2 ^ 29 :=
        Nat.add_le_add_left (Nat.mul_le_mul_left _ hsmall) _

/-- Below `2^24` seconds the float64 seconds of a duration, truncated, are its
whole seconds. -/
theorem float64Seconds_exact (n : Nat) (hn : n < 2 ^ 24 * 10 ^ 9) :
    float64Seconds n = n / 10 ^ 9 := by
  have hn63 : n < 2 ^ 63 := lt_of_lt_of_le hn (by norm_num)
  have hlow := (float64Seconds_bounds n hn63).1
  apply le_antisymm _ hlow
  have hsec : n / 10 ^ 9 < 2 ^ 24 := by
    apply (Nat.div_lt_iff_lt_mul (by norm_num)).mpr
    exact hn
  have hnsec : n % 10 ^ 9 < 10 ^ 9 := Nat.mod_lt _ (by norm_num)
  have e1 : roundFloat64 (n / 10 ^ 9) = n / 10 ^ 9 := by
    unfold roundFloat64
    rw [if_pos]
    calc n / 10 ^ 9 < 2 ^ 24 := hsec
      _ ≤ 2 ^ 53 := by norm_num
  have e2 : roundFloat64 (n % 10 ^ 9) = n % 10 ^ 9 := by
    unfold roundFloat64
    rw [if_pos]
    calc n % 10 ^ 9 < 10 ^ 9 := hnsec
      _ ≤ 2 ^ 53 := by norm_num
  have hF := float64Fraction_bound (n % 10 ^ 9)
  have hF2 := float64Fraction_le (n % 10 ^ 9) hnsec
  unfold float64Seconds
  rw [e1, e2]
  generalize float64Fraction (n % 10 ^ 9) = F at hF hF2
  generalize n % 10 ^ 9 = nsec at hnsec hF
  generalize n / 10 ^ 9 = sec at hsec
  have hFlt : F < 2 ^ 82 := by
    have hnn : nsec * 2 ^ 82 ≤ (10 ^ 9 - 1) * 2 ^ 82 := Nat.mul_le_mul_right _ (by omega)
    generalize nsec * 2 ^ 82 = N at hF hnn
    norm_num at hF hnn ⊢
    omega
  have hX : sec * 2 ^ 82 + F < 2 ^ 106 := by
    calc sec * 2 ^ 82 + F < sec * 2 ^ 82 + 2 ^ 82 := Nat.add_lt_add_left hFlt _
      _ = (sec + 1) * 2 ^ 82 := by ring
      _ ≤ 2 ^ 24 * 2 ^ 82 := Nat.mul_le_mul_right _ hsec
      _ = 2 ^ 106 := by norm_num
  have hR := roundFloat64_twice (sec * 2 ^ 82 + F) hX
  generalize roundFloat64 (sec * 2 ^ 82 + F) = R at hR
  have hlt : R < (sec + 1) * 2 ^ 82 := by
    have hnn : nsec * 2 ^ 82 ≤ (10 ^ 9 - 1) * 2 ^ 82 := Nat.mul_le_mul_right _ (by omega)
    generalize nsec * 2 ^ 82 = N at hF hnn
    have e : (sec + 1) * 2 ^ 82 = sec * 2 ^ 82 + 2 ^ 82 := by ring
    rw [e]
    generalize sec * 2 ^ 82 = M at hR
    norm_num at hF hnn hR ⊢
    omega
  have hP : 0 < 2 ^ 82 := by norm_num
  have := (Nat.div_lt_iff_lt_mul hP).mpr hlt
  omega

theorem durationSeconds_bounds (d : Int) (h0 : 0 ≤ d) (hmax : d ≤ maxDuration) :
    Int.tdiv d Second ≤ durationSeconds d ∧ durationSeconds d ≤ Int.tdiv d Second + 1 := by
  have hn : d.toNat < 2 ^ 63 := by
    have : d < 2 ^ 63 := by
      simp only [maxDuration] at hmax
      omega
    omega
  obtain ⟨h1, h2⟩ := float64Seconds_bounds d.toNat hn
  have hdiv : Int.tdiv d Second = ((d.toNat / 10 ^ 9 : Nat) : Int) := by
    rw [Int.tdiv_eq_ediv h0 (le_of_lt Second_pos)]
    simp only [Second]
    omega
  unfold durationSeconds
  rw [if_neg (by omega), hdiv]
  omega

theorem durationSeconds_nonpos (d : Int) (h : d ≤ 0) : durationSeconds d ≤ 0 := by
  unfold durationSeconds
  by_cases hd : d < 0
  · rw [if_pos hd]
    omega
  · have h0 : d = 0 := by omega
    subst h0
    decide

theorem durationSeconds_exact (d : Int) (h0 : 0 ≤ d) (h : d < 2 ^ 24 * Second) :
    durationSeconds d = Int.tdiv d Second := by
  have hn : d.toNat < 2 ^ 24 * 10 ^ 9 := by
    simp only [Second] at h
    omega
  have hdiv : Int.tdiv d Second = ((d.toNat / 10 ^ 9 : Nat) : Int) := by
    rw [Int.tdiv_eq_ediv h0 (le_of_lt Second_pos)]
    simp only [Second]
    omega
  unfold durationSeconds
  rw [if_neg (by omega), hdiv, float64Seconds_exact d.toNat hn]

/-- What `getBucketing` returns when the quotient of line 1688 exceeds
`MaxBuckets`. -/
theorem getBucketing_capped (config : TableConfig) (input : ReadMetricsInput)
    (fromSb : SelectBuilder) (dr : DateRangeRequiredInput) (w : Int)
    (hdr : input.Params.DateRange = some dr) (hwin : input.BucketWindow = some w)
    (hw : 0 < w) (hmax : input.NoBucketMax = false)
    (hcode : MaxBuckets < Int.tdiv (durationSeconds (dr.EndDate.Sub dr.StartDate)) w) :
    ∃ b, getBucketing config input fromSb = some b
      ∧ b.info.BucketCount = MaxBuckets
      ∧ b.DateRange.EndDate = dr.EndDate
      ∧ b.DateRange.StartDate = dr.EndDate.Add (-(MaxBuckets * w * Second))
      ∧ b.info.BucketCount * w * Second
          = b.DateRange.EndDate.unixNano - b.DateRange.StartDate.unixNano
      ∧ b.info.BucketCount * w = b.DateRange.EndDate.Unix - b.DateRange.StartDate.Unix
      ∧ (input.BucketBy = MetricBucketByTimestamp →
          b.info.NewSelectItems.get? 1
            = some (SelectBuilder.As (toString b.DateRange.StartDate.Unix ++ ".0") minAlias)) := by
  have hS := Second_pos
  have hw0 : w ≠ 0 := by omega
  have hle := Time.Sub_le dr.EndDate dr.StartDate
  -- the duration is positive and holds `MaxBuckets * w` whole seconds
  have hpos : 0 < dr.EndDate.Sub dr.StartDate := by
    by_contra hneg
    have h1 := durationSeconds_nonpos _ (Int.not_lt.mp hneg)
    have h2 : Int.tdiv (durationSeconds (dr.EndDate.Sub dr.StartDate)) w ≤ 0 := by
      have := Int.tdiv_nonneg (a := -(durationSeconds (dr.EndDate.Sub dr.StartDate))) (b := w)
        (by omega) (by omega)
      rw [Int.neg_tdiv] at this
      omega
    simp only [MaxBuckets] at hcode
    omega
  obtain ⟨hb1, hb2⟩ := durationSeconds_bounds _ (le_of_lt hpos) hle
  have hbound : 240 * (w * Second) ≤ dr.EndDate.Sub dr.StartDate := by
    have hSnn : 0 ≤ durationSeconds (dr.EndDate.Sub dr.StartDate) :=
      le_trans (Int.tdiv_nonneg (le_of_lt hpos) (le_of_lt hS)) hb1
    have h1 : MaxBuckets + 1 ≤ durationSeconds (dr.EndDate.Sub dr.StartDate) / w := by
      rw [← Int.tdiv_eq_ediv hSnn (le_of_lt hw)]
      exact hcode
    have h2 := (Int.le_ediv_iff_mul_le hw).mp h1
    rw [Int.tdiv_eq_ediv (le_of_lt hpos) (le_of_lt hS)] at hb2
    have h3 : 240 * w ≤ dr.EndDate.Sub dr.StartDate / Second := by
      simp only [MaxBuckets] at h2
      omega
    have h4 := (Int.le_ediv_iff_mul_le hS).mp h3
    calc 240 * (w * Second) = 240 * w * Second := by ring
      _ ≤ dr.EndDate.Sub dr.StartDate := h4
  have hcount : bucketCountOf input dr = some (MaxBuckets,
      { dr with StartDate := dr.EndDate.Add (-(MaxBuckets * w * Second)) }) := by
    unfold bucketCountOf
    simp only [hwin, hw0, if_false, hmax, Bool.not_false, Bool.and_true, decide_eq_true_eq]
    have e1 : wrapInt64 (MaxBuckets * w) = MaxBuckets * w := by
      apply wrapInt64_eq <;> simp only [MaxBuckets, Second, maxDuration] at * <;> omega
    have e2 : wrapInt64 (-1 * (MaxBuckets * w)) = -(MaxBuckets * w) := by
      rw [neg_one_mul]
      apply wrapInt64_eq <;> simp only [MaxBuckets, Second, maxDuration] at * <;> omega
    have e3 : wrapInt64 (-(MaxBuckets * w) * Second) = -(MaxBuckets * w * Second) := by
      rw [Int.neg_mul]
      apply wrapInt64_eq <;> simp only [MaxBuckets, Second, maxDuration] at * <;> omega
    rw [e1, e2, e3, if_pos hcode]
  obtain ⟨b, hb, hn, hd, hmin⟩ := getBucketing_of_count config input fromSb dr _ _ hdr hcount
  refine ⟨b, hb, hn, by rw [hd], by rw [hd], ?_, ?_, ?_⟩
  · rw [hn, hd]
    simp only [Time.Add]
    ring
  · rw [hn, hd]
    simp only [Time.Add, Time.Unix]
    have : dr.EndDate.unixNano + -(MaxBuckets * w * Second)
        = dr.EndDate.unixNano + (-(MaxBuckets * w)) * Second := by ring
    rw [this, Int.add_mul_ediv_right _ _ (by omega : Second ≠ 0)]
    ring
  · intro hby
    rw [hd]
    exact hmin hby

/-- The test of line 1689 holds whenever the floor of `duration / (window * 1s)`
exceeds `MaxBuckets`. -/
theorem cap_of_floor (d w : Int) (hw : 0 < w) (hle : d ≤ maxDuration)
    (hcap : MaxBuckets < d / (w * Second)) :
    MaxBuckets < Int.tdiv (durationSeconds d) w := by
  have hS := Second_pos
  have h1 : MaxBuckets + 1 ≤ d / (w * Second) := hcap
  have h2 := (Int.le_ediv_iff_mul_le (Int.mul_pos hw hS)).mp h1
  have hd0 : 0 ≤ d := by
    have : 0 < w * Second := Int.mul_pos hw hS
    simp only [MaxBuckets] at h2
    nlinarith
  obtain ⟨hb1, _⟩ := durationSeconds_bounds d hd0 hle
  have h3 : (MaxBuckets + 1) * w ≤ d / Second := by
    apply (Int.le_ediv_iff_mul_le hS).mpr
    calc (MaxBuckets + 1) * w * Second = (MaxBuckets + 1) * (w * Second) := by ring
      _ ≤ d := h2
  rw [Int.tdiv_eq_ediv hd0 (le_of_lt hS)] at hb1
  have hSnn : 0 ≤ durationSeconds d := le_trans (Int.ediv_nonneg hd0 (le_of_lt hS)) hb1
  rw [Int.tdiv_eq_ediv hSnn (le_of_lt hw)]
  have h4 : MaxBuckets + 1 ≤ durationSeconds d / w :=
    (Int.le_ediv_iff_mul_le hw).mpr (le_trans h3 hb1)
  omega

/-- C6 (amended): for every request with a `BucketWindow` `w > 0` and
`NoBucketMax` unset, let `S` be `int64(duration.Seconds())` of the date range,
which is the whole seconds of the range or, by the float64 rounding of
`Seconds()`, one second more, and exactly the whole seconds below `2^24` s.
When the floor of the duration in seconds over `w` exceeds `MaxBuckets`, or
`S / w` does, `getBucketing` sets `BucketCount` to `MaxBuckets` and moves the
start date to `end - MaxBuckets*w` seconds, so that `BucketCount*w` seconds is
exactly the effective range `end - start`, and the static min bound of
timestamp bucketing is the Unix time of the new start; when `S / w` does not
exceed `MaxBuckets`, and so when the range is shorter than `2^24` s and the
floor does not exceed it, the date range is left unchanged. -/
theorem getBucketing_window_cap (config : TableConfig) (input : ReadMetricsInput)
    (fromSb : SelectBuilder) (dr : DateRangeRequiredInput) (w : Int)
    (hdr : input.Params.DateRange = some dr) (hwin : input.BucketWindow = some w)
    (hw : 0 < w) (hmax : input.NoBucketMax = false) :
    ((MaxBuckets < dr.EndDate.Sub dr.StartDate / (w * Second)
        ∨ MaxBuckets < Int.tdiv (durationSeconds (dr.EndDate.Sub dr.StartDate)) w) →
      ∃ b, getBucketing config input fromSb = some b
        ∧ b.info.BucketCount = MaxBuckets
        ∧ b.DateRange.EndDate = dr.EndDate
        ∧ b.DateRange.StartDate = dr.EndDate.Add (-(MaxBuckets * w * Second))
        ∧ b.info.BucketCount * w * Second
            = b.DateRange.EndDate.unixNano - b.DateRange.StartDate.unixNano
        ∧ b.info.BucketCount * w = b.DateRange.EndDate.Unix - b.DateRange.StartDate.Unix
        ∧ (input.BucketBy = MetricBucketByTimestamp →
            b.info.NewSelectItems.get? 1
              = some (SelectBuilder.As (toString b.DateRange.StartDate.Unix ++ ".0") minAlias)))
    ∧ (¬ MaxBuckets < Int.tdiv (durationSeconds (dr.EndDate.Sub dr.StartDate)) w →
      ∃ b, getBucketing config input fromSb = some b ∧ b.DateRange = dr)
    ∧ (dr.EndDate.Sub dr.StartDate < 2 ^ 24 * Second →
      ¬ MaxBuckets < dr.EndDate.Sub dr.StartDate / (w * Second) →
      ∃ b, getBucketing config input fromSb = some b ∧ b.DateRange = dr)
    ∧ (0 ≤ dr.EndDate.Sub dr.StartDate →
      dr.EndDate.Sub dr.StartDate / Second ≤ durationSeconds (dr.EndDate.Sub dr.StartDate)
        ∧ durationSeconds (dr.EndDate.Sub dr.StartDate)
            ≤ dr.EndDate.Sub dr.StartDate / Second + 1)
    ∧ (0 ≤ dr.EndDate.Sub dr.StartDate → dr.EndDate.Sub dr.StartDate < 2 ^ 24 * Second →
      durationSeconds (dr.EndDate.Sub dr.StartDate) = dr.EndDate.Sub dr.StartDate / Second) := by
  have hS := Second_pos
  have hw0 : w ≠ 0 := by omega
  have hle := Time.Sub_le dr.EndDate dr.StartDate
  have hkeep : ¬ MaxBuckets < Int.tdiv (durationSeconds (dr.EndDate.Sub dr.StartDate)) w →
      ∃ b, getBucketing config input fromSb = some b ∧ b.DateRange = dr := by
    intro hcode
    have hcount : bucketCountOf input dr
        = some (Int.tdiv (durationSeconds (dr.EndDate.Sub dr.StartDate)) w, dr) := by
      unfold bucketCountOf
      simp only [hwin, hw0, if_false, hmax, Bool.not_false, Bool.and_true, decide_eq_true_eq]
      rw [if_neg]
      exact hcode
    obtain ⟨b, hb, _, hd, _⟩ := getBucketing_of_count config input fromSb dr _ _ hdr hcount
    exact ⟨b, hb, hd⟩
  refine ⟨?_, hkeep, ?_, ?_, ?_⟩
  · intro hcap
    apply getBucketing_capped config input fromSb dr w hdr hwin hw hmax
    rcases hcap with h | h
    · exact cap_of_floor _ w hw hle h
    · exact h
  · intro hshort hfloor
    apply hkeep
    intro hcode
    by_cases hd0 : 0 ≤ dr.EndDate.Sub dr.StartDate
    · rw [durationSeconds_exact _ hd0 hshort] at hcode
      exact hfloor ((tdiv_tdiv_gt_iff _ w MaxBuckets hw (by decide)).mp hcode)
    · have h1 := durationSeconds_nonpos _ (le_of_lt (Int.not_le.mp hd0))
      have h2 : Int.tdiv (durationSeconds (dr.EndDate.Sub dr.StartDate)) w ≤ 0 := by
        have := Int.tdiv_nonneg (a := -(durationSeconds (dr.EndDate.Sub dr.StartDate)))
          (b := w) (by omega) (by omega)
        rw [Int.neg_tdiv] at this
        omega
      simp only [MaxBuckets] at hcode
      omega
  · intro hd0
    have := durationSeconds_bounds _ hd0 hle
    rw [Int.tdiv_eq_ediv hd0 (le_of_lt hS)] at this
    exact this
  · intro hd0 hshort
    rw [durationSeconds_exact _ hd0 hshort, Int.tdiv_eq_ediv hd0 (le_of_lt hS)]

/-- A request with a one-second window over a 1800-second range; the seconds of
a duration one nanosecond short of `16777456` s are `16777456`, those of a
duration one nanosecond short of `2^24` s are `2^24 - 1`. -/
theorem getBucketing_window_cap_witness :
    (∃ b, getBucketing exampleConfig (windowInput 1) { args := [] } = some b
      ∧ b.info.BucketCount = 240
      ∧ b.DateRange.StartDate = { unixNano := 1560000000000 }
      ∧ b.info.NewSelectItems.get? 1 = some "1560.0 AS __highlight_min")
    ∧ durationSeconds 16777455999999999 = 16777456
    ∧ durationSeconds 16777215999999999 = 16777215
    ∧ durationSeconds (-16777455999999999) = -16777456 := by
  refine ⟨?_, by decide, by decide, by decide⟩
  obtain ⟨b, h1, h2, h3, h4, h5, h6, h7⟩ :=
    (getBucketing_window_cap exampleConfig (windowInput 1) { args := [] }
      { StartDate := { unixNano := 0 }, EndDate := { unixNano := 1800000000000 } } 1
      rfl rfl (by decide) rfl).1 (Or.inl (by decide))
  refine ⟨b, h1, h2, ?_, ?_⟩
  · rw [h4]
    decide
  · rw [h7 rfl, h4]
    decide

/-- C6 (as stated) fails: over the range `[0, 16777455.999999999 s]` with a
window of 69616 s the floor of the duration over the window is 240, which does
not exceed `MaxBuckets`, but `Seconds()` rounds the duration up to 16777456 s,
the quotient of line 1688 is 241, and `getBucketing` moves the start date from
0 to `69615.999999999 s`. -/
theorem getBucketing_window_float_edge :
    (16777455999999999 : Int) / (69616 * Second) = 240
    ∧ ({ unixNano := 16777455999999999 } : Time).Sub { unixNano := 0 } = 16777455999999999
    ∧ Int.tdiv (durationSeconds 16777455999999999) 69616 = 241
    ∧ (getBucketing exampleConfig (edgeInput 69616) { args := [] }).map
        (fun b => (b.info.BucketCount, b.DateRange.StartDate))
      = some (240, { unixNano := 69615999999999 }) := by
  refine ⟨by decide, by decide, by decide, by decide⟩

/-- Without a window and with `NoBucketMax` unset, the bucket count is the
requested count clamped to `[1, MaxBuckets]`. -/
theorem bucketCountOf_no_window (input : ReadMetricsInput) (dr : DateRangeRequiredInput)
    (hwin : input.BucketWindow = none) (hmax : input.NoBucketMax = false) :
    bucketCountOf input dr = some
      (max 1 (min MaxBuckets
        (if input.BucketBy = MetricBucketByNone then 1 else input.BucketCount.getD 48)), dr) := by
  unfold bucketCountOf
  simp only [hwin, hmax, Bool.not_false, Bool.and_true, decide_eq_true_eq, beq_iff_eq]
  congr 2
  by_cases hb : input.BucketBy = MetricBucketByNone
  · simp [hb, MaxBuckets]
  · simp only [hb, if_false]
    cases hc : input.BucketCount with
    | none =>
      simp [MaxBuckets]
    | some c =>
      simp only [Option.getD_some, MaxBuckets]
      split_ifs <;> omega

/-- C5 (the code at the failing inputs): with a `BucketWindow` of 3600 seconds
over a 1800-second range and `NoBucketMax` unset, `getBucketing` returns the
`BucketCount` 0, below the floor of 1 that the branch without a window applies;
with a `BucketWindow` of 0 the division of line 1688 panics. -/
theorem getBucketing_window_count_zero :
    (getBucketing exampleConfig (windowInput 3600) { args := [] }).map
        (fun b => b.info.BucketCount) = some 0
    ∧ getBucketing exampleConfig (windowInput 0) { args := [] } = none := by
  constructor <;> decide

/-- C7: for every request whose list of aggregator expressions is empty,
`ReadMetrics` returns an error and no buckets, whatever the environment does
and whether or not the request carries raw SQL or a saved metric state. -/
theorem ReadMetrics_no_expressions (env : Env) (input : ReadMetricsInput)
    (h : input.Expressions = []) :
    ∃ msg, ReadMetrics env input = Result.error msg := by
  unfold ReadMetrics
  simp only [h, List.length_nil, beq_self_eq_true, if_true]
  cases samplingChoice env _ _ with
  | error err => exact ⟨err, rfl⟩
  | ok p => exact ⟨_, rfl⟩

theorem ReadMetrics_no_expressions_witness :
    ∃ msg, ReadMetrics exampleEnv { windowInput 60 with Expressions := [], Sql := some "SELECT 1" }
      = Result.error msg :=
  ReadMetrics_no_expressions exampleEnv _ rfl

/-- On the builder path (no raw SQL, no saved metric state, sampling and query
succeed), `ReadMetrics` returns the buckets that `decodeRows` computes from the
rows of the query, with the bucket count and date range of `getBucketing`. -/
theorem ReadMetrics_eq_decodeRows (env : Env) (input : ReadMetricsInput)
    (dr : DateRangeRequiredInput) (b : Bucketing) (rows : List ScanRow)
    (hdr : input.Params.DateRange = some dr)
    (hs : input.SampleableConfig.sampleSizeRows = 0)
    (he : input.Expressions ≠ [])
    (hk : input.Expressions.any (fun x => x.Aggregator == MetricAggregatorCountDistinctKey)
      = false)
    (hsql : input.Sql = none) (hsaved : input.SavedMetricState = none)
    (hb : getBucketing input.SampleableConfig.tableConfig input
      (env.fromSb input input.SampleableConfig.tableConfig) = some b)
    (hq : env.query input input.SampleableConfig.tableConfig b = .ok rows) :
    ReadMetrics env input = Result.ok (some
      (decodeRows b.info.BucketCount input.Expressions input.BucketBy input.GroupBy.length
        b.DateRange.StartDate.Unix b.DateRange.EndDate.Unix rows)) := by
  have hinput : ({ input with Params := { input.Params with DateRange := some dr } } :
      ReadMetricsInput) = input := by
    cases input with
    | mk a1 a2 a3 a4 a5 a6 a7 a8 a9 a10 a11 a12 a13 a14 =>
      cases a4 with
      | mk d q srt =>
        simp only at hdr
        subst hdr
        rfl
  have hlen : (input.Expressions.length == 0) = false := by
    cases hx : input.Expressions with
    | nil => exact absurd hx he
    | cons a l => rfl
  unfold ReadMetrics
  simp only [hdr, hinput]
  unfold samplingChoice
  simp only [hs, bne_self_eq_false, Bool.false_eq_true, if_false, hlen, hk, hsql, hb, hsaved, hq]

/-! ## `matchesQuery` and `matchFilter` -/

/-- The call of `matchesQuery` on a one-element list is one pass of the loop body followed
by `return true`. -/
theorem matchesQuery_singleton (re : RegexpEngine) (row : Value) (config : TableConfig)
    (f : FilterOperation) (op : Operator) :
    matchesQuery re row config [f] op =
      match matchesStep re row config f op with
      | none => none
      | some (some b) => some b
      | some none => some true := by
  unfold matchesQuery
  cases matchesStep re row config f op with
  | none => rfl
  | some r =>
    cases r with
    | none => rfl
    | some b => rfl

/-- The operator context matters only through the test `op == OperatorOr`. -/
theorem matchesStep_context (re : RegexpEngine) (row : Value) (config : TableConfig)
    (f : FilterOperation) (op op' : Operator) (h : op ≠ .Or) (h' : op' ≠ .Or) :
    matchesStep re row config f op = matchesStep re row config f op' := by
  cases f with
  | mk key column o values children =>
    cases o with
    | And => simp only [matchesStep]
    | Or => simp only [matchesStep]
    | Not => cases children <;> simp only [matchesStep]
    | RegExp => simp only [matchesStep, h, h', if_false]
    | NotEqual => simp only [matchesStep, h, h', if_false]
    | other name => simp only [matchesStep, h, h', if_false]

theorem matchesQuery_context (re : RegexpEngine) (row : Value) (config : TableConfig)
    (f : FilterOperation) (op op' : Operator) (h : op ≠ .Or) (h' : op' ≠ .Or) :
    matchesQuery re row config [f] op = matchesQuery re row config [f] op' := by
  rw [matchesQuery_singleton, matchesQuery_singleton, matchesStep_context re row config f op op' h h']

/-- An AND node of two children matches exactly when both children match in
the AND context. -/
theorem matchesQuery_and_context (re : RegexpEngine) (row : Value) (config : TableConfig)
    (key column : String) (values : List String) (f1 f2 : FilterOperation) (op : Operator) :
    matchesQuery re row config [.mk key column .And values [f1, f2]] op = some true ↔
      matchesQuery re row config [f1] .And = some true ∧
      matchesQuery re row config [f2] .And = some true := by
  rw [matchesQuery_singleton, matchesQuery_singleton, matchesQuery_singleton]
  simp only [matchesStep, andChildren]
  cases h1 : matchesStep re row config f1 .And with
  | none => simp
  | some r1 =>
    cases r1 with
    | none =>
      cases h2 : matchesStep re row config f2 .And with
      | none => simp
      | some r2 => cases r2 with
        | none => simp
        | some b2 => cases b2 <;> simp
    | some b1 =>
      cases b1
      · simp
      · cases h2 : matchesStep re row config f2 .And with
        | none => simp
        | some r2 => cases r2 with
          | none => simp
          | some b2 => cases b2 <;> simp

/-- C8 (amended): for every row, table configuration, filters `f1`, `f2` and
operator context `op`, `matchesQuery(row, cfg, [AND[f1,f2]], op)` is true iff
both `matchesQuery(row, cfg, [f1], AND)` and `matchesQuery(row, cfg, [f2], AND)`
are true: the children are evaluated in the operator context of the AND node,
not in `op`.  For every `op` other than OR this is the same as evaluating the
children in the context `op`. -/
theorem matchesQuery_and (re : RegexpEngine) (row : Value) (config : TableConfig)
    (key column : String) (values : List String) (f1 f2 : FilterOperation) (op : Operator) :
    (matchesQuery re row config [.mk key column .And values [f1, f2]] op = some true ↔
      matchesQuery re row config [f1] .And = some true ∧
      matchesQuery re row config [f2] .And = some true)
    ∧ (op ≠ .Or →
      (matchesQuery re row config [.mk key column .And values [f1, f2]] op = some true ↔
        matchesQuery re row config [f1] op = some true ∧
        matchesQuery re row config [f2] op = some true)) := by
  refine ⟨matchesQuery_and_context re row config key column values f1 f2 op, ?_⟩
  intro hop
  rw [matchesQuery_context re row config f1 op .And hop (by decide),
    matchesQuery_context re row config f2 op .And hop (by decide)]
  exact matchesQuery_and_context re row config key column values f1 f2 op

/-- C8 (as stated) fails: in the OR context, with `f1` a filter on a key the
row cannot resolve and `f2` a matching filter, `AND[f1,f2]` matches although
`f1` alone does not match in the OR context. -/
theorem matchesQuery_and_or_context :
    matchesQuery goRegexp (severityRow "error") plainConfig
        [andOf (equalsFilter "missing" ["x"]) (equalsFilter "level" ["error"])] .Or = some true
    ∧ matchesQuery goRegexp (severityRow "error") plainConfig
        [equalsFilter "missing" ["x"]] .Or = some false
    ∧ ¬ (matchesQuery goRegexp (severityRow "error") plainConfig
          [andOf (equalsFilter "missing" ["x"]) (equalsFilter "level" ["error"])] .Or
          = some true ↔
        matchesQuery goRegexp (severityRow "error") plainConfig
          [equalsFilter "missing" ["x"]] .Or = some true
        ∧ matchesQuery goRegexp (severityRow "error") plainConfig
          [equalsFilter "level" ["error"]] .Or = some true) := by
  decide

/-- A NOT node returns the negation of its first child evaluated in the NOT
context. -/
theorem matchesQuery_not_context (re : RegexpEngine) (row : Value) (config : TableConfig)
    (key column : String) (values : List String) (f : FilterOperation) (op : Operator) :
    matchesQuery re row config [.mk key column .Not values [f]] op = some true ↔
      matchesQuery re row config [f] .Not = some false := by
  rw [matchesQuery_singleton, matchesQuery_singleton]
  simp only [matchesStep]
  cases h1 : matchesStep re row config f .Not with
  | none => simp
  | some r1 =>
    cases r1 with
    | none => simp
    | some b1 => cases b1 <;> simp

/-- C9 (amended): for every row, table configuration, filter `f` and operator
context `op`, `matchesQuery(row, cfg, [NOT[f]], op)` is true iff
`matchesQuery(row, cfg, [f], NOT)` is false: the child is evaluated in the
operator context of the NOT node, not in `op`.  For every `op` other than OR
this is the same as evaluating the child in the context `op`. -/
theorem matchesQuery_not (re : RegexpEngine) (row : Value) (config : TableConfig)
    (key column : String) (values : List String) (f : FilterOperation) (op : Operator) :
    (matchesQuery re row config [.mk key column .Not values [f]] op = some true ↔
      matchesQuery re row config [f] .Not = some false)
    ∧ (op ≠ .Or →
      (matchesQuery re row config [.mk key column .Not values [f]] op = some true ↔
        matchesQuery re row config [f] op = some false)) := by
  refine ⟨matchesQuery_not_context re row config key column values f op, ?_⟩
  intro hop
  rw [matchesQuery_context re row config f op .Not hop (by decide)]
  exact matchesQuery_not_context re row config key column values f op

/-- C9 (as stated) fails: in the OR context, with `f` a filter on a key the row
cannot resolve, `f` alone is false but `NOT[f]` is false as well. -/
theorem matchesQuery_not_or_context :
    matchesQuery goRegexp (severityRow "error") plainConfig
        [equalsFilter "missing" ["x"]] .Or = some false
    ∧ matchesQuery goRegexp (severityRow "error") plainConfig
        [notOf (equalsFilter "missing" ["x"])] .Or = some false
    ∧ ¬ (matchesQuery goRegexp (severityRow "error") plainConfig
          [notOf (equalsFilter "missing" ["x"])] .Or = some true ↔
        matchesQuery goRegexp (severityRow "error") plainConfig
          [equalsFilter "missing" ["x"]] .Or = some false) := by
  decide

theorem matchesQuery_and_witness :
    (matchesQuery goRegexp (severityRow "error") plainConfig
        [andOf (equalsFilter "missing" ["x"]) (equalsFilter "level" ["error"])] .Not = some true ↔
      matchesQuery goRegexp (severityRow "error") plainConfig
        [equalsFilter "missing" ["x"]] .Not = some true
      ∧ matchesQuery goRegexp (severityRow "error") plainConfig
        [equalsFilter "level" ["error"]] .Not = some true) :=
  (matchesQuery_and goRegexp (severityRow "error") plainConfig "" "" []
    (equalsFilter "missing" ["x"]) (equalsFilter "level" ["error"]) .Not).2 (by decide)

theorem matchesQuery_not_witness :
    (matchesQuery goRegexp (severityRow "error") plainConfig
        [notOf (equalsFilter "level" ["warn"])] .And = some true ↔
      matchesQuery goRegexp (severityRow "error") plainConfig
        [equalsFilter "level" ["warn"]] .And = some false) :=
  (matchesQuery_not goRegexp (severityRow "error") plainConfig "" "" []
    (equalsFilter "level" ["warn"]) .And).2 (by decide)

/-- C10 (amended): for a leaf filter on a non-body field whose operator is not
the regex operator, with the single comparison value `"er%or"`, `matchFilter`
returns match when the row's resolved value is `"error"`, when it is
`"error_code"` and also when it is `"eror"` (the `%` becomes `.*`, which
matches the empty text, and the match is not anchored); it returns non-match
when the resolved value is `"err"`. -/
theorem matchFilter_wildcard (row : Value) (config : TableConfig) (key column : String)
    (op : Operator) (children : List FilterOperation) (rowValue : String)
    (hop : op ≠ .RegExp)
    (hbody : isBodyFilter config (.mk key column op ["er%or"] children) = false)
    (hres : resolveRowValue row config (filterKey (.mk key column op ["er%or"] children))
      = some (some rowValue)) :
    ((rowValue = "error" ∨ rowValue = "error_code" ∨ rowValue = "eror") →
      matchFilter goRegexp row config (.mk key column op ["er%or"] children)
        = some (true, none))
    ∧ (rowValue = "err" →
      matchFilter goRegexp row config (.mk key column op ["er%or"] children)
        = some (false, none)) := by
  have hm : matchFilter goRegexp row config (.mk key column op ["er%or"] children)
      = some (valuesLoop goRegexp op rowValue ["er%or"], none) := by
    unfold matchFilter
    simp only [hbody, Bool.false_eq_true, if_false, hres, FilterOperation.Operator,
      FilterOperation.Values]
  have hv : valuesLoop goRegexp op rowValue ["er%or"]
      = ((goRegexp "er.*or").map (fun pat => pat rowValue)).getD false := by
    have hc : ("er%or".data.contains '%') = true := by decide
    have hr : replacePercent "er%or" = "er.*or" := by decide
    simp only [valuesLoop, hop, if_false, hc, if_true, hr]
    cases goRegexp "er.*or" with
    | none => rfl
    | some pat => cases h : pat rowValue <;> simp [h]
  rw [hm, hv]
  constructor
  · rintro (h | h | h) <;> subst h <;> decide
  · intro h
    subst h
    decide

theorem matchFilter_wildcard_witness :
    matchFilter goRegexp (severityRow "error_code") plainConfig (equalsFilter "level" ["er%or"])
      = some (true, none) :=
  (matchFilter_wildcard (severityRow "error_code") plainConfig "level" "" (.other "=") []
    "error_code" (by decide) (by decide) (by decide)).1 (Or.inr (Or.inl rfl))

/-- C10 (as stated) fails: with the comparison value `"er%or"`, a row whose
resolved value is `"eror"` matches. -/
theorem matchFilter_wildcard_eror :
    resolveRowValue (severityRow "eror") plainConfig
        (filterKey (equalsFilter "level" ["er%or"])) = some (some "eror")
    ∧ matchFilter goRegexp (severityRow "eror") plainConfig (equalsFilter "level" ["er%or"])
        = some (true, none) := by
  decide

/-! ## Leaf filters: not-equal, body tokens, wildcards -/

/-- The loop over the values of a not-equal filter without wildcards: the row
passes iff its value differs from every comparison value with its first `-`
removed. -/
theorem valuesLoop_notEqual (re : RegexpEngine) (rowValue : String) (values : List String)
    (hv : ∀ v ∈ values, v.data.contains '%' = false) :
    valuesLoop re .NotEqual rowValue values = true ↔
      ∀ v ∈ values, rowValue ≠ removeFirstDash v := by
  induction values with
  | nil => simp [valuesLoop]
  | cons v rest ih =>
    have h1 := hv v (List.mem_cons_self _ _)
    have h2 := ih (fun x hx => hv x (List.mem_cons_of_mem _ hx))
    simp only [valuesLoop, h1, List.mem_cons, forall_eq_or_imp]
    by_cases h : rowValue = removeFirstDash v
    · simp [h]
    · simp [h, h2]

/-- C11 (the code at the failing input): for the not-equal filter with the
comparison value `"a-b"`, whose `-` is not the first character, `matchFilter`
rejects a row whose resolved value is `"ab"` and lets a row with the value
`"a-b"` pass: line 1217 removes the first `-` wherever it stands, where a
value with a leading `-` (`"-ab"`) is compared as `"ab"`. -/
theorem matchFilter_notEqual_inner_dash :
    matchFilter goRegexp (severityRow "ab") plainConfig (notEqualFilter "level" ["a-b"])
        = some (false, none)
    ∧ matchFilter goRegexp (severityRow "a-b") plainConfig (notEqualFilter "level" ["a-b"])
        = some (true, none)
    ∧ matchFilter goRegexp (severityRow "ab") plainConfig (notEqualFilter "level" ["-ab"])
        = some (false, none) := by
  decide

/-- C13 (the code at the failing input): for the leaf filter on the non-body
field `level` with the value `"a.b%"`, `matchFilter` matches the row value
`"axb"`: line 1213 builds the pattern `a.b.*` without escaping the `.`; the
body path (line 1155) escapes it and does not match the body `"axb"`. -/
theorem matchFilter_wildcard_unescaped :
    replacePercent "a.b%" = "a.b.*"
    ∧ matchFilter goRegexp (severityRow "axb") plainConfig (equalsFilter "level" ["a.b%"])
        = some (true, none)
    ∧ replacePercent (quoteMeta "a.b%") = "a\\.b.*"
    ∧ matchFilter goRegexp (bodyRow "axb") plainConfig (equalsFilter "Body" ["a.b%"])
        = some (false, none) := by
  decide

/-! ## The fields of a split are the maximal separator-free runs -/

/-- The first field of a split is the longest prefix without a separator. -/
theorem splitOnP_eq_takeWhile_cons {α : Type} (p : α → Bool) (l : List α) :
    ∃ tl, l.splitOnP p = l.takeWhile (fun c => !p c) :: tl := by
  induction l with
  | nil => exact ⟨[], rfl⟩
  | cons x xs ih =>
    obtain ⟨tl, h⟩ := ih
    rw [List.splitOnP_cons]
    by_cases hx : p x = true
    · exact ⟨xs.splitOnP p, by simp [hx, List.takeWhile]⟩
    · exact ⟨tl, by simp [hx, h, List.takeWhile]⟩

/-- A separator-free prefix that is followed by a separator or by nothing is
the longest prefix without a separator. -/
theorem takeWhile_append_sepfree {α : Type} (p : α → Bool) (s post : List α)
    (hs : ∀ c ∈ s, p c = false) (hpost : ∀ c, post.head? = some c → p c = true) :
    (s ++ post).takeWhile (fun c => !p c) = s := by
  induction s with
  | nil =>
    cases post with
    | nil => rfl
    | cons c cs =>
      have := hpost c rfl
      simp [List.takeWhile, this]
  | cons a s ih =>
    have ha := hs a (List.mem_cons_self _ _)
    have := ih (fun c hc => hs c (List.mem_cons_of_mem _ hc))
    simp [List.takeWhile, ha, this]

/-- The fields after the first are the separator-free runs that follow a
separator and are followed by a separator or by nothing. -/
theorem mem_tail_splitOnP {α : Type} (p : α → Bool) (l s : List α) :
    s ∈ (l.splitOnP p).tail ↔
      (∀ c ∈ s, p c = false) ∧ ∃ pre c post, l = pre ++ c :: (s ++ post) ∧ p c = true
        ∧ (∀ d, post.head? = some d → p d = true) := by
  induction l with
  | nil =>
    simp only [List.splitOnP_nil, List.tail_cons, List.not_mem_nil, false_iff]
    rintro ⟨_, pre, c, post, h, _⟩
    cases pre <;> simp at h
  | cons x xs ih =>
    obtain ⟨tl, htl⟩ := splitOnP_eq_takeWhile_cons p xs
    rw [List.splitOnP_cons]
    by_cases hx : p x = true
    · simp only [hx, if_true, List.tail_cons]
      constructor
      · intro hs
        rw [htl, List.mem_cons] at hs
        rcases hs with hs | hs
        · subst hs
          refine ⟨?_, [], x, xs.dropWhile (fun c => !p c), ?_, hx, ?_⟩
          · intro c hc
            have := List.mem_takeWhile_imp hc
            simpa using this
          · simp
          · intro d hd
            have := List.head?_dropWhile_not (fun c => !p c) xs
            rw [hd] at this
            simpa using this
        · have hs' : s ∈ (xs.splitOnP p).tail := by rw [htl]; exact hs
          obtain ⟨h1, pre, c, post, h2, h3, h4⟩ := ih.mp hs'
          exact ⟨h1, x :: pre, c, post, by rw [h2]; rfl, h3, h4⟩
      · rintro ⟨h1, pre, c, post, h2, h3, h4⟩
        cases pre with
        | nil =>
          simp only [List.nil_append, List.cons.injEq] at h2
          rw [htl, h2.2, takeWhile_append_sepfree p s post h1 h4]
          exact List.mem_cons_self _ _
        | cons y pre =>
          simp only [List.cons_append, List.cons.injEq] at h2
          have : s ∈ (xs.splitOnP p).tail := ih.mpr ⟨h1, pre, c, post, h2.2, h3, h4⟩
          exact List.mem_of_mem_tail this
    · simp only [hx, Bool.false_eq_true, if_false, List.tail_modifyHead]
      rw [ih]
      constructor
      · rintro ⟨h1, pre, c, post, h2, h3, h4⟩
        exact ⟨h1, x :: pre, c, post, by rw [h2]; rfl, h3, h4⟩
      · rintro ⟨h1, pre, c, post, h2, h3, h4⟩
        cases pre with
        | nil =>
          simp only [List.nil_append, List.cons.injEq] at h2
          rw [h2.1] at hx
          exact absurd h3 hx
        | cons y pre =>
          simp only [List.cons_append, List.cons.injEq] at h2
          exact ⟨h1, pre, c, post, h2.2, h3, h4⟩

/-- The non-empty fields of the split of a body at the characters outside
`[A-Za-z0-9_:*]` are the non-empty maximal runs of token characters. -/
theorem mem_split_iff_maximalRun (body t : List Char) :
    (t ≠ [] ∧ t ∈ body.splitOnP (fun c => !isTokenChar c)) ↔ IsMaximalRun body t := by
  obtain ⟨tl, htl⟩ := splitOnP_eq_takeWhile_cons (fun c => !isTokenChar c) body
  have htail := mem_tail_splitOnP (fun c => !isTokenChar c) body t
  rw [htl, List.tail_cons] at htail
  unfold IsMaximalRun
  constructor
  · rintro ⟨hne, hmem⟩
    rw [htl, List.mem_cons] at hmem
    rcases hmem with hmem | hmem
    · refine ⟨hne, ?_, [], body.dropWhile (fun c => !!isTokenChar c), ?_, ?_, ?_⟩
      · intro c hc
        rw [hmem] at hc
        have := List.mem_takeWhile_imp hc
        simpa using this
      · rw [hmem]
        simp
      · intro c hc
        simp at hc
      · intro d hd
        have := List.head?_dropWhile_not (fun c => !!isTokenChar c) body
        rw [hd] at this
        simpa using this
    · obtain ⟨h1, pre, c, post, h2, h3, h4⟩ := htail.mp hmem
      refine ⟨hne, ?_, pre ++ [c], post, ?_, ?_, ?_⟩
      · intro d hd
        simpa using h1 d hd
      · rw [h2]
        simp
      · intro d hd
        rw [List.getLast?_concat] at hd
        cases hd
        simpa using h3
      · intro d hd
        simpa using h4 d hd
  · rintro ⟨hne, hall, pre, post, hbody, hpre, hpost⟩
    refine ⟨hne, ?_⟩
    rw [htl, List.mem_cons]
    have hsep : ∀ c ∈ t, (fun c => !isTokenChar c) c = false := by
      intro c hc
      simp [hall c hc]
    have hpost' : ∀ d, post.head? = some d → (fun c => !isTokenChar c) d = true := by
      intro d hd
      simp [hpost d hd]
    rcases List.eq_nil_or_concat pre with hp | ⟨pre', c, hp⟩
    · left
      rw [hbody, hp, List.nil_append]
      exact (takeWhile_append_sepfree (fun c => !isTokenChar c) t post hsep hpost').symm
    · right
      rw [List.concat_eq_append] at hp
      apply htail.mpr
      refine ⟨hsep, pre', c, post, ?_, ?_, hpost'⟩
      · rw [hbody, hp]
        simp
      · have := hpre c (by rw [hp, List.getLast?_concat])
        simp [this]

/-- The tokens of a body are its non-empty maximal runs of token characters. -/
theorem mem_bodyTerms_iff (body v : String) :
    v ∈ bodyTerms body ↔ IsMaximalRun body.data v.data := by
  rw [← mem_split_iff_maximalRun]
  unfold bodyTerms
  simp only [List.mem_map, List.mem_filter]
  constructor
  · rintro ⟨t, ⟨h1, h2⟩, rfl⟩
    exact ⟨by simpa using h2, h1⟩
  · rintro ⟨h1, h2⟩
    exact ⟨v.data, ⟨h2, by simpa using h1⟩, rfl⟩

/-- The loop over the values of a body filter whose operator is not the regex
operator and whose values have no `%`: no error, and a match iff every value is
one of the body terms. -/
theorem bodyValuesLoop_terms (re : RegexpEngine) (op : Operator) (body : String)
    (terms values : List String) (hop : op ≠ .RegExp)
    (hv : ∀ v ∈ values, v.data.contains '%' = false) :
    bodyValuesLoop re op body terms values = (decide (∀ v ∈ values, v ∈ terms), none) := by
  induction values with
  | nil => simp [bodyValuesLoop]
  | cons v rest ih =>
    have h1 := hv v (List.mem_cons_self _ _)
    have h2 := ih (fun x hx => hv x (List.mem_cons_of_mem _ hx))
    simp only [bodyValuesLoop, hop, if_false, h1, Bool.false_eq_true, List.mem_cons,
      forall_eq_or_imp, h2]
    by_cases h : v ∈ terms
    · simp [h]
    · simp [h]

/-- C12: for every body filter (the key is the configured body column, no
column override) whose operator is not the regex operator and whose values
contain no `%`, on a row that is a struct, `matchFilter` returns no error and
returns true iff every comparison value is a token of the row's body, the
tokens being the non-empty maximal runs of characters of `[A-Za-z0-9_:*]`; so
a value that is not a token makes the result false. -/
theorem matchFilter_body_tokens (re : RegexpEngine) (typ : String)
    (fields : List (String × Value)) (config : TableConfig) (filter : FilterOperation)
    (hbody : isBodyFilter config filter = true) (hop : filter.Operator ≠ .RegExp)
    (hv : ∀ v ∈ filter.Values, v.data.contains '%' = false) :
    ∃ b, matchFilter re (.struct typ fields) config filter = some (b, none)
      ∧ (b = true ↔ ∀ v ∈ filter.Values,
          IsMaximalRun (lookupValue config.BodyColumn fields).Str.data v.data) := by
  refine ⟨decide (∀ v ∈ filter.Values,
    v ∈ bodyTerms (lookupValue config.BodyColumn fields).Str), ?_, ?_⟩
  · unfold matchFilter
    simp only [hbody, if_true, Value.FieldByName]
    rw [bodyValuesLoop_terms re filter.Operator _ _ _ hop hv]
  · rw [decide_eq_true_eq]
    constructor
    · intro h v hv'
      exact (mem_bodyTerms_iff _ v).mp (h v hv')
    · intro h v hv'
      exact (mem_bodyTerms_iff _ v).mpr (h v hv')

theorem matchFilter_body_tokens_witness :
    ∃ b, matchFilter goRegexp (bodyRow "GET /api:v1 failed*") exampleConfig
        (equalsFilter "Body" ["api:v1", "GET"]) = some (b, none)
      ∧ (b = true ↔ ∀ v ∈ (equalsFilter "Body" ["api:v1", "GET"]).Values,
          IsMaximalRun (lookupValue exampleConfig.BodyColumn
            [("Body", Value.string "GET /api:v1 failed*"),
             ("SeverityText", Value.string "info")]).Str.data v.data) :=
  matchFilter_body_tokens goRegexp "LogRow" _ exampleConfig (equalsFilter "Body" ["api:v1", "GET"])
    (by decide) (by decide) (by decide)

/-! ## Keyset pagination: `makeSelectBuilder`, `getSortOrders`, `readObjects` -/

theorem Time.ext_iff' (a b : Time) : a = b ↔ a.unixNano = b.unixNano := by
  cases a
  cases b
  simp

/-- The ascending window holds for a row iff the row is within the end of the
date range and strictly after the cursor. -/
theorem ascendingWindow_eval (search : String → PageRow → Bool) (row : PageRow)
    (timestamp : Time) (uuid : String) (dr : DateRangeRequiredInput) :
    (∀ c ∈ ascendingWindow timestamp uuid dr, c.eval search row = true) ↔
      row.Timestamp.unixNano ≤ dr.EndDate.unixNano ∧ cursorGreater row timestamp uuid := by
  simp only [ascendingWindow, List.mem_cons, List.mem_singleton, forall_eq_or_imp, forall_eq,
    Cond.eval, CmpOp.onInt, CmpOp.onString, List.not_mem_nil, cursorGreater, Time.ext_iff',
    decide_True, Bool.true_and, decide_eq_true_eq, Bool.or_eq_true, false_imp_iff, implies_true,
    and_true]
  by_cases h : uuid < row.UUID <;> simp only [h, or_true, or_false, and_true, and_false] <;>
    omega

/-- The descending window holds for a row iff the row is within the start of
the date range and strictly before the cursor. -/
theorem descendingWindow_eval (search : String → PageRow → Bool) (row : PageRow)
    (timestamp : Time) (uuid : String) (dr : DateRangeRequiredInput) :
    (∀ c ∈ descendingWindow timestamp uuid dr, c.eval search row = true) ↔
      dr.StartDate.unixNano ≤ row.Timestamp.unixNano ∧ cursorLess row timestamp uuid := by
  simp only [descendingWindow, List.mem_cons, List.mem_singleton, forall_eq_or_imp, forall_eq,
    Cond.eval, CmpOp.onInt, CmpOp.onString, List.not_mem_nil, cursorLess, Time.ext_iff',
    decide_True, Bool.true_and, decide_eq_true_eq, Bool.or_eq_true, false_imp_iff, implies_true,
    and_true]
  by_cases h : row.UUID < uuid <;> simp only [h, or_true, or_false, and_true, and_false] <;>
    omega

/-- What `makeSelectBuilder` returns once the cursor window is known. -/
theorem makeSelectBuilder_of_window (env : PageEnv) (config : TableConfig)
    (selectCols : List String) (projectIDs : List Int) (params : QueryInput)
    (pagination : Pagination) (conds : List Cond) (orderBy : List String)
    (h : cursorWindow env params pagination
      (getSortOrders { args := [] } pagination.Direction config params).1
      (getSortOrders { args := [] } pagination.Direction config params).2.1
        = .ok (conds, orderBy)) :
    ∃ sb filters, makeSelectBuilder env config selectCols projectIDs params pagination
        = .ok (sb, filters)
      ∧ sb.whereExprs
          = projectScope projectIDs :: conds ++ (env.assignSearchFilters params.Query config).1
      ∧ sb.orderBy = orderBy ∧ sb.limit = none := by
  unfold makeSelectBuilder
  simp only [h]
  exact ⟨_, _, rfl, rfl, rfl, rfl⟩

/-- The window of an `After` cursor: for every cursor `(T, U)` carried in
`After`, date range `[start, end]` and row `(t, u)`: the WHERE expressions that lines 584-611 of
`makeSelectBuilder` add (next to the project scope and the search filters) all
hold for the row, with ascending pagination direction, iff `t ≤ end` and
`(t, u)` is strictly greater than `(T, U)` in lexicographic order, and with
descending direction iff `t ≥ start` and `(t, u)` is strictly less than
`(T, U)`; a row strictly greater than the cursor neither equals nor precedes
it, and likewise for strictly less. -/
theorem makeSelectBuilder_after_window (env : PageEnv) (config : TableConfig)
    (selectCols : List String) (projectIDs : List Int) (params : QueryInput)
    (pagination : Pagination) (dr : DateRangeRequiredInput) (s : String) (timestamp : Time)
    (uuid : String) (search : String → PageRow → Bool) (row : PageRow)
    (hdr : params.DateRange = some dr) (hafter : pagination.After = some s)
    (hlen : 1 < s.utf8ByteSize) (hdec : env.decodeCursor s = .ok (timestamp, uuid)) :
    ∃ sb filters conds,
      makeSelectBuilder env config selectCols projectIDs params pagination = .ok (sb, filters)
      ∧ sb.whereExprs
          = projectScope projectIDs :: conds ++ (env.assignSearchFilters params.Query config).1
      ∧ (pagination.Direction = .Asc →
          ((∀ c ∈ conds, c.eval search row = true) ↔
            row.Timestamp.unixNano ≤ dr.EndDate.unixNano ∧ cursorGreater row timestamp uuid))
      ∧ (pagination.Direction = .Desc →
          ((∀ c ∈ conds, c.eval search row = true) ↔
            dr.StartDate.unixNano ≤ row.Timestamp.unixNano ∧ cursorLess row timestamp uuid))
      ∧ (cursorGreater row timestamp uuid →
          ¬ (row.Timestamp = timestamp ∧ row.UUID = uuid) ∧ ¬ cursorLess row timestamp uuid)
      ∧ (cursorLess row timestamp uuid →
          ¬ (row.Timestamp = timestamp ∧ row.UUID = uuid)
            ∧ ¬ cursorGreater row timestamp uuid) := by
  have husable : usableCursor pagination.After = some s := by
    simp [usableCursor, hafter, hlen]
  have horder : (cursorGreater row timestamp uuid →
        ¬ (row.Timestamp = timestamp ∧ row.UUID = uuid) ∧ ¬ cursorLess row timestamp uuid)
      ∧ (cursorLess row timestamp uuid →
        ¬ (row.Timestamp = timestamp ∧ row.UUID = uuid)
          ∧ ¬ cursorGreater row timestamp uuid) := by
    simp only [cursorGreater, cursorLess, Time.ext_iff']
    constructor
    · rintro (h | ⟨h1, h2⟩)
      · constructor
        · rintro ⟨h3, _⟩
          omega
        · rintro (h3 | ⟨h3, _⟩) <;> omega
      · constructor
        · rintro ⟨_, h3⟩
          rw [h3] at h2
          exact lt_irrefl _ h2
        · rintro (h3 | ⟨_, h3⟩)
          · omega
          · exact lt_asymm h2 h3
    · rintro (h | ⟨h1, h2⟩)
      · constructor
        · rintro ⟨h3, _⟩
          omega
        · rintro (h3 | ⟨h3, _⟩) <;> omega
      · constructor
        · rintro ⟨_, h3⟩
          rw [h3] at h2
          exact lt_irrefl _ h2
        · rintro (h3 | ⟨_, h3⟩)
          · omega
          · exact lt_asymm h2 h3
  by_cases hasc : pagination.Direction = .Asc
  · have hwin : cursorWindow env params pagination
        (getSortOrders { args := [] } pagination.Direction config params).1
        (getSortOrders { args := [] } pagination.Direction config params).2.1
          = .ok (ascendingWindow timestamp uuid dr,
              [(getSortOrders { args := [] } pagination.Direction config params).1]) := by
      unfold cursorWindow
      simp only [husable, hdec, hdr, hasc, if_true]
    obtain ⟨sb, filters, h1, h2, _, _⟩ :=
      makeSelectBuilder_of_window env config selectCols projectIDs params pagination _ _ hwin
    refine ⟨sb, filters, _, h1, h2, fun _ => ascendingWindow_eval search row timestamp uuid dr,
      ?_, horder.1, horder.2⟩
    intro hdesc
    rw [hasc] at hdesc
    cases hdesc
  · have hwin : cursorWindow env params pagination
        (getSortOrders { args := [] } pagination.Direction config params).1
        (getSortOrders { args := [] } pagination.Direction config params).2.1
          = .ok (descendingWindow timestamp uuid dr,
              [(getSortOrders { args := [] } pagination.Direction config params).1]) := by
      unfold cursorWindow
      simp only [husable, hdec, hdr, hasc, if_false]
    obtain ⟨sb, filters, h1, h2, _, _⟩ :=
      makeSelectBuilder_of_window env config selectCols projectIDs params pagination _ _ hwin
    exact ⟨sb, filters, _, h1, h2, fun h => absurd h hasc,
      fun _ => descendingWindow_eval search row timestamp uuid dr, horder.1, horder.2⟩

theorem makeSelectBuilder_after_window_witness :
    ∃ sb filters conds,
      makeSelectBuilder examplePageEnv exampleConfig ["Timestamp", "UUID"] [1]
        (exampleParams none) { After := some "100,abc", Direction := .Asc } = .ok (sb, filters)
      ∧ sb.whereExprs = projectScope [1] :: conds ++ []
      ∧ ((∀ c ∈ conds, c.eval (fun _ _ => true)
            { ProjectId := 1, Timestamp := { unixNano := 100000000000 }, UUID := "abd" } = true) ↔
          (100000000000 : Int) ≤ 1800000000000
            ∧ cursorGreater
                { ProjectId := 1, Timestamp := { unixNano := 100000000000 }, UUID := "abd" }
                { unixNano := 100000000000 } "abc") := by
  obtain ⟨sb, filters, conds, h1, h2, h3, _⟩ :=
    makeSelectBuilder_after_window examplePageEnv exampleConfig ["Timestamp", "UUID"] [1]
      (exampleParams none) { After := some "100,abc", Direction := .Asc }
      { StartDate := { unixNano := 0 }, EndDate := { unixNano := 1800000000000 } } "100,abc"
      { unixNano := 100000000000 } "abc" (fun _ _ => true)
      { ProjectId := 1, Timestamp := { unixNano := 100000000000 }, UUID := "abd" }
      rfl rfl (by decide) rfl
  exact ⟨sb, filters, conds, h1, h2, h3 rfl⟩

/-- C14 (the code at the failing input): with the cursor `(100 s, "abc")` in
`After`, a descending pagination direction and a requested ascending sort on
the timestamp, the row `(50 s, "zzz")` satisfies every WHERE expression of the
builder, so the page returns it, and the builder orders the page by `Timestamp
ASC, UUID ASC`: the returned row is strictly less than the cursor and precedes
it in the sort order of the page.  Without a requested sort the same window is
ordered by `Timestamp DESC, UUID DESC`, in which the row follows the cursor. -/
theorem makeSelectBuilder_after_row_precedes :
    (makeSelectBuilder examplePageEnv exampleConfig ["Timestamp", "UUID"] [1]
        (exampleParams (some { Column := "timestamp", Direction := .Asc }))
        { After := some "100,abc", Direction := .Desc }).value?.map
      (fun r => (r.1.orderBy, r.1.whereExprs.all (fun c => c.eval (fun _ _ => true)
        { ProjectId := 1, Timestamp := { unixNano := 50000000000 }, UUID := "zzz" })))
      = some (["Timestamp ASC, UUID ASC"], true)
    ∧ cursorLess { ProjectId := 1, Timestamp := { unixNano := 50000000000 }, UUID := "zzz" }
        { unixNano := 100000000000 } "abc"
    ∧ (makeSelectBuilder examplePageEnv exampleConfig ["Timestamp", "UUID"] [1]
        (exampleParams none) { After := some "100,abc", Direction := .Desc }).value?.map
      (fun r => (r.1.orderBy, r.1.whereExprs.all (fun c => c.eval (fun _ _ => true)
        { ProjectId := 1, Timestamp := { unixNano := 50000000000 }, UUID := "zzz" })))
      = some (["Timestamp DESC, UUID DESC"], true) := by
  refine ⟨by decide, Or.inl (by decide), by decide⟩

/-- C15 (the code at the failing input): with an `After` cursor, a descending
pagination direction and a requested ascending sort on the timestamp, the
ordering that `makeSelectBuilder` applies is the ascending one of
`getSortOrders` (`Timestamp ASC, UUID ASC`), but the cursor predicate is the
descending one, `Timestamp <= T AND Timestamp >= start AND (Timestamp < T OR
UUID < U)`: line 591 looks at the pagination direction only, where line 2166
also looks at the requested sort direction. -/
theorem makeSelectBuilder_order_mismatch :
    (makeSelectBuilder examplePageEnv exampleConfig ["Timestamp", "UUID"] [1]
        (exampleParams (some { Column := "timestamp", Direction := .Asc }))
        { After := some "100,abc", Direction := .Desc }).value?.map
      (fun r => (r.1.orderBy, r.1.whereExprs))
    = some (["Timestamp ASC, UUID ASC"],
        projectScope [1] ::
          descendingWindow { unixNano := 100000000000 } "abc"
            { StartDate := { unixNano := 0 }, EndDate := { unixNano := 1800000000000 } }) := by
  decide

/-- C16: for every pagination direction, table configuration and query input,
`getSortOrders` returns the forward ordering `<col> D, UUID D` and the backward
ordering `<col> D', UUID D'` over the same resolved sort column `col` (the
known column of the sort key, else the attribute lookup), where `D'` is the
opposite of `D`, the tie-break on UUID has the direction of the primary key
in each ordering, and, when no pagination direction is set, `D` is the
requested sort direction, and `DESC` on the resolved `timestamp` key when no
sort is requested. -/
theorem getSortOrders_orderings (sb : SelectBuilder) (paginationDirection : SortDirection)
    (config : TableConfig) (params : QueryInput) :
    ∃ col D D',
      (getSortOrders sb paginationDirection config params).1
        = col ++ " " ++ D ++ ", UUID " ++ D
      ∧ (getSortOrders sb paginationDirection config params).2.1
        = col ++ " " ++ D' ++ ", UUID " ++ D'
      ∧ ((D = "ASC" ∧ D' = "DESC") ∨ (D = "DESC" ∧ D' = "ASC"))
      ∧ (∀ key, key = (params.sortInput.map (fun r => r.Column)).getD "timestamp" →
          col = match config.KeysToColumns.lookup key with
            | some known => known
            | none => config.attributesColumn key ++ "[" ++ (sb.Var key).1 ++ "]")
      ∧ (paginationDirection = .unset → ∀ requested, params.sortInput = some requested →
          (requested.Direction = .Asc → D = "ASC") ∧ (requested.Direction = .Desc → D = "DESC"))
      ∧ (paginationDirection = .unset → params.sortInput = none → D = "DESC")
      ∧ (paginationDirection = .Asc → D = "ASC") := by
  unfold getSortOrders
  refine ⟨_, _, _, rfl, rfl, ?_, ?_, ?_, ?_, ?_⟩
  · split_ifs <;> simp
  · intro key hkey
    subst hkey
    cases hs : params.sortInput with
    | none =>
      simp only [Option.map_none', Option.getD_none]
      cases config.KeysToColumns.lookup "timestamp" <;> rfl
    | some requested =>
      simp only [Option.map_some', Option.getD_some]
      cases config.KeysToColumns.lookup requested.Column <;> rfl
  · intro hdir requested hreq
    subst hdir
    simp only [hreq]
    constructor
    · intro h
      simp [h]
    · intro h
      simp [h]
  · intro hdir hnone
    subst hdir
    simp [hnone]
  · intro hdir
    subst hdir
    simp

/-- C17 (amended): for every cursor string `s` of more than one byte that
`decodeCursor` rejects, `makeSelectBuilder` returns the error (and no builder)
when `s` is carried in the `After` field, when it is carried in the `At` field
and when it is carried in the `Before` field, a cursor field checked earlier
(After before At before Before) being nil or shorter than two bytes; a cursor
shorter than two bytes is skipped like a nil one. -/
theorem makeSelectBuilder_rejected_cursor (env : PageEnv) (config : TableConfig)
    (selectCols : List String) (projectIDs : List Int) (params : QueryInput)
    (pagination : Pagination) (s msg : String) (hlen : 1 < s.utf8ByteSize)
    (hrej : env.decodeCursor s = .error msg) :
    (pagination.After = some s →
      makeSelectBuilder env config selectCols projectIDs params pagination = .error msg)
    ∧ (pagination.At = some s → usableCursor pagination.After = none →
      makeSelectBuilder env config selectCols projectIDs params pagination = .error msg)
    ∧ (pagination.Before = some s → usableCursor pagination.After = none →
      usableCursor pagination.At = none →
      makeSelectBuilder env config selectCols projectIDs params pagination = .error msg) := by
  have husable : usableCursor (some s) = some s := by
    simp [usableCursor, hlen]
  refine ⟨?_, ?_, ?_⟩
  · intro h
    unfold makeSelectBuilder cursorWindow
    simp only [h, husable, hrej]
  · intro h hafter
    unfold makeSelectBuilder cursorWindow
    simp only [h, hafter, husable, hrej]
  · intro h hafter hat
    unfold makeSelectBuilder cursorWindow
    simp only [h, hafter, hat, husable, hrej]

theorem makeSelectBuilder_rejected_cursor_witness :
    makeSelectBuilder examplePageEnv exampleConfig ["Timestamp", "UUID"] [1]
        (exampleParams none) { After := some "zz" } = .error "cursor is invalid"
    ∧ makeSelectBuilder examplePageEnv exampleConfig ["Timestamp", "UUID"] [1]
        (exampleParams none) { At := some "zz" } = .error "cursor is invalid"
    ∧ makeSelectBuilder examplePageEnv exampleConfig ["Timestamp", "UUID"] [1]
        (exampleParams none) { Before := some "zz" } = .error "cursor is invalid" :=
  ⟨(makeSelectBuilder_rejected_cursor examplePageEnv exampleConfig ["Timestamp", "UUID"] [1]
      (exampleParams none) { After := some "zz" } "zz" "cursor is invalid" (by decide) rfl).1 rfl,
   (makeSelectBuilder_rejected_cursor examplePageEnv exampleConfig ["Timestamp", "UUID"] [1]
      (exampleParams none) { At := some "zz" } "zz" "cursor is invalid" (by decide) rfl).2.1
      rfl rfl,
   (makeSelectBuilder_rejected_cursor examplePageEnv exampleConfig ["Timestamp", "UUID"] [1]
      (exampleParams none) { Before := some "zz" } "zz" "cursor is invalid" (by decide) rfl).2.2
      rfl rfl rfl⟩

/-- C17 (as stated) fails: the empty cursor string is rejected by the cursor
decoder, but carried in `After`, `At` or `Before` it is skipped by the length
test and `makeSelectBuilder` returns a builder. -/
theorem makeSelectBuilder_short_cursor :
    (examplePageEnv.decodeCursor "" = .error "cursor is invalid")
    ∧ (makeSelectBuilder examplePageEnv exampleConfig ["Timestamp", "UUID"] [1]
        (exampleParams none) { After := some "" }).isError = false
    ∧ (makeSelectBuilder examplePageEnv exampleConfig ["Timestamp", "UUID"] [1]
        (exampleParams none) { At := some "" }).isError = false
    ∧ (makeSelectBuilder examplePageEnv exampleConfig ["Timestamp", "UUID"] [1]
        (exampleParams none) { Before := some "" }).isError = false
    ∧ (makeSelectBuilder examplePageEnv exampleConfig ["Timestamp", "UUID"] [1]
        (exampleParams none) { After := some "" }).value?.isSome = true := by
  refine ⟨rfl, ?_, ?_, ?_, ?_⟩ <;> decide

/-- C18 (amended): for every page limit `L ≥ 1`, when `readObjects` is given an
`At` cursor, the before-window and the after-window sub-queries are each
limited to `floor(L/2) + 1` rows and the exact-row sub-query is unlimited;
`floor(L/2) + 1` is `ceil(L/2) + 1` for even `L` and `ceil(L/2)` for odd `L`. -/
theorem readObjects_window_limits (env : PageEnv) (logsLimit : Int)
    (config samplingConfig : TableConfig) (projectID : Int) (params : QueryInput)
    (pagination : Pagination) (dr : DateRangeRequiredInput) (s : String) (timestamp : Time)
    (uuid : String) (L : Int) (hL : 1 ≤ L) (hlim : pagination.Limit = some L)
    (hat : pagination.At = some s) (hlen : 1 < s.utf8ByteSize)
    (hdec : env.decodeCursor s = .ok (timestamp, uuid)) (hdr : params.DateRange = some dr) :
    ∃ q before exact after,
      readObjectsQuery env logsLimit config samplingConfig projectID params pagination = .ok q
      ∧ q.subQueries = [before, exact, after]
      ∧ before.limit = some (L / 2 + 1)
      ∧ after.limit = some (L / 2 + 1)
      ∧ exact.limit = none
      ∧ (L % 2 = 0 → L / 2 + 1 = (L + 1) / 2 + 1)
      ∧ (L % 2 = 1 → L / 2 + 1 = (L + 1) / 2) := by
  have husable : usableCursor (some s) = some s := by
    simp [usableCursor, hlen]
  have hnone : usableCursor (none : Option String) = none := rfl
  have htdiv : Int.tdiv L 2 = L / 2 := Int.tdiv_eq_ediv (by omega) (by omega)
  unfold readObjectsQuery
  simp only [hat, husable, hlim]
  unfold makeSelectBuilder cursorWindow
  simp only [husable, hnone, hdec, hdr, htdiv]
  refine ⟨_, _, _, _, rfl, rfl, ?_, ?_, ?_, ?_, ?_⟩
  · rfl
  · rfl
  · rfl
  · intro h
    omega
  · intro h
    omega

theorem readObjects_window_limits_witness :
    ∃ q before exact after,
      readObjectsQuery examplePageEnv 50 exampleConfig exampleConfig 1 (exampleParams none)
        { At := some "100,abc", Limit := some 5 } = .ok q
      ∧ q.subQueries = [before, exact, after]
      ∧ before.limit = some 3 ∧ after.limit = some 3 ∧ exact.limit = none := by
  obtain ⟨q, before, exact, after, h1, h2, h3, h4, h5, _⟩ :=
    readObjects_window_limits examplePageEnv 50 exampleConfig exampleConfig 1 (exampleParams none)
      { At := some "100,abc", Limit := some 5 }
      { StartDate := { unixNano := 0 }, EndDate := { unixNano := 1800000000000 } } "100,abc"
      { unixNano := 100000000000 } "abc" 5 (by decide) rfl rfl (by decide) rfl rfl
  exact ⟨q, before, exact, after, h1, h2, h3, h4, h5⟩

/-- C18 (as stated) fails: for the page limit 5 the before-window and the
after-window are limited to 3 rows, not to `ceil(5/2) + 1 = 4`. -/
theorem readObjects_window_limit_odd :
    (readObjectsQuery examplePageEnv 50 exampleConfig exampleConfig 1 (exampleParams none)
        { At := some "100,abc", Limit := some 5 }).value?.map
      (fun q => q.subQueries.map (fun b => b.limit)) = some [some 3, none, some 3]
    ∧ ((5 : Int) + 1) / 2 + 1 = 4 := by
  decide

/-! ## `transformSql` and `readMetricsSql` -/

theorem anyVisited_selectQuery_false (p : Expr → Bool) (items : List Expr)
    (f w : Option Expr) (rest : List Expr) :
    (Expr.selectQuery items f w rest).anyVisited false p = false := by
  cases f <;> cases w <;> simp [Expr.anyVisited]

theorem anyVisited_joinTableExpr (enter : Bool) (p : Expr → Bool) (t a : Option Expr) :
    (Expr.joinTableExpr t a).anyVisited enter p
      = (Expr.anyVisitedOpt enter p t || Expr.anyVisitedOpt enter p a
          || p (.joinTableExpr t a)) := by
  cases t <;> cases a <;> simp [Expr.anyVisited, Expr.anyVisitedOpt]

/-- The visit of one SELECT does not panic when the date range is set or the
request does not carry exactly one project id. -/
theorem visitSelect_ne_panic (env : SqlEnv) (config : TableConfig) (input : ReadMetricsInput)
    (hsafe : input.Params.DateRange ≠ none ∨ input.ProjectIDs.length ≠ 1) (q : SelectParts) :
    visitSelect env config input q ≠ .panic := by
  unfold visitSelect
  cases fromResourceTable q.fromExpr with
  | error err => simp
  | ok b =>
    cases b with
    | false => simp
    | true =>
      simp only
      unfold rewriteResourceSelect
      simp only
      cases Expr.replaceFunctionsList config _ with
      | error err => simp
      | ok items2 =>
        simp only
        cases Expr.replaceFunctionsOpt config _ with
        | error err => simp
        | ok from2 =>
          simp only
          cases Expr.replaceFunctionsOpt config _ with
          | error err => simp
          | ok where2 =>
            simp only
            cases Expr.replaceFunctionsList config _ with
            | error err => simp
            | ok rest2 =>
              simp only
              by_cases hlen : input.ProjectIDs.length = 1
              · have hdr : input.Params.DateRange ≠ none := by
                  rcases hsafe with h | h
                  · exact h
                  · exact absurd hlen h
                simp only [hlen, bne_self_eq_false, Bool.false_eq_true, if_false]
                cases hd : input.Params.DateRange with
                | none => exact absurd hd hdr
                | some dr =>
                  simp only
                  split <;> simp
              · simp [hlen]

mutual
/-- The traversal of a statement panics only where the visit of one SELECT
does, and it leaves the table identifiers outside nested SELECTs as they are. -/
theorem visitSelects_spec (env : SqlEnv) (config : TableConfig) (input : ReadMetricsInput)
    (Q : Prop) (hQ : ∀ q, visitSelect env config input q = .panic → Q) :
    ∀ e : Expr, (e.visitSelects env config input = .panic → Q)
      ∧ ∀ e', e.visitSelects env config input = .ok e' →
          e'.anyVisited false isResourceTableIdentifier
            = e.anyVisited false isResourceTableIdentifier
  | .ident id => by simp [Expr.visitSelects]
  | .numberLiteral literal => by simp [Expr.visitSelects]
  | .stringLiteral literal => by simp [Expr.visitSelects]
  | .tableIdentifier database table => by simp [Expr.visitSelects]
  | .functionExpr name none => by simp [Expr.visitSelects]
  | .binaryOperation left operation right => by
    obtain ⟨hl1, hl2⟩ := visitSelects_spec env config input Q hQ left
    obtain ⟨hr1, hr2⟩ := visitSelects_spec env config input Q hQ right
    simp only [Expr.visitSelects]
    cases hl : left.visitSelects env config input with
    | panic => exact ⟨fun _ => hl1 hl, by simp⟩
    | error err => simp
    | ok l =>
      cases hr : right.visitSelects env config input with
      | panic => exact ⟨fun _ => hr1 hr, by simp⟩
      | error err => simp
      | ok r => simp [Expr.anyVisited, hl2 l hl, hr2 r hr, isResourceTableIdentifier]
  | .paramExprList items => by
    obtain ⟨h1, h2⟩ := visitSelectsList_spec env config input Q hQ items
    simp only [Expr.visitSelects]
    cases hl : Expr.visitSelectsList env config input items with
    | panic => exact ⟨fun _ => h1 hl, by simp⟩
    | error err => simp
    | ok l => simp [Expr.anyVisited, h2 l hl, isResourceTableIdentifier]
  | .functionExpr name (some items) => by
    obtain ⟨h1, h2⟩ := visitSelectsList_spec env config input Q hQ items
    simp only [Expr.visitSelects]
    cases hl : Expr.visitSelectsList env config input items with
    | panic => exact ⟨fun _ => h1 hl, by simp⟩
    | error err => simp
    | ok l => simp [Expr.anyVisited, h2 l hl, isResourceTableIdentifier]
  | .columnExpr expr => by
    obtain ⟨h1, h2⟩ := visitSelects_spec env config input Q hQ expr
    simp only [Expr.visitSelects]
    cases hl : expr.visitSelects env config input with
    | panic => exact ⟨fun _ => h1 hl, by simp⟩
    | error err => simp
    | ok l => simp [Expr.anyVisited, h2 l hl, isResourceTableIdentifier]
  | .aliasExpr expr aliasOf => by
    obtain ⟨hl1, hl2⟩ := visitSelects_spec env config input Q hQ expr
    obtain ⟨hr1, hr2⟩ := visitSelects_spec env config input Q hQ aliasOf
    simp only [Expr.visitSelects]
    cases hl : expr.visitSelects env config input with
    | panic => exact ⟨fun _ => hl1 hl, by simp⟩
    | error err => simp
    | ok l =>
      cases hr : aliasOf.visitSelects env config input with
      | panic => exact ⟨fun _ => hr1 hr, by simp⟩
      | error err => simp
      | ok r => simp [Expr.anyVisited, hl2 l hl, hr2 r hr, isResourceTableIdentifier]
  | .intervalExpr expr unit => by
    obtain ⟨h1, h2⟩ := visitSelects_spec env config input Q hQ expr
    simp only [Expr.visitSelects]
    cases hl : expr.visitSelects env config input with
    | panic => exact ⟨fun _ => h1 hl, by simp⟩
    | error err => simp
    | ok l => simp [Expr.anyVisited, h2 l hl, isResourceTableIdentifier]
  | .selectItem expr aliasOf => by
    obtain ⟨h1, h2⟩ := visitSelects_spec env config input Q hQ expr
    simp only [Expr.visitSelects]
    cases hl : expr.visitSelects env config input with
    | panic => exact ⟨fun _ => h1 hl, by simp⟩
    | error err => simp
    | ok l => simp [Expr.anyVisited, h2 l hl, isResourceTableIdentifier]
  | .joinTableExpr tableExpr tableAlias => by
    obtain ⟨hl1, hl2⟩ := visitSelectsOpt_spec env config input Q hQ tableExpr
    obtain ⟨hr1, hr2⟩ := visitSelectsOpt_spec env config input Q hQ tableAlias
    simp only [Expr.visitSelects]
    cases hl : Expr.visitSelectsOpt env config input tableExpr with
    | panic => exact ⟨fun _ => hl1 hl, by simp⟩
    | error err => simp
    | ok l =>
      cases hr : Expr.visitSelectsOpt env config input tableAlias with
      | panic => exact ⟨fun _ => hr1 hr, by simp⟩
      | error err => simp
      | ok r =>
        simp [anyVisited_joinTableExpr, hl2 l hl, hr2 r hr, isResourceTableIdentifier]
  | .joinExpr sides => by
    obtain ⟨h1, h2⟩ := visitSelectsList_spec env config input Q hQ sides
    simp only [Expr.visitSelects]
    cases hl : Expr.visitSelectsList env config input sides with
    | panic => exact ⟨fun _ => h1 hl, by simp⟩
    | error err => simp
    | ok l => simp [Expr.anyVisited, h2 l hl, isResourceTableIdentifier]
  | .settingsClause items => by
    obtain ⟨h1, h2⟩ := visitSelectsList_spec env config input Q hQ items
    simp only [Expr.visitSelects]
    cases hl : Expr.visitSelectsList env config input items with
    | panic => exact ⟨fun _ => h1 hl, by simp⟩
    | error err => simp
    | ok l => simp [Expr.anyVisited, h2 l hl, isResourceTableIdentifier]
  | .other children => by
    obtain ⟨h1, h2⟩ := visitSelectsList_spec env config input Q hQ children
    simp only [Expr.visitSelects]
    cases hl : Expr.visitSelectsList env config input children with
    | panic => exact ⟨fun _ => h1 hl, by simp⟩
    | error err => simp
    | ok l => simp [Expr.anyVisited, h2 l hl, isResourceTableIdentifier]
  | .selectQuery selectItems fromExpr whereExpr rest => by
    obtain ⟨h1, _⟩ := visitSelectsList_spec env config input Q hQ selectItems
    obtain ⟨h2, _⟩ := visitSelectsOpt_spec env config input Q hQ fromExpr
    obtain ⟨h3, _⟩ := visitSelectsOpt_spec env config input Q hQ whereExpr
    obtain ⟨h4, _⟩ := visitSelectsList_spec env config input Q hQ rest
    simp only [Expr.visitSelects]
    cases hi : Expr.visitSelectsList env config input selectItems with
    | panic => exact ⟨fun _ => h1 hi, by simp⟩
    | error err => simp
    | ok items =>
      cases hf : Expr.visitSelectsOpt env config input fromExpr with
      | panic => exact ⟨fun _ => h2 hf, by simp⟩
      | error err => simp
      | ok f =>
        cases hw : Expr.visitSelectsOpt env config input whereExpr with
        | panic => exact ⟨fun _ => h3 hw, by simp⟩
        | error err => simp
        | ok w =>
          cases hr : Expr.visitSelectsList env config input rest with
          | panic => exact ⟨fun _ => h4 hr, by simp⟩
          | error err => simp
          | ok r =>
            cases hv : visitSelect env config input
                { selectItems := items, fromExpr := f, whereExpr := w, rest := r } with
            | panic => exact ⟨fun _ => hQ _ hv, by simp [hv]⟩
            | error err => simp [hv]
            | ok q =>
              simp [hv, SelectParts.toExpr, anyVisited_selectQuery_false]
/-- The traversal of a list of nodes. -/
theorem visitSelectsList_spec (env : SqlEnv) (config : TableConfig) (input : ReadMetricsInput)
    (Q : Prop) (hQ : ∀ q, visitSelect env config input q = .panic → Q) :
    ∀ l : List Expr, (Expr.visitSelectsList env config input l = .panic → Q)
      ∧ ∀ l', Expr.visitSelectsList env config input l = .ok l' →
          Expr.anyVisitedList false isResourceTableIdentifier l'
            = Expr.anyVisitedList false isResourceTableIdentifier l
  | [] => by simp [Expr.visitSelectsList]
  | e :: es => by
    obtain ⟨hl1, hl2⟩ := visitSelects_spec env config input Q hQ e
    obtain ⟨hr1, hr2⟩ := visitSelectsList_spec env config input Q hQ es
    simp only [Expr.visitSelectsList]
    cases hl : e.visitSelects env config input with
    | panic => exact ⟨fun _ => hl1 hl, by simp⟩
    | error err => simp
    | ok l =>
      cases hr : Expr.visitSelectsList env config input es with
      | panic => exact ⟨fun _ => hr1 hr, by simp⟩
      | error err => simp
      | ok r => simp [Expr.anyVisitedList, hl2 l hl, hr2 r hr]
/-- The traversal of an optional node. -/
theorem visitSelectsOpt_spec (env : SqlEnv) (config : TableConfig) (input : ReadMetricsInput)
    (Q : Prop) (hQ : ∀ q, visitSelect env config input q = .panic → Q) :
    ∀ o : Option Expr, (Expr.visitSelectsOpt env config input o = .panic → Q)
      ∧ ∀ o', Expr.visitSelectsOpt env config input o = .ok o' →
          Expr.anyVisitedOpt false isResourceTableIdentifier o'
            = Expr.anyVisitedOpt false isResourceTableIdentifier o
  | none => by simp [Expr.visitSelectsOpt]
  | some e => by
    obtain ⟨hl1, hl2⟩ := visitSelects_spec env config input Q hQ e
    simp only [Expr.visitSelectsOpt]
    cases hl : e.visitSelects env config input with
    | panic => exact ⟨fun _ => hl1 hl, by simp⟩
    | error err => simp
    | ok l => simp [Expr.anyVisitedOpt, hl2 l hl]
end

theorem visitSelects_no_panic (env : SqlEnv) (config : TableConfig) (input : ReadMetricsInput)
    (hsafe : input.Params.DateRange ≠ none ∨ input.ProjectIDs.length ≠ 1) (e : Expr) :
    e.visitSelects env config input ≠ .panic :=
  fun h => (visitSelects_spec env config input False
    (fun q hq => visitSelect_ne_panic env config input hsafe q hq) e).1 h

/-- What a successful traversal of a SELECT went through. -/
theorem visitSelects_selectQuery_ok (env : SqlEnv) (config : TableConfig)
    (input : ReadMetricsInput) (items : List Expr) (f w : Option Expr) (rest : List Expr)
    (e' : Expr)
    (h : (Expr.selectQuery items f w rest).visitSelects env config input = .ok e') :
    ∃ items' f' w' rest' q,
      Expr.visitSelectsOpt env config input f = .ok f'
        ∧ visitSelect env config input
            { selectItems := items', fromExpr := f', whereExpr := w', rest := rest' } = .ok q := by
  simp only [Expr.visitSelects] at h
  cases hi : Expr.visitSelectsList env config input items with
  | panic => simp [hi] at h
  | error err => simp [hi] at h
  | ok items' =>
    cases hf : Expr.visitSelectsOpt env config input f with
    | panic => simp [hi, hf] at h
    | error err => simp [hi, hf] at h
    | ok f' =>
      cases hw : Expr.visitSelectsOpt env config input w with
      | panic => simp [hi, hf, hw] at h
      | error err => simp [hi, hf, hw] at h
      | ok w' =>
        cases hr : Expr.visitSelectsList env config input rest with
        | panic => simp [hi, hf, hw, hr] at h
        | error err => simp [hi, hf, hw, hr] at h
        | ok rest' =>
          cases hv : visitSelect env config input
              { selectItems := items', fromExpr := f', whereExpr := w', rest := rest' } with
          | panic => simp [hi, hf, hw, hr, hv] at h
          | error err => simp [hi, hf, hw, hr, hv] at h
          | ok q => exact ⟨items', f', w', rest', q, rfl, hv⟩

theorem isResourceSide_anyVisited (side : Expr) (h : isResourceSide side = true) :
    side.anyVisited false isResourceTableIdentifier = true := by
  unfold isResourceSide at h
  split at h
  · rw [anyVisited_joinTableExpr]
    simp only [Expr.anyVisitedOpt, Expr.anyVisited, isResourceTableIdentifier, h,
      Bool.true_or, Bool.or_true]
  · simp only [Expr.anyVisited, isResourceTableIdentifier, h]
  · simp at h

theorem anyVisitedList_of_any (sides : List Expr) (h : sides.any isResourceSide = true) :
    Expr.anyVisitedList false isResourceTableIdentifier sides = true := by
  induction sides with
  | nil => simp at h
  | cons e es ih =>
    simp only [List.any_cons, Bool.or_eq_true] at h
    simp only [Expr.anyVisitedList, Bool.or_eq_true]
    rcases h with h | h
    · exact Or.inl (isResourceSide_anyVisited e h)
    · exact Or.inr (ih h)

/-- The traversal of a SELECT whose FROM is a JOIN that mentions a resource
table never yields a rewritten statement. -/
theorem visitSelects_join_ne_ok (env : SqlEnv) (config : TableConfig) (input : ReadMetricsInput)
    (items sides : List Expr) (w : Option Expr) (rest : List Expr)
    (hres : Expr.anyVisitedList false isResourceTableIdentifier sides = true) (e' : Expr) :
    (Expr.selectQuery items (some (.joinExpr sides)) w rest).visitSelects env config input
      ≠ .ok e' := by
  intro h
  obtain ⟨items', f', w', rest', q, hf, hv⟩ :=
    visitSelects_selectQuery_ok env config input items _ w rest e' h
  simp only [Expr.visitSelectsOpt, Expr.visitSelects] at hf
  cases hl : Expr.visitSelectsList env config input sides with
  | panic => simp [hl] at hf
  | error err => simp [hl] at hf
  | ok l =>
    have hkeep := (visitSelectsList_spec env config input True (fun _ _ => trivial) sides).2 l hl
    simp only [hl] at hf
    have hf' : f' = some (.joinExpr l) := by
      injection hf with hf
      exact hf.symm
    subst hf'
    simp [visitSelect, fromResourceTable, Expr.anyVisited, hkeep, hres] at hv

theorem transformSql_of_parse (env : SqlEnv) (config : TableConfig) (input : ReadMetricsInput)
    (sql : String) (stmt : Expr) (hsql : input.Sql = some sql)
    (hparse : env.parse sql = .ok [stmt]) :
    transformSql env config input
      = if stmt.anyVisited true isSettingsClause then
          .error "SQL statement cannot include a settings clause."
        else
          match stmt.visitSelects env config input with
          | .error err => .error err
          | .panic => .panic
          | .ok rewritten => .ok (env.render rewritten) := by
  simp only [transformSql, hsql, hparse]

/-- When the traversal of the single statement neither panics nor yields a
statement, `transformSql` returns an error. -/
theorem transformSql_error_of (env : SqlEnv) (config : TableConfig) (input : ReadMetricsInput)
    (sql : String) (stmt : Expr) (hsql : input.Sql = some sql)
    (hparse : env.parse sql = .ok [stmt])
    (hpanic : stmt.visitSelects env config input ≠ .panic)
    (hok : ∀ e', stmt.visitSelects env config input ≠ .ok e') :
    ∃ msg, transformSql env config input = .error msg := by
  rw [transformSql_of_parse env config input sql stmt hsql hparse]
  split
  · exact ⟨_, rfl⟩
  · cases hv : stmt.visitSelects env config input with
    | panic => exact absurd hv hpanic
    | ok e' => exact absurd hv (hok e')
    | error err => exact ⟨err, rfl⟩

theorem transformSql_ne_ok_of (env : SqlEnv) (config : TableConfig) (input : ReadMetricsInput)
    (sql : String) (stmt : Expr) (hsql : input.Sql = some sql)
    (hparse : env.parse sql = .ok [stmt])
    (hok : ∀ e', stmt.visitSelects env config input ≠ .ok e') (text : String) :
    transformSql env config input ≠ .ok text := by
  rw [transformSql_of_parse env config input sql stmt hsql hparse]
  split
  · simp
  · cases hv : stmt.visitSelects env config input with
    | panic => simp
    | ok e' => exact absurd hv (hok e')
    | error err => simp

/-- C19: for a single SELECT statement whose FROM target is a JOIN with
a side that is a table identifier naming a resource table, `transformSql`
never returns rewritten SQL, and it returns an error whenever the date range is
set (as `ReadMetrics` sets it before the raw-SQL path). -/
theorem transformSql_join_resource (env : SqlEnv) (config : TableConfig)
    (input : ReadMetricsInput) (sql : String) (items sides : List Expr) (w : Option Expr)
    (rest : List Expr) (hsql : input.Sql = some sql)
    (hparse : env.parse sql = .ok [.selectQuery items (some (.joinExpr sides)) w rest])
    (hside : sides.any isResourceSide = true) :
    (∀ text, transformSql env config input ≠ .ok text)
      ∧ (input.Params.DateRange ≠ none → ∃ msg, transformSql env config input = .error msg) := by
  have hres := anyVisitedList_of_any sides hside
  have hok := visitSelects_join_ne_ok env config input items sides w rest hres
  refine ⟨transformSql_ne_ok_of env config input sql _ hsql hparse hok, fun hdr => ?_⟩
  exact transformSql_error_of env config input sql _ hsql hparse
    (visitSelects_no_panic env config input (Or.inl hdr) _) hok

/-- A JOIN of a custom table with `logs` under the example environment: the
statement is rejected with the message of the resource table check. -/
theorem transformSql_join_resource_witness :
    (sqlInput "SELECT count(*) FROM custom JOIN logs" [1]).Params.DateRange ≠ none
      ∧ transformSql exampleSqlEnv exampleConfig
          (sqlInput "SELECT count(*) FROM custom JOIN logs" [1])
          = .error "Resource tables cannot be used in JOIN expression"
      ∧ ((∀ text, transformSql exampleSqlEnv exampleConfig
            (sqlInput "SELECT count(*) FROM custom JOIN logs" [1]) ≠ .ok text)
          ∧ ((sqlInput "SELECT count(*) FROM custom JOIN logs" [1]).Params.DateRange ≠ none →
              ∃ msg, transformSql exampleSqlEnv exampleConfig
                (sqlInput "SELECT count(*) FROM custom JOIN logs" [1]) = .error msg)) :=
  ⟨by simp [sqlInput, windowInput], by rfl,
    transformSql_join_resource exampleSqlEnv exampleConfig
      (sqlInput "SELECT count(*) FROM custom JOIN logs" [1])
      "SELECT count(*) FROM custom JOIN logs" _ [fromTable "custom", fromTable "logs"] none []
      rfl (by rfl) (by decide)⟩

/-- The rewrite of a SELECT on a resource table yields nothing when the request
does not carry exactly one project id. -/
theorem rewriteResourceSelect_ne_ok (env : SqlEnv) (config : TableConfig)
    (input : ReadMetricsInput) (hlen : input.ProjectIDs.length ≠ 1) (q r : SelectParts) :
    rewriteResourceSelect env config input q ≠ .ok r := by
  unfold rewriteResourceSelect
  simp only
  cases Expr.replaceFunctionsList config _ with
  | error err => simp
  | ok items2 =>
    simp only
    cases Expr.replaceFunctionsOpt config _ with
    | error err => simp
    | ok from2 =>
      simp only
      cases Expr.replaceFunctionsOpt config _ with
      | error err => simp
      | ok where2 =>
        simp only
        cases Expr.replaceFunctionsList config _ with
        | error err => simp
        | ok rest2 => simp [hlen]

/-- The traversal of a SELECT that reads a resource table yields no statement
when the request does not carry exactly one project id. -/
theorem visitSelects_resource_ne_ok (env : SqlEnv) (config : TableConfig)
    (input : ReadMetricsInput) (items : List Expr) (database : Option Ident) (table : Ident)
    (tableAlias w : Option Expr) (rest : List Expr)
    (hres : resourceTables.contains table.Name = true)
    (hlen : input.ProjectIDs.length ≠ 1) (e' : Expr) :
    (Expr.selectQuery items
        (some (.joinTableExpr (some (.tableIdentifier database table)) tableAlias)) w rest).visitSelects
      env config input ≠ .ok e' := by
  intro h
  obtain ⟨items', f', w', rest', q, hf, hv⟩ :=
    visitSelects_selectQuery_ok env config input items _ w rest e' h
  simp only [Expr.visitSelectsOpt, Expr.visitSelects] at hf
  cases ha : Expr.visitSelectsOpt env config input tableAlias with
  | panic => simp [ha] at hf
  | error err => simp [ha] at hf
  | ok a =>
    simp only [ha] at hf
    have hf' : f' = some (.joinTableExpr (some (.tableIdentifier database table)) a) := by
      injection hf with hf
      exact hf.symm
    subst hf'
    simp only [visitSelect, fromResourceTable, hres] at hv
    exact rewriteResourceSelect_ne_ok env config input hlen _ q hv

theorem readMetricsSql_of_error (env : SqlEnv) (config : TableConfig) (input : ReadMetricsInput)
    (msg : String) (h : transformSql env config input = .error msg) :
    readMetricsSql env input config = .error msg := by
  simp only [readMetricsSql, h]

/-- C20 (amended): for a raw-SQL request whose single SELECT reads a
resource table and whose project id list does not hold exactly one id,
`transformSql` returns an error and `readMetricsSql` returns that error. -/
theorem readMetricsSql_resource_project_ids (env : SqlEnv) (config : TableConfig)
    (input : ReadMetricsInput) (sql : String) (items : List Expr) (database : Option Ident)
    (table : Ident) (tableAlias w : Option Expr) (rest : List Expr)
    (hsql : input.Sql = some sql)
    (hparse : env.parse sql = .ok [.selectQuery items
      (some (.joinTableExpr (some (.tableIdentifier database table)) tableAlias)) w rest])
    (hres : resourceTables.contains table.Name = true)
    (hlen : input.ProjectIDs.length ≠ 1) :
    ∃ msg, transformSql env config input = .error msg
      ∧ readMetricsSql env input config = .error msg := by
  obtain ⟨msg, hmsg⟩ := transformSql_error_of env config input sql _ hsql hparse
    (visitSelects_no_panic env config input (Or.inr hlen) _)
    (visitSelects_resource_ne_ok env config input items database table tableAlias w rest
      hres hlen)
  exact ⟨msg, hmsg, readMetricsSql_of_error env config input msg hmsg⟩

/-- A count over `logs` with two project ids under the example environment:
the request is rejected with the message of the project id check. -/
theorem readMetricsSql_resource_project_ids_witness :
    (sqlInput "SELECT count(*) FROM logs" [1, 2]).ProjectIDs.length ≠ 1
      ∧ readMetricsSql exampleSqlEnv (sqlInput "SELECT count(*) FROM logs" [1, 2]) exampleConfig
          = .error "SQL queries must use 1 project id, 2 found"
      ∧ ∃ msg, transformSql exampleSqlEnv exampleConfig
            (sqlInput "SELECT count(*) FROM logs" [1, 2]) = .error msg
          ∧ readMetricsSql exampleSqlEnv (sqlInput "SELECT count(*) FROM logs" [1, 2])
              exampleConfig = .error msg :=
  ⟨by decide, by rfl,
    readMetricsSql_resource_project_ids exampleSqlEnv exampleConfig
      (sqlInput "SELECT count(*) FROM logs" [1, 2]) "SELECT count(*) FROM logs" _ none
      { Name := "logs", QuoteType := 0 } none none [] rfl (by rfl) (by decide) (by decide)⟩

/-- C20 (as stated) fails: the statement `SELECT 1`, which reads no
resource table, sent with two project ids is rewritten and run without an
error. -/
theorem readMetricsSql_two_ids_no_table :
    (sqlInput "SELECT 1" [1, 2]).Sql = some "SELECT 1"
      ∧ (sqlInput "SELECT 1" [1, 2]).ProjectIDs.length = 2
      ∧ transformSql exampleSqlEnv exampleConfig (sqlInput "SELECT 1" [1, 2]) = .ok "SELECT ..."
      ∧ Result.isError (readMetricsSql exampleSqlEnv (sqlInput "SELECT 1" [1, 2]) exampleConfig)
          = false :=
  ⟨rfl, rfl, by rfl, by rfl⟩

/-! ## The WHERE clause of a rewritten SELECT -/

/-- The rewrite of a SELECT on a resource table, for one project id and a set
date range: the error of the function pass, or the rewritten clauses with the
merged WHERE of lines 474-505. -/
theorem rewriteResourceSelect_eq (env : SqlEnv) (config : TableConfig)
    (input : ReadMetricsInput) (p : Int) (dr : DateRangeRequiredInput) (q : SelectParts)
    (hids : input.ProjectIDs = [p]) (hdr : input.Params.DateRange = some dr) :
    rewriteResourceSelect env config input q
      = match rewrittenParts env config input p q with
        | .error err => .error err
        | .ok q4 =>
          .ok { q4 with
                whereExpr := some (match q4.whereExpr with
                  | none => .binaryOperation (projectScopeExpr config p) "AND" (timestampCheck dr)
                  | some c =>
                    .binaryOperation (.paramExprList [c]) "AND"
                      (if c.anyVisited false isTimestampIdent then projectScopeExpr config p
                       else .binaryOperation (projectScopeExpr config p) "AND"
                         (timestampCheck dr))) } := by
  unfold rewriteResourceSelect rewrittenParts
  simp only
  cases Expr.replaceFunctionsList config _ with
  | error err => rfl
  | ok items2 =>
    simp only
    cases Expr.replaceFunctionsOpt config _ with
    | error err => rfl
    | ok from2 =>
      simp only
      cases Expr.replaceFunctionsOpt config _ with
      | error err => rfl
      | ok where2 =>
        simp only
        cases Expr.replaceFunctionsList config _ with
        | error err => rfl
        | ok rest2 =>
          simp only [hids, hdr, List.length_singleton, bne_self_eq_false, Bool.false_eq_true,
            if_false, List.headD_cons, projectScopeExpr]
          split
          · rename_i hw
            simp only [hw]
          · rename_i c hw
            try simp only [hw]
            cases c.anyVisited false isTimestampIdent <;> simp

/-- What a successful traversal of a SELECT went through, clause by clause. -/
theorem visitSelects_selectQuery_parts (env : SqlEnv) (config : TableConfig)
    (input : ReadMetricsInput) (items : List Expr) (f w : Option Expr) (rest : List Expr)
    (e' : Expr)
    (h : (Expr.selectQuery items f w rest).visitSelects env config input = .ok e') :
    ∃ items' f' w' rest' q,
      Expr.visitSelectsList env config input items = .ok items'
        ∧ Expr.visitSelectsOpt env config input f = .ok f'
        ∧ Expr.visitSelectsOpt env config input w = .ok w'
        ∧ Expr.visitSelectsList env config input rest = .ok rest'
        ∧ visitSelect env config input
            { selectItems := items', fromExpr := f', whereExpr := w', rest := rest' } = .ok q
        ∧ e' = q.toExpr := by
  simp only [Expr.visitSelects] at h
  cases hi : Expr.visitSelectsList env config input items with
  | panic => simp [hi] at h
  | error err => simp [hi] at h
  | ok items' =>
    cases hf : Expr.visitSelectsOpt env config input f with
    | panic => simp [hi, hf] at h
    | error err => simp [hi, hf] at h
    | ok f' =>
      cases hw : Expr.visitSelectsOpt env config input w with
      | panic => simp [hi, hf, hw] at h
      | error err => simp [hi, hf, hw] at h
      | ok w' =>
        cases hr : Expr.visitSelectsList env config input rest with
        | panic => simp [hi, hf, hw, hr] at h
        | error err => simp [hi, hf, hw, hr] at h
        | ok rest' =>
          cases hv : visitSelect env config input
              { selectItems := items', fromExpr := f', whereExpr := w', rest := rest' } with
          | panic => simp [hi, hf, hw, hr, hv] at h
          | error err => simp [hi, hf, hw, hr, hv] at h
          | ok q =>
            simp only [hi, hf, hw, hr, hv, Result.ok.injEq] at h
            exact ⟨items', f', w', rest', q, rfl, rfl, rfl, rfl, hv, h.symm⟩

/-- The traversal of a FROM target that is a table identifier keeps the
identifier. -/
theorem visitSelectsOpt_table (env : SqlEnv) (config : TableConfig) (input : ReadMetricsInput)
    (database : Option Ident) (table : Ident) (tableAlias f' : Option Expr)
    (h : Expr.visitSelectsOpt env config input
      (some (.joinTableExpr (some (.tableIdentifier database table)) tableAlias)) = .ok f') :
    ∃ a, f' = some (.joinTableExpr (some (.tableIdentifier database table)) a) := by
  simp only [Expr.visitSelectsOpt, Expr.visitSelects] at h
  cases ha : Expr.visitSelectsOpt env config input tableAlias with
  | panic => simp [ha] at h
  | error err => simp [ha] at h
  | ok a =>
    simp only [ha, Result.ok.injEq] at h
    exact ⟨a, h.symm⟩

/-- C21: for a single SELECT on a resource table with one project id `p` and the
date range `[T0, T1]`, `transformSql` returns an error (the settings check, a
nested SELECT or the function pass rejects the statement) or it prints the
SELECT whose clauses are the rewritten ones and whose WHERE is (a) `C = p AND
(Timestamp >= toDateTime(T0) AND Timestamp <= toDateTime(T1))` when the
rewritten SELECT has no WHERE, (b) `(w) AND (C = p AND (...))` when its WHERE
`w` has no identifier `Timestamp`, (c) `(w) AND C = p` when it has one; `C` is
`ProjectID` for the tables `sessions` and `errors` and `ProjectId` otherwise,
`T0` and `T1` are Unix seconds. -/
theorem transformSql_where (env : SqlEnv) (config : TableConfig) (input : ReadMetricsInput)
    (sql : String) (items : List Expr) (database : Option Ident) (table : Ident)
    (tableAlias w : Option Expr) (rest : List Expr) (p : Int) (dr : DateRangeRequiredInput)
    (hsql : input.Sql = some sql)
    (hparse : env.parse sql = .ok [.selectQuery items
      (some (.joinTableExpr (some (.tableIdentifier database table)) tableAlias)) w rest])
    (hres : resourceTables.contains table.Name = true)
    (hids : input.ProjectIDs = [p]) (hdr : input.Params.DateRange = some dr) :
    (∃ msg, transformSql env config input = .error msg)
    ∨ ∃ items' a w' rest' q4 merged,
        Expr.visitSelectsList env config input items = .ok items'
        ∧ Expr.visitSelectsOpt env config input tableAlias = .ok a
        ∧ Expr.visitSelectsOpt env config input w = .ok w'
        ∧ Expr.visitSelectsList env config input rest = .ok rest'
        ∧ rewrittenParts env config input p
            { selectItems := items'
              fromExpr := some (.joinTableExpr (some (.tableIdentifier database table)) a)
              whereExpr := w', rest := rest' } = .ok q4
        ∧ transformSql env config input
            = .ok (env.render (.selectQuery q4.selectItems q4.fromExpr (some merged) q4.rest))
        ∧ (q4.whereExpr = none →
            merged = .binaryOperation (projectScopeExpr config p) "AND"
              (timeRangeExpr (dr.StartDate.unixNano / 1000000000)
                (dr.EndDate.unixNano / 1000000000)))
        ∧ (∀ c, q4.whereExpr = some c → c.anyVisited false isTimestampIdent = false →
            merged = .binaryOperation (.paramExprList [c]) "AND"
              (.binaryOperation (projectScopeExpr config p) "AND"
                (timeRangeExpr (dr.StartDate.unixNano / 1000000000)
                  (dr.EndDate.unixNano / 1000000000))))
        ∧ (∀ c, q4.whereExpr = some c → c.anyVisited false isTimestampIdent = true →
            merged = .binaryOperation (.paramExprList [c]) "AND" (projectScopeExpr config p)) := by
  rw [transformSql_of_parse env config input sql _ hsql hparse]
  split
  · exact Or.inl ⟨_, rfl⟩
  · have hdr' : input.Params.DateRange ≠ none := by simp [hdr]
    have hpanic := visitSelects_no_panic env config input (Or.inl hdr')
      (.selectQuery items
        (some (.joinTableExpr (some (.tableIdentifier database table)) tableAlias)) w rest)
    cases hv : (Expr.selectQuery items
        (some (.joinTableExpr (some (.tableIdentifier database table)) tableAlias)) w
        rest).visitSelects env config input with
    | panic => exact absurd hv hpanic
    | error err => exact Or.inl ⟨err, rfl⟩
    | ok e' =>
      obtain ⟨items', f', w', rest', q, hi, hf, hw, hr, hq, he⟩ :=
        visitSelects_selectQuery_parts env config input items _ w rest e' hv
      obtain ⟨a, hfa⟩ := visitSelectsOpt_table env config input database table tableAlias f' hf
      subst hfa
      have ha : Expr.visitSelectsOpt env config input tableAlias = .ok a := by
        simp only [Expr.visitSelectsOpt, Expr.visitSelects] at hf
        cases hx : Expr.visitSelectsOpt env config input tableAlias with
        | panic => simp [hx] at hf
        | error err => simp [hx] at hf
        | ok a' =>
          simp only [hx, Result.ok.injEq, Option.some.injEq, Expr.joinTableExpr.injEq,
            true_and] at hf
          rw [hf]
      simp only [visitSelect, fromResourceTable, hres] at hq
      rw [rewriteResourceSelect_eq env config input p dr _ hids hdr] at hq
      cases hq4 : rewrittenParts env config input p
          { selectItems := items'
            fromExpr := some (.joinTableExpr (some (.tableIdentifier database table)) a)
            whereExpr := w', rest := rest' } with
      | error err => simp [hq4] at hq
      | ok q4 =>
        simp only [hq4, Result.ok.injEq] at hq
        subst hq
        subst he
        refine Or.inr ⟨items', a, w', rest', q4, _, hi, ha, hw, hr, hq4, rfl, ?_, ?_, ?_⟩
        · intro hnone
          simp only [hnone]
          rfl
        · intro c hc hts
          simp only [hc, hts, Bool.false_eq_true, if_false]
          rfl
        · intro c hc hts
          simp only [hc, hts, if_true]

/-- The statement `SELECT count(*) FROM logs WHERE level = 'error'` of project
7 over the range `[0, 1800]`: the WHERE becomes `(SeverityText = 'error') AND
(ProjectId = 7 AND (Timestamp >= toDateTime(0) AND Timestamp <= toDateTime(1800)))`,
and with `timestamp = 'x'` it becomes `(Timestamp = 'x') AND ProjectId = 7`. -/
theorem transformSql_where_witness :
    ((visitSelect whereSqlEnv exampleConfig (sqlInput "" [7])
        { selectItems := [], fromExpr := some (fromTable "logs"),
          whereExpr := some (columnEquals "level" "error"), rest := [] }).value?.map
        (fun q => q.whereExpr)
      = some (some (.binaryOperation (.paramExprList [columnEquals "SeverityText" "error"]) "AND"
          (.binaryOperation
            (.binaryOperation (.ident { Name := "ProjectId", QuoteType := 0 }) "="
              (.numberLiteral "7"))
            "AND" (timeRangeExpr 0 1800)))))
    ∧ ((visitSelect whereSqlEnv exampleConfig (sqlInput "" [7])
        { selectItems := [], fromExpr := some (fromTable "logs"),
          whereExpr := some (columnEquals "timestamp" "x"), rest := [] }).value?.map
        (fun q => q.whereExpr)
      = some (some (.binaryOperation (.paramExprList [columnEquals "Timestamp" "x"]) "AND"
          (.binaryOperation (.ident { Name := "ProjectId", QuoteType := 0 }) "="
            (.numberLiteral "7")))))
    ∧ transformSql whereSqlEnv exampleConfig
        (sqlInput "SELECT count(*) FROM logs WHERE SeverityText = 'error'" [7])
        = .ok "SELECT ..."
    ∧ ((∃ msg, transformSql whereSqlEnv exampleConfig
          (sqlInput "SELECT count(*) FROM logs WHERE SeverityText = 'error'" [7]) = .error msg)
      ∨ ∃ (q4 : SelectParts) (merged : Expr), transformSql whereSqlEnv exampleConfig
          (sqlInput "SELECT count(*) FROM logs WHERE SeverityText = 'error'" [7])
          = .ok (whereSqlEnv.render
              (.selectQuery q4.selectItems q4.fromExpr (some merged) q4.rest))) :=
  ⟨rfl, rfl, rfl,
    (transformSql_where whereSqlEnv exampleConfig
      (sqlInput "SELECT count(*) FROM logs WHERE SeverityText = 'error'" [7])
      "SELECT count(*) FROM logs WHERE SeverityText = 'error'"
      [.selectItem (.functionExpr (some { Name := "count", QuoteType := 0 })
        (some [.columnExpr (.ident { Name := "*", QuoteType := 0 })])) none] none
      { Name := "logs", QuoteType := 0 } none (some (columnEquals "SeverityText" "error")) [] 7
      { StartDate := { unixNano := 0 }, EndDate := { unixNano := 1800000000000 } }
      rfl (by rfl) (by decide) rfl rfl).imp id
      (fun ⟨_, _, _, _, q4, merged, _, _, _, _, _, h, _⟩ => ⟨q4, merged, h⟩)⟩

/-! ## The decode loop of `readMetricsSql` -/

theorem lookup_setResult (idx : Nat) (value : Option ℚ) (results : List (Nat × Option ℚ)) :
    (setResult idx value results).lookup idx = some value := by
  induction results with
  | nil => simp [setResult, List.lookup]
  | cons entry rest ih =>
    obtain ⟨k, v⟩ := entry
    unfold setResult
    by_cases h1 : idx < k
    · simp [h1, List.lookup]
    · by_cases h2 : idx = k
      · subst h2
        simp [List.lookup]
      · have h3 : (idx == k) = false := by simp [h2]
        simp only [h1, h2, if_false, List.lookup, h3]
        exact ih

/-- C22 (the code at the failing input): for the column `v_series` and the rows
`"2"` and `"abc"`, the row `"abc"`, which does not parse as a float, gets a
bucket with the metric value 2 of the row before: the map `results` is made
once before the loop over the rows (line 1573), so the entry of an earlier row
stays. The row `"abc"` alone gets no bucket. -/
theorem decodeSqlRows_stale_series :
    (decodeSqlRows seriesSqlEnv ["v_series"] []
        [[scanned (.string "2")], [scanned (.string "abc")]]).map MetricBucket.shown
      = [([], "v", some 2), ([], "v", some 2)]
    ∧ (decodeSqlRows seriesSqlEnv ["v_series"] [] [[scanned (.string "abc")]]).map
        MetricBucket.shown = []
    ∧ (readMetricsSql seriesSqlEnv (sqlInput "SELECT 1" [1]) exampleConfig).value?.map
        (fun r => r.map (fun m => m.Buckets.map MetricBucket.shown))
      = some (some [([], "v", some 2), ([], "v", some 2)]) := by
  refine ⟨?_, ?_, ?_⟩ <;> rfl

/-- C23 (amended): for a column whose name ends with neither the group suffix
nor the series suffix, a number (float, signed or unsigned integer) is decoded
as a value column: its float value is the metric value recorded for the column
and the group tuple of the row is left as it is; a string or a boolean is
appended to the group tuple (the string itself, `true` or `false`) and no
metric value is recorded for it. -/
theorem scanColumn_plain_column (env : SqlEnv) (st : SqlScan) (idx : Nat) (columnName : String)
    (r : SqlValue) (hseries : hasSuffix columnName seriesSuffix = false)
    (hgroup : hasSuffix columnName groupSuffix = false) :
    (∀ x, r.unwrap = .float x →
      (scanColumn env st idx columnName r).results.lookup idx = some (some x)
        ∧ (scanColumn env st idx columnName r).groups = st.groups)
    ∧ (∀ n, r.unwrap = .int n →
      (scanColumn env st idx columnName r).results.lookup idx = some (some (n : ℚ))
        ∧ (scanColumn env st idx columnName r).groups = st.groups)
    ∧ (∀ n, r.unwrap = .uint n →
      (scanColumn env st idx columnName r).results.lookup idx = some (some (n : ℚ))
        ∧ (scanColumn env st idx columnName r).groups = st.groups)
    ∧ (∀ s, r.unwrap = .string s →
      (scanColumn env st idx columnName r).results = st.results
        ∧ (scanColumn env st idx columnName r).groups = st.groups ++ [s])
    ∧ (∀ b, r.unwrap = .bool b →
      (scanColumn env st idx columnName r).results = st.results
        ∧ (scanColumn env st idx columnName r).groups
            = st.groups ++ [if b then "true" else "false"]) := by
  refine ⟨?_, ?_, ?_, ?_, ?_⟩
  · intro x h
    simp only [scanColumn, h, hgroup, Bool.false_eq_true, if_false, lookup_setResult, and_self]
  · intro n h
    simp only [scanColumn, h, hgroup, Bool.false_eq_true, if_false, lookup_setResult, and_self]
  · intro n h
    simp only [scanColumn, h, hgroup, Bool.false_eq_true, if_false, lookup_setResult, and_self]
  · intro s h
    simp only [scanColumn, h, hseries, Bool.false_eq_true, if_false, and_self]
  · intro b h
    simp only [scanColumn, h, hseries, Bool.false_eq_true, if_false, and_self]

/-- The columns `name`, `ok` and `n` holding `"2"`, `true` and 4: the number is
the metric value of the only bucket, the string and the boolean are its
group. -/
theorem scanColumn_plain_column_witness :
    ((scanColumn seriesSqlEnv { results := [], bucketId := 0, bucketValue := none, groups := [] }
        2 "n" (scanned (.int 4))).results.lookup 2 = some (some ((4 : Int) : ℚ))
      ∧ (scanColumn seriesSqlEnv
          { results := [], bucketId := 0, bucketValue := none, groups := [] }
          2 "n" (scanned (.int 4))).groups = [])
    ∧ (decodeSqlRows seriesSqlEnv ["name", "ok", "n"] []
        [[scanned (.string "2"), scanned (.bool true), scanned (.int 4)]]).map
          MetricBucket.shown = [(["2", "true"], "n", some 4)] :=
  ⟨(scanColumn_plain_column seriesSqlEnv
      { results := [], bucketId := 0, bucketValue := none, groups := [] } 2 "n"
      (scanned (.int 4)) (by decide) (by decide)).2.1 4 rfl, by rfl⟩

/-- C23 (as stated) fails: the column `name`, which has neither suffix, holds
the string `"2"`, which parses as a float; the row gets no bucket with a metric
value for it, and `"2"` is in the group tuple of the bucket of the column `n`.
The same holds for the boolean of the column `ok`. -/
theorem decodeSqlRows_plain_string_group :
    hasSuffix "name" seriesSuffix = false ∧ hasSuffix "name" groupSuffix = false
    ∧ seriesSqlEnv.parseFloat "2" = some 2
    ∧ (decodeSqlRows seriesSqlEnv ["name"] [] [[scanned (.string "2")]]).map
        MetricBucket.shown = []
    ∧ (decodeSqlRows seriesSqlEnv ["name", "n"] []
        [[scanned (.string "2"), scanned (.int 4)]]).map MetricBucket.shown
      = [(["2"], "n", some 4)]
    ∧ (decodeSqlRows seriesSqlEnv ["ok", "n"] []
        [[scanned (.bool true), scanned (.int 4)]]).map MetricBucket.shown
      = [(["true"], "n", some 4)] := by
  refine ⟨by decide, by decide, rfl, ?_, ?_, ?_⟩ <;> rfl

/-- C28 (the code at the failing input): for the columns `host_group` and `n`,
the row with a NULL `host_group` and `n = 4` gets an empty group tuple and a
bucket of its own for the column `host` with a nil value, where the row with
`host_group = "a"` gets the group tuple `["a"]` and the bucket of `n` only: the
pointer case (line 1646) does not look at the group suffix as the other cases
do. -/
theorem decodeSqlRows_null_group :
    (decodeSqlRows seriesSqlEnv ["host_group", "n"] []
        [[scanned (.pointer none), scanned (.int 4)]]).map MetricBucket.shown
      = [([], "host", none), ([], "n", some 4)]
    ∧ (decodeSqlRows seriesSqlEnv ["host_group", "n"] []
        [[scanned (.pointer (some (.string "a"))), scanned (.int 4)]]).map MetricBucket.shown
      = [(["a"], "n", some 4)]
    ∧ (decodeSqlRows seriesSqlEnv ["host_group", "n"] []
        [[scanned (.pointer (some (.string "a"))), scanned (.int 4)],
         [scanned (.pointer none), scanned (.int 5)]]).map (fun b => b.Group.length)
      = [1, 0, 0] := by
  refine ⟨?_, ?_, ?_⟩ <;> rfl

/-! ## The metric input expressions -/

/-- C24 (amended): the metric input expression of an aggregator expression is
the constant `1.0` when the aggregator is `Count`, and when the column is empty
and the aggregator is not `CountDistinctKey`; for a non-empty column it is the
attribute lookup of the trace-key attribute when the aggregator is
`CountDistinctKey`, the resolved column itself, without a cast, when the
aggregator is `CountDistinct`, and otherwise `toFloat64` of the known column,
else the configured metric column of the table when there is one, else
`toFloat64OrNull` of the attribute lookup. -/
theorem metricInput_expr (fromSb : SelectBuilder) (input : ReadMetricsInput)
    (config : TableConfig) (traceKeyAttribute : String) (e : MetricExpressionInput) :
    (e.Aggregator = MetricAggregatorCount →
      (metricInput fromSb input config traceKeyAttribute e).metricExpr = "1.0")
    ∧ (e.Column = "" → e.Aggregator ≠ MetricAggregatorCountDistinctKey →
      (metricInput fromSb input config traceKeyAttribute e).metricExpr = "1.0")
    ∧ (e.Column ≠ "" → e.Aggregator = MetricAggregatorCountDistinctKey →
      ∃ sb, (metricInput fromSb input config traceKeyAttribute e).metricExpr
        = attributeLookup sb input traceKeyAttribute)
    ∧ (e.Column ≠ "" → e.Aggregator = MetricAggregatorCountDistinct →
      (∀ known, config.KeysToColumns.lookup (toLower e.Column) = some known → known ≠ "" →
        (metricInput fromSb input config traceKeyAttribute e).metricExpr = known)
      ∧ (config.KeysToColumns.lookup (toLower e.Column) = none →
        (metricInput fromSb input config traceKeyAttribute e).metricExpr
          = attributeLookup fromSb input e.Column))
    ∧ (e.Column ≠ "" → e.Aggregator ≠ MetricAggregatorCount →
      e.Aggregator ≠ MetricAggregatorCountDistinct →
      e.Aggregator ≠ MetricAggregatorCountDistinctKey →
      (∀ known, config.KeysToColumns.lookup (toLower e.Column) = some known →
        (metricInput fromSb input config traceKeyAttribute e).metricExpr
          = "toFloat64(" ++ known ++ ")")
      ∧ (∀ metricColumn, config.KeysToColumns.lookup (toLower e.Column) = none →
        input.SampleableConfig.tableConfig.MetricColumn = some metricColumn →
        (metricInput fromSb input config traceKeyAttribute e).metricExpr = metricColumn)
      ∧ (config.KeysToColumns.lookup (toLower e.Column) = none →
        input.SampleableConfig.tableConfig.MetricColumn = none →
        (metricInput fromSb input config traceKeyAttribute e).metricExpr
          = "toFloat64OrNull(" ++ attributeLookup fromSb input e.Column ++ ")")) := by
  refine ⟨?_, ?_, ?_, ?_, ?_⟩
  · intro h
    simp [metricInput, h]
  · intro h _
    simp [metricInput, h]
  · intro hcol hagg
    have hne : e.Aggregator ≠ MetricAggregatorCount := by
      rw [hagg]; decide
    simp only [metricInput, hagg, hne, hcol, if_true, false_or, Bool.false_eq_true, if_false,
      decide_False, Bool.or_self, decide_eq_true_eq, attributeLookup]
    exact ⟨_, rfl⟩
  · intro hcol hagg
    have hne : e.Aggregator ≠ MetricAggregatorCount := by
      rw [hagg]; decide
    have c1 : MetricAggregatorCountDistinct ≠ MetricAggregatorCount := by decide
    have c2 : MetricAggregatorCountDistinct ≠ MetricAggregatorCountDistinctKey := by decide
    constructor
    · intro known hk hknown
      simp [metricInput, hagg, c1, c2, hcol, hk, hknown]
    · intro hk
      simp [metricInput, hagg, c1, c2, hcol, hk, attributeLookup]
  · intro hcol h1 h2 h3
    refine ⟨?_, ?_, ?_⟩
    · intro known hk
      simp [metricInput, h1, h2, h3, hcol, hk]
    · intro metricColumn hk hm
      simp [metricInput, h1, h2, h3, hcol, hk, hm]
    · intro hk hm
      simp [metricInput, h1, h2, h3, hcol, hk, hm, attributeLookup]

/-- C24 (as stated) fails: for the aggregator `CountDistinct` on the known key
`level` the metric input expression is the column `SeverityText` itself, not a
float cast of it; and for `CountDistinctKey` with the empty column it is the
constant `1.0`, not the attribute lookup of the trace key. -/
theorem metricInput_count_distinct :
    (metricInput { args := [] } (windowInput 60) exampleConfig "trace_key"
        { Aggregator := "CountDistinct", Column := "level" }).metricExpr = "SeverityText"
    ∧ (metricInput { args := [] } (windowInput 60) exampleConfig "trace_key"
        { Aggregator := "Sum", Column := "level" }).metricExpr = "toFloat64(SeverityText)"
    ∧ (metricInput { args := [] } (windowInput 60) exampleConfig "trace_key"
        { Aggregator := "CountDistinctKey", Column := "" }).metricExpr = "1.0"
    ∧ (metricInput { args := [] } (windowInput 60) exampleConfig "trace_key"
        { Aggregator := "CountDistinctKey", Column := "level" }).metricExpr
      = "LogAttributes[$0]" := by
  decide

/-! ## The three windows around a cursor -/

/-- A row is before the cursor, on it or after it, and only one of these. -/
theorem cursor_trichotomy (row : PageRow) (timestamp : Time) (uuid : String) :
    ExactlyOne (cursorLess row timestamp uuid)
      (row.Timestamp = timestamp ∧ row.UUID = uuid) (cursorGreater row timestamp uuid) := by
  simp only [ExactlyOne, cursorLess, cursorGreater, Time.ext_iff']
  rcases lt_trichotomy row.Timestamp.unixNano timestamp.unixNano with h | h | h
  · refine ⟨Or.inl (Or.inl h), ?_, ?_, ?_⟩ <;> intro hx <;> omega
  · rcases lt_trichotomy row.UUID uuid with hu | hu | hu
    · refine ⟨Or.inl (Or.inr ⟨h, hu⟩), ?_, ?_, ?_⟩
      · rintro ⟨_, _, h2⟩
        exact absurd (h2 ▸ hu) (lt_irrefl _)
      · rintro ⟨_, h2 | ⟨_, h2⟩⟩
        · omega
        · exact absurd hu (lt_asymm h2)
      · rintro ⟨⟨_, h2⟩, _⟩
        exact absurd (h2 ▸ hu) (lt_irrefl _)
    · refine ⟨Or.inr (Or.inl ⟨h, hu⟩), ?_, ?_, ?_⟩
      · rintro ⟨h2 | ⟨_, h2⟩, _⟩
        · omega
        · exact absurd (hu ▸ h2) (lt_irrefl _)
      · rintro ⟨h2 | ⟨_, h2⟩, _⟩
        · omega
        · exact absurd (hu ▸ h2) (lt_irrefl _)
      · rintro ⟨_, h2 | ⟨_, h2⟩⟩
        · omega
        · exact absurd (hu ▸ h2) (lt_irrefl _)
    · refine ⟨Or.inr (Or.inr (Or.inr ⟨h, hu⟩)), ?_, ?_, ?_⟩
      · rintro ⟨_, _, h2⟩
        exact absurd (h2 ▸ hu) (lt_irrefl _)
      · rintro ⟨h2 | ⟨_, h2⟩, _⟩
        · omega
        · exact absurd hu (lt_asymm h2)
      · rintro ⟨⟨_, h2⟩, _⟩
        exact absurd (h2 ▸ hu) (lt_irrefl _)
  · refine ⟨Or.inr (Or.inr (Or.inl h)), ?_, ?_, ?_⟩ <;> intro hx <;> omega

/-- The two equalities of the `At` cursor hold for a row iff the row is the
cursor. -/
theorem exactWindow_eval (search : String → PageRow → Bool) (row : PageRow) (timestamp : Time)
    (uuid : String) :
    holdsAll search row [.cmp .eq "Timestamp" (.time timestamp), .cmp .eq "UUID" (.text uuid)]
      ↔ row.Timestamp = timestamp ∧ row.UUID = uuid := by
  simp only [holdsAll, List.mem_cons, List.mem_singleton, forall_eq_or_imp, forall_eq,
    Cond.eval, CmpOp.onInt, CmpOp.onString, List.not_mem_nil, Time.ext_iff',
    decide_True, Bool.true_and, decide_eq_true_eq, false_imp_iff, implies_true, and_true]

theorem exactlyOne_congr {a b c a' b' c' : Prop} (ha : a ↔ a') (hb : b ↔ b') (hc : c ↔ c')
    (h : ExactlyOne a' b' c') : ExactlyOne a b c := by
  unfold ExactlyOne at *
  rw [ha, hb, hc]
  exact h

theorem exactlyOne_swap {a b c : Prop} (h : ExactlyOne a b c) : ExactlyOne c b a := by
  unfold ExactlyOne at *
  tauto

/-- The windows before and after a cursor and the cursor itself split the rows
of the date range, for every pagination direction. -/
theorem windows_exactlyOne (search : String → PageRow → Bool) (row : PageRow) (timestamp : Time)
    (uuid : String) (dr : DateRangeRequiredInput)
    (hstart : dr.StartDate.unixNano ≤ row.Timestamp.unixNano)
    (hend : row.Timestamp.unixNano ≤ dr.EndDate.unixNano) :
    ExactlyOne (holdsAll search row (descendingWindow timestamp uuid dr))
      (holdsAll search row
        [.cmp .eq "Timestamp" (.time timestamp), .cmp .eq "UUID" (.text uuid)])
      (holdsAll search row (ascendingWindow timestamp uuid dr)) := by
  refine exactlyOne_congr ?_ (exactWindow_eval search row timestamp uuid) ?_
    (cursor_trichotomy row timestamp uuid)
  · rw [holdsAll, descendingWindow_eval]
    simp [hstart]
  · rw [holdsAll, ascendingWindow_eval]
    simp [hend]

/-- What `makeSelectBuilder` returns for a decoded cursor in `Before`, in `At`
and in `After`. -/
theorem makeSelectBuilder_windows (env : PageEnv) (config : TableConfig)
    (selectCols : List String) (projectIDs : List Int) (params : QueryInput)
    (d : SortDirection) (dr : DateRangeRequiredInput) (s : String) (timestamp : Time)
    (uuid : String) (hdr : params.DateRange = some dr) (hlen : 1 < s.utf8ByteSize)
    (hdec : env.decodeCursor s = .ok (timestamp, uuid)) :
    (∃ sb filters,
      makeSelectBuilder env config selectCols projectIDs params
        { Before := some s, Direction := d } = .ok (sb, filters)
      ∧ sb.whereExprs = projectScope projectIDs ::
          (if d = .Asc then descendingWindow timestamp uuid dr
           else ascendingWindow timestamp uuid dr)
          ++ (env.assignSearchFilters params.Query config).1)
    ∧ (∃ sb filters,
      makeSelectBuilder env config selectCols projectIDs params
        { At := some s, Direction := d } = .ok (sb, filters)
      ∧ sb.whereExprs = projectScope projectIDs ::
          [.cmp .eq "Timestamp" (.time timestamp), .cmp .eq "UUID" (.text uuid)]
          ++ (env.assignSearchFilters params.Query config).1
      ∧ sb.limit = none)
    ∧ (∃ sb filters,
      makeSelectBuilder env config selectCols projectIDs params
        { After := some s, Direction := d } = .ok (sb, filters)
      ∧ sb.whereExprs = projectScope projectIDs ::
          (if d = .Asc then ascendingWindow timestamp uuid dr
           else descendingWindow timestamp uuid dr)
          ++ (env.assignSearchFilters params.Query config).1) := by
  have husable : usableCursor (some s) = some s := by
    simp [usableCursor, hlen]
  have hnone : usableCursor (none : Option String) = none := rfl
  refine ⟨?_, ?_, ?_⟩
  · unfold makeSelectBuilder cursorWindow
    simp only [husable, hnone, hdec, hdr]
    by_cases hd : d = .Asc
    · simp only [hd, if_true]
      exact ⟨_, _, rfl, rfl⟩
    · simp only [hd, if_false]
      exact ⟨_, _, rfl, rfl⟩
  · unfold makeSelectBuilder cursorWindow
    simp only [husable, hnone, hdec]
    exact ⟨_, _, rfl, rfl, rfl⟩
  · unfold makeSelectBuilder cursorWindow
    simp only [husable, hdec, hdr]
    by_cases hd : d = .Asc
    · simp only [hd, if_true]
      exact ⟨_, _, rfl, rfl⟩
    · simp only [hd, if_false]
      exact ⟨_, _, rfl, rfl⟩

theorem holdsAll_where (search : String → PageRow → Bool) (row : PageRow) (p : Cond)
    (conds found : List Cond) :
    holdsAll search row (p :: conds ++ found)
      ↔ holdsAll search row (p :: found) ∧ holdsAll search row conds := by
  simp only [holdsAll, List.cons_append, List.mem_cons, List.mem_append]
  constructor
  · intro h
    exact ⟨fun c hc => h c (hc.imp id Or.inr), fun c hc => h c (Or.inr (Or.inl hc))⟩
  · rintro ⟨h1, h2⟩ c (hc | hc | hc)
    · exact h1 c (Or.inl hc)
    · exact h2 c hc
    · exact h1 c (Or.inr hc)

/-- C26 (amended): for every cursor `(T, U)`, pagination direction, date range
`[start, end]` and row `(t, u)` with `start ≤ t ≤ end`: `makeSelectBuilder`
returns a builder for `Before = cursor`, for `At = cursor` and for `After =
cursor`, whose WHERE expressions are the project scope, the cursor predicates
and the search filters, and the row satisfies exactly one of the three sets of
cursor predicates; the three sub-queries that `readObjects` unions for an `At`
cursor carry these WHERE expressions, so no row satisfies the WHERE of two of
them and a row of the date range in the project scope that matches the search
filters satisfies the WHERE of one; the before and the after sub-query are
limited to `limit/2 + 1` rows, the exact one is not limited. -/
theorem makeSelectBuilder_cursor_partition (env : PageEnv) (logsLimit : Int)
    (config samplingConfig : TableConfig) (selectCols : List String) (projectIDs : List Int)
    (projectID : Int) (params : QueryInput) (pagination : Pagination) (d : SortDirection)
    (dr : DateRangeRequiredInput) (s : String) (timestamp : Time) (uuid : String)
    (search : String → PageRow → Bool) (row : PageRow)
    (hdr : params.DateRange = some dr) (hlen : 1 < s.utf8ByteSize)
    (hdec : env.decodeCursor s = .ok (timestamp, uuid))
    (hstart : dr.StartDate.unixNano ≤ row.Timestamp.unixNano)
    (hend : row.Timestamp.unixNano ≤ dr.EndDate.unixNano) :
    (∃ before exact after fb fe fa cb ce ca,
      makeSelectBuilder env config selectCols projectIDs params
          { Before := some s, Direction := d } = .ok (before, fb)
      ∧ makeSelectBuilder env config selectCols projectIDs params
          { At := some s, Direction := d } = .ok (exact, fe)
      ∧ makeSelectBuilder env config selectCols projectIDs params
          { After := some s, Direction := d } = .ok (after, fa)
      ∧ before.whereExprs
          = projectScope projectIDs :: cb ++ (env.assignSearchFilters params.Query config).1
      ∧ exact.whereExprs
          = projectScope projectIDs :: ce ++ (env.assignSearchFilters params.Query config).1
      ∧ after.whereExprs
          = projectScope projectIDs :: ca ++ (env.assignSearchFilters params.Query config).1
      ∧ ExactlyOne (holdsAll search row cb) (holdsAll search row ce) (holdsAll search row ca))
    ∧ (pagination.At = some s →
      ∃ q before exact after,
        readObjectsQuery env logsLimit config samplingConfig projectID params pagination = .ok q
        ∧ q.subQueries = [before, exact, after]
        ∧ ¬ (holdsAll search row before.whereExprs ∧ holdsAll search row exact.whereExprs)
        ∧ ¬ (holdsAll search row before.whereExprs ∧ holdsAll search row after.whereExprs)
        ∧ ¬ (holdsAll search row exact.whereExprs ∧ holdsAll search row after.whereExprs)
        ∧ (holdsAll search row (projectScope [projectID] ::
              (env.assignSearchFilters params.Query
                (if useSamplingTable params then samplingConfig else config)).1) →
            ExactlyOne (holdsAll search row before.whereExprs)
              (holdsAll search row exact.whereExprs) (holdsAll search row after.whereExprs))
        ∧ before.limit = some (Int.tdiv (pagination.Limit.getD logsLimit) 2 + 1)
        ∧ exact.limit = none
        ∧ after.limit = some (Int.tdiv (pagination.Limit.getD logsLimit) 2 + 1)) := by
  have hsplit := windows_exactlyOne search row timestamp uuid dr hstart hend
  constructor
  · obtain ⟨⟨sb1, f1, h1, w1⟩, ⟨sb2, f2, h2, w2, l2⟩, ⟨sb3, f3, h3, w3⟩⟩ :=
      makeSelectBuilder_windows env config selectCols projectIDs params d dr s timestamp uuid
        hdr hlen hdec
    refine ⟨sb1, sb2, sb3, f1, f2, f3, _, _, _, h1, h2, h3, w1, w2, w3, ?_⟩
    by_cases hd : d = .Asc
    · simp only [hd, if_true]
      exact hsplit
    · simp only [hd, if_false]
      exact exactlyOne_swap hsplit
  · intro hat
    have husable : usableCursor (some s) = some s := by
      simp [usableCursor, hlen]
    obtain ⟨⟨sb1, f1, h1, w1⟩, ⟨sb2, f2, h2, w2, l2⟩, ⟨sb3, f3, h3, w3⟩⟩ :=
      makeSelectBuilder_windows env (if useSamplingTable params then samplingConfig else config)
        ["Timestamp", "UUID"] [projectID] params .unset dr s timestamp uuid hdr hlen hdec
    simp only [reduceCtorEq, if_false] at w1 w3
    have hone := exactlyOne_swap hsplit
    have hlimit : (match pagination.Limit with
        | some l => l
        | none => logsLimit) = pagination.Limit.getD logsLimit := by
      cases pagination.Limit <;> rfl
    unfold readObjectsQuery
    simp only [hat, husable]
    simp only [h1, h2, h3, hlimit]
    refine ⟨_, _, _, _, rfl, rfl, ?_, ?_, ?_, ?_, rfl, l2, rfl⟩
    · simp only [w1, w2, holdsAll_where]
      rintro ⟨⟨_, ha⟩, ⟨_, hb⟩⟩
      exact hone.2.1 ⟨ha, hb⟩
    · simp only [w1, w3, holdsAll_where]
      rintro ⟨⟨_, ha⟩, ⟨_, hb⟩⟩
      exact hone.2.2.1 ⟨ha, hb⟩
    · simp only [w2, w3, holdsAll_where]
      rintro ⟨⟨_, ha⟩, ⟨_, hb⟩⟩
      exact hone.2.2.2 ⟨ha, hb⟩
    · intro hscope
      simp only [w1, w2, w3, holdsAll_where]
      refine exactlyOne_congr ?_ ?_ ?_ hone <;> exact ⟨fun h => h.2, fun h => ⟨hscope, h⟩⟩

/-- The cursor `(100 s, "abc")` in the range `[0 s, 1800 s]`, the row
`(100 s, "abd")` and the page limit 5: the row satisfies the WHERE of exactly
one of the three sub-queries of `readObjects`, and the windows are limited to
3 rows. -/
theorem makeSelectBuilder_cursor_partition_witness :
    ∃ q before exact after,
      readObjectsQuery examplePageEnv 50 exampleConfig exampleConfig 1 (exampleParams none)
        { At := some "100,abc", Limit := some 5 } = .ok q
      ∧ q.subQueries = [before, exact, after]
      ∧ ExactlyOne
          (holdsAll (fun _ _ => true)
            { ProjectId := 1, Timestamp := { unixNano := 100000000000 }, UUID := "abd" }
            before.whereExprs)
          (holdsAll (fun _ _ => true)
            { ProjectId := 1, Timestamp := { unixNano := 100000000000 }, UUID := "abd" }
            exact.whereExprs)
          (holdsAll (fun _ _ => true)
            { ProjectId := 1, Timestamp := { unixNano := 100000000000 }, UUID := "abd" }
            after.whereExprs)
      ∧ before.limit = some 3 ∧ exact.limit = none ∧ after.limit = some 3 := by
  obtain ⟨q, before, exact, after, h1, h2, _, _, _, h3, h4, h5, h6⟩ :=
    (makeSelectBuilder_cursor_partition examplePageEnv 50 exampleConfig exampleConfig
      ["Timestamp", "UUID"] [1] 1 (exampleParams none) { At := some "100,abc", Limit := some 5 }
      .unset { StartDate := { unixNano := 0 }, EndDate := { unixNano := 1800000000000 } }
      "100,abc" { unixNano := 100000000000 } "abc" (fun _ _ => true)
      { ProjectId := 1, Timestamp := { unixNano := 100000000000 }, UUID := "abd" }
      rfl (by decide) rfl (by decide) (by decide)).2 rfl
  refine ⟨q, before, exact, after, h1, h2, h3 ?_, h4, h5, h6⟩
  intro c hc
  simp only [examplePageEnv, exampleParams, List.mem_cons, List.mem_singleton,
    List.not_mem_nil, or_false] at hc
  subst hc
  decide

/-- C26 (as stated) fails: around the cursor `(100 s, "abc")` with the page limit
1, the rows `(200 s, "a")` and `(300 s, "b")` of the date range `[0 s, 1800 s]`
both satisfy the WHERE of the first sub-query of `readObjects` and of no other,
and that sub-query is limited to 1 row: a result of at most one row leaves one
of them out, so the three sub-queries do not cover the date range. -/
theorem readObjects_windows_limited :
    (readObjectsQuery examplePageEnv 50 exampleConfig exampleConfig 1 (exampleParams none)
        { At := some "100,abc", Limit := some 1 }).value?.map
      (fun q => q.subQueries.map (fun b =>
        (b.limit,
         b.whereExprs.all (fun c => c.eval (fun _ _ => true)
           { ProjectId := 1, Timestamp := { unixNano := 200000000000 }, UUID := "a" }),
         b.whereExprs.all (fun c => c.eval (fun _ _ => true)
           { ProjectId := 1, Timestamp := { unixNano := 300000000000 }, UUID := "b" }))))
      = some [(some 1, true, true), (none, false, false), (some 1, false, false)]
    ∧ ¬ ∃ result : List PageRow, result.length ≤ 1
        ∧ { ProjectId := 1, Timestamp := { unixNano := 200000000000 }, UUID := "a" } ∈ result
        ∧ { ProjectId := 1, Timestamp := { unixNano := 300000000000 }, UUID := "b" } ∈ result := by
  refine ⟨by decide, ?_⟩
  rintro ⟨result, hlen, h1, h2⟩
  match result, hlen, h1, h2 with
  | [], _, h1, _ => simp at h1
  | [r], _, h1, h2 =>
    simp only [List.mem_singleton] at h1 h2
    rw [← h1] at h2
    exact absurd h2 (by decide)
  | _ :: _ :: _, hlen, _, _ => simp at hlen

/-! ## Filter lists and slice attributes -/

/-- C25 (the code at the failing input): on a row with the severity `info`, the
list `[NOT[level = error], level = warn]` matches, although its second filter
alone does not: the NOT case (line 1249) returns the result of the node, so the
filters after it are not evaluated; with the two filters swapped the list does
not match. -/
theorem matchesQuery_not_early_return :
    matchesQuery goRegexp (severityRow "info") plainConfig
        [notOf (equalsFilter "level" ["error"]), equalsFilter "level" ["warn"]] .And = some true
    ∧ matchesQuery goRegexp (severityRow "info") plainConfig
        [notOf (equalsFilter "level" ["error"])] .And = some true
    ∧ matchesQuery goRegexp (severityRow "info") plainConfig
        [equalsFilter "level" ["warn"]] .And = some false
    ∧ matchesQuery goRegexp (severityRow "info") plainConfig
        [equalsFilter "level" ["warn"], notOf (equalsFilter "level" ["error"])] .And
      = some false := by
  decide

/-- C29 (the code at the failing input): with the attributes slice holding an
entry of type `session`, the key `session`, which has no underscore, makes
`matchFilter` panic: `fieldParts` has one part and line 1192 reads
`fieldParts[1]` once the type of an entry equals `fieldParts[0]`.  The key
`session_x` resolves to the value `1`, and the key `track`, whose type no entry
has, leaves the row value empty. -/
theorem matchFilter_slice_key_panics :
    matchFilter goRegexp fieldsRow fieldsConfig (equalsFilter "session" ["1"]) = none
    ∧ matchFilter goRegexp fieldsRow fieldsConfig (equalsFilter "session_x" ["1"])
      = some (true, none)
    ∧ resolveRowValue fieldsRow fieldsConfig "track" = some (some "")
    ∧ matchFilter goRegexp fieldsRow fieldsConfig (equalsFilter "track" ["1"])
      = some (false, none) := by
  decide

/-! ## The bucket count of the metric history -/

/-- C27 (the code at the failing inputs): for a request with a saved metric
state, `saveMetricHistory` divides by 1 where `getBucketing` computed 48 buckets
(no `BucketCount`), by 500 where it computed 240 (the cap `MaxBuckets`), and
by 1 where it computed 30 (a `BucketWindow` of 60 s over 1800 s); the two agree
for a `BucketCount` of 10 without a window. -/
theorem saveMetricHistory_bucket_count :
    (historyBucketCount (savedInput none none) = 1
      ∧ (getBucketing exampleConfig (savedInput none none) { args := [] }).map
          (fun b => b.info.BucketCount) = some 48)
    ∧ (historyBucketCount (savedInput (some 500) none) = 500
      ∧ (getBucketing exampleConfig (savedInput (some 500) none) { args := [] }).map
          (fun b => b.info.BucketCount) = some 240)
    ∧ (historyBucketCount (savedInput none (some 60)) = 1
      ∧ (getBucketing exampleConfig (savedInput none (some 60)) { args := [] }).map
          (fun b => b.info.BucketCount) = some 30)
    ∧ (historyBucketCount (savedInput (some 10) none) = 10
      ∧ (getBucketing exampleConfig (savedInput (some 10) none) { args := [] }).map
          (fun b => b.info.BucketCount) = some 10)
    ∧ historyTimestampColumn (savedInput none none)
      = "fromUnixTimestamp(toInt64(__highlight_bucket_index*(__highlight_max-__highlight_min)/1 + __highlight_min))" := by
  decide

/-! ## The attribute lookup of an unknown identifier -/

/-- C30 (the code at the failing input): the identifier named
`x'] OR 1=1 OR LogAttributes['y`, which is no known field, is replaced by the
unquoted text `LogAttributes['x'] OR 1=1 OR LogAttributes['y']`: line 310
pastes the name between the quotes as it is, so the single quote of the name
ends the string literal and the rest of the name is SQL outside the lookup.
The WHERE of a SELECT on `logs` carries that text. -/
theorem replaceIdent_unescaped_quote :
    replaceIdent exampleConfig [] { Name := "x'] OR 1=1 OR LogAttributes['y", QuoteType := 2 }
      = { Name := "LogAttributes['x'] OR 1=1 OR LogAttributes['y']", QuoteType := 0 }
    ∧ replaceIdent exampleConfig [] { Name := "a\\", QuoteType := 2 }
      = { Name := "LogAttributes['a\\']", QuoteType := 0 }
    ∧ (visitSelect exampleSqlEnv exampleConfig (sqlInput "" [7])
        { selectItems := [], fromExpr := some (fromTable "logs"),
          whereExpr := some (.ident { Name := "x'] OR 1=1 OR LogAttributes['y", QuoteType := 2 }),
          rest := [] }).value?.map (fun q => q.whereExpr)
      = some (some (.binaryOperation
          (.paramExprList
            [.ident { Name := "LogAttributes['x'] OR 1=1 OR LogAttributes['y']",
                      QuoteType := 0 }])
          "AND"
          (.binaryOperation
            (.binaryOperation (.ident { Name := "ProjectId", QuoteType := 0 }) "="
              (.numberLiteral "7"))
            "AND" (timeRangeExpr 0 1800)))) := by
  refine ⟨?_, ?_, ?_⟩ <;> rfl

end Clickhouse
